import Mathlib

/-!
Vehicle Configurator: embedding of `src/app.cpp`.

Modelling conventions.

* `double` values are exact rationals (`ℚ`): no rounding, no NaN, no infinity.
  Every catalog price is a whole number far below `2^53`, where `double`
  addition is exact.
* `std::shared_ptr<Vehicle>` values only ever point at elements of
  `availableVehicles`, which never grows or shrinks after `initializeData`;
  such a pointer is the position of the element (`Option Nat`, `none` = null).
  Catalog engines are never mutated, so `std::shared_ptr<Engine>` is the
  engine value itself.
* Text is a list of characters. A file system is a function from paths to the
  content of the files that can be opened for reading. `operator<<`,
  `std::stod`, `std::stoi` and `std::getline` are modelled on that text; what
  each model leaves out is said at its definition.
* An exception that leaves `loadConfiguration` is the result `threw`, returned
  together with the state reached when it was thrown.
* Console output, animation delays and ASCII art are not modelled.
-/

namespace VC

/-! ## Data model -/

/-- Equipment categories, in the order of the C++ `enum class`. -/
inductive EquipmentCategory where
  | COMFORT
  | SAFETY
  | MULTIMEDIA
  | EXTERIOR
  | PERFORMANCE
deriving DecidableEq, Repr

/-- Class `Equipment`. -/
structure Equipment where
  name : String
  description : String
  price : ℚ
  category : EquipmentCategory
deriving DecidableEq, Repr

/-- Class `Engine`. -/
structure Engine where
  name : String
  capacity : ℚ
  horsePower : Int
  fuelType : String
  price : ℚ
  co2Emissions : Int
  fuelConsumption : ℚ
deriving DecidableEq, Repr

/-- The three subclasses of `Vehicle` with their own fields. -/
inductive VehicleKind where
  | Car (numberOfDoors : Int) (bodyType : String) (trunkCapacity : Int)
  | Motorcycle (type : String) (engineDisplacement : Int)
  | ElectricVehicle (batteryCapacity : Int) (range : Int) (chargingTime : Int)
deriving DecidableEq, Repr

/-- Class `Vehicle` (fields of the base class; `kind` carries the subclass). -/
structure Vehicle where
  brand : String
  model : String
  basePrice : ℚ
  engine : Option Engine
  selectedEquipment : List Equipment
  color : String
  year : String
  discount : ℚ
  kind : VehicleKind
deriving DecidableEq, Repr

namespace Vehicle

/-- Constructor `Vehicle(brand, model, basePrice, year)`: colour "White",
discount 0, no engine, no equipment. -/
def new (brand model : String) (basePrice : ℚ) (year : String) (kind : VehicleKind) : Vehicle :=
  { brand := brand, model := model, basePrice := basePrice, engine := none,
    selectedEquipment := [], color := "White", year := year, discount := 0, kind := kind }

/-- Setter `setEngine`. -/
def setEngine (v : Vehicle) (newEngine : Option Engine) : Vehicle :=
  { v with engine := newEngine }

/-- Setter `setColor`. -/
def setColor (v : Vehicle) (newColor : String) : Vehicle :=
  { v with color := newColor }

/-- Setter `setDiscount`. -/
def setDiscount (v : Vehicle) (newDiscount : ℚ) : Vehicle :=
  { v with discount := newDiscount }

/-- Method `Vehicle::addEquipment`: `find_if` on the name, `push_back` when the
search reaches `end()`. -/
def addEquipment (v : Vehicle) (equipment : Equipment) : Vehicle :=
  match v.selectedEquipment.find? (fun e => e.name == equipment.name) with
  | none => { v with selectedEquipment := v.selectedEquipment ++ [equipment] }
  | some _ => v

/-- Method `Vehicle::removeEquipment`: `find_if` on the name, `erase` of the
first hit. -/
def removeEquipment (v : Vehicle) (name : String) : Vehicle :=
  match v.selectedEquipment.find? (fun e => e.name == name) with
  | some _ => { v with selectedEquipment := v.selectedEquipment.eraseP (fun e => e.name == name) }
  | none => v

/-- Method `Vehicle::calculateTotalPrice`. -/
def calculateTotalPrice (v : Vehicle) : ℚ :=
  let total := v.basePrice
  let total := match v.engine with
    | some e => total + e.price
    | none => total
  let total := v.selectedEquipment.foldl (fun t equipment => t + equipment.price) total
  if v.discount > 0 then total * (1 - v.discount / 100) else total

end Vehicle

/-! ## Text conversions of the standard library

`operator<<` for integers and for `double` (default flags: `%g` with six
significant digits), `std::stod`, `std::stoi` and `std::getline`, on lists of
characters. -/

/-- The character of the decimal digit `d`. -/
def digitChar (d : Nat) : Char := Char.ofNat (48 + d)

/-- Digits of `n`, most significant first, pushed in front of `acc`; `fuel`
bounds the number of digits. -/
def showNatAux : Nat → Nat → List Char → List Char
  | 0, _, acc => acc
  | fuel + 1, n, acc =>
    if n < 10 then digitChar n :: acc
    else showNatAux fuel (n / 10) (digitChar (n % 10) :: acc)

/-- Text written by `os << n` for an unsigned integer. -/
def showNat (n : Nat) : List Char := showNatAux (n + 1) n []

/-- Text written by `os << i` for an `int`. -/
def showInt (i : Int) : List Char :=
  if i < 0 then '-' :: showNat i.natAbs else showNat i.natAbs

/-- Nearest integer to `n / d`, ties to the even neighbour. -/
def roundHalfEven (n d : Nat) : Nat :=
  if 2 * (n % d) < d then n / d
  else if d < 2 * (n % d) then n / d + 1
  else if (n / d) % 2 = 0 then n / d
  else n / d + 1

/-- Least `k >= 1` with `d <= n * 10^k`, searched with `fuel` steps. -/
def leadingShift : Nat → Nat → Nat → Nat
  | 0, _, _ => 0
  | fuel + 1, n, d => if d ≤ n * 10 then 1 else 1 + leadingShift fuel (n * 10) d

/-- Decimal exponent `X` of the positive rational `n / d`:
`10^X <= n/d < 10^(X+1)`. -/
def decExponent (n d : Nat) : Int :=
  if d ≤ n then ((showNat (n / d)).length : Int) - 1
  else - (leadingShift d n d : Int)

/-- The rational `n / d` scaled to six significant digits for exponent `X`
and rounded: `round (n/d * 10^(5 - X))`. -/
def sigDigits (n d : Nat) (X : Int) : Nat :=
  if X ≤ 5 then roundHalfEven (n * 10 ^ (5 - X).toNat) d
  else roundHalfEven n (d * 10 ^ (X - 5).toNat)

/-- Removal of trailing zeros, as `%g` does without the `#` flag. -/
def stripTrailingZeros (l : List Char) : List Char :=
  (l.reverse.dropWhile (fun c => c == '0')).reverse

/-- Integer part, then the fraction behind a point unless it is empty. -/
def withPoint (intPart frac : List Char) : List Char :=
  if frac.isEmpty then intPart else intPart ++ '.' :: frac

/-- Exponent suffix of the `%e` style: sign and at least two digits. -/
def showExponent (X : Int) : List Char :=
  'e' :: (if X < 0 then '-' else '+') ::
    (if X.natAbs < 10 then '0' :: showNat X.natAbs else showNat X.natAbs)

/-- Layout of `%g` for six significant digits `ds` and decimal exponent `X`:
scientific style when `X < -4` or `X >= 6`, fixed style otherwise, trailing
zeros (and a trailing point) removed. -/
def layoutG (X : Int) (ds : List Char) : List Char :=
  if X < -4 ∨ 6 ≤ X then
    withPoint (ds.take 1) (stripTrailingZeros (ds.drop 1)) ++ showExponent X
  else if 0 ≤ X then
    withPoint (ds.take (X.toNat + 1)) (stripTrailingZeros (ds.drop (X.toNat + 1)))
  else
    withPoint ['0'] (List.replicate ((-X).toNat - 1) '0' ++ stripTrailingZeros ds)

/-- Text of `%g` with precision 6 for the positive rational `n / d`: the value
is rounded to six significant digits (a carry to `10^6` moves the exponent up
by one) and laid out by `layoutG` for the exponent of the rounded value. -/
def showPositive (n d : Nat) : List Char :=
  let X0 := decExponent n d
  let m0 := sigDigits n d X0
  let X := if m0 = 1000000 then X0 + 1 else X0
  let m := if m0 = 1000000 then 100000 else m0
  layoutG X (showNat m)

/-- Text written by `os << x` for a `double` on a stream with default flags
and precision. -/
def showDouble (x : ℚ) : List Char :=
  if x = 0 then ['0']
  else if x < 0 then '-' :: showPositive x.num.natAbs x.den
  else showPositive x.num.natAbs x.den

/-- Characters skipped by `strtod` and `strtol` in front of a number
(`isspace` in the "C" locale). -/
def isSpace (c : Char) : Bool :=
  c == ' ' || c == '\t' || c == '\n' || c == '\x0b' || c == '\x0c' || c == '\r'

/-- Decimal digit test. -/
def isDigit (c : Char) : Bool := 48 ≤ c.toNat && c.toNat ≤ 57

/-- Value of a run of decimal digits. -/
def digitsToNat (ds : List Char) : Nat :=
  ds.foldl (fun a c => 10 * a + (c.toNat - 48)) 0

/-- Optional sign in front of a number: `true` for a minus sign. -/
def parseSign : List Char → Bool × List Char
  | [] => (false, [])
  | c :: r => if c = '-' then (true, r) else if c = '+' then (false, r) else (false, c :: r)

/-- Exponent part `e[sign]digits` of a decimal floating literal; 0 when the
text does not continue with a complete exponent. -/
def parseExponent : List Char → Int
  | [] => 0
  | c :: r =>
    if c = 'e' ∨ c = 'E' then
      if ((parseSign r).2.span isDigit).1.isEmpty then 0
      else if (parseSign r).1 then - (digitsToNat ((parseSign r).2.span isDigit).1 : Int)
      else (digitsToNat ((parseSign r).2.span isDigit).1 : Int)
    else 0

/-- Fraction digits behind a decimal point, with the text after them. -/
def parseFraction : List Char → List Char × List Char
  | [] => ([], [])
  | c :: r => if c = '.' then r.span isDigit else ([], c :: r)

/-- Function `std::stod` on decimal text: skips white space, converts the
longest prefix `[sign] digits [. digits] [e [sign] digits]`, and ignores what
follows. `none` stands for the exception thrown: `invalid_argument` when there
is no digit to convert, `out_of_range` when the magnitude is at or beyond the
rounding boundary to infinity or is non-zero and below the smallest normal
`double`. The forms `inf`, `nan` and hexadecimal literals, which have no
rational value, are outside this model. -/
def stod (s : List Char) : Option ℚ :=
  let s1 := parseSign (s.dropWhile isSpace)
  let ip := s1.2.span isDigit
  let fp := parseFraction ip.2
  if ip.1.isEmpty ∧ fp.1.isEmpty then none
  else
    let mant : ℚ := (digitsToNat ip.1 : ℚ) + (digitsToNat fp.1 : ℚ) / 10 ^ fp.1.length
    let v : ℚ := mant * 10 ^ parseExponent fp.2
    if (2 : ℚ) ^ 1024 - 2 ^ 970 ≤ v then none
    else if 0 < v ∧ v < 1 / 2 ^ 1022 then none
    else some (if s1.1 then -v else v)

/-- Function `std::stoi` (base 10): skips white space, converts the longest
prefix `[sign] digits`; `none` stands for `invalid_argument` (no digit) or
`out_of_range` (outside the 32-bit `int`). -/
def stoi (s : List Char) : Option Int :=
  let s1 := parseSign (s.dropWhile isSpace)
  let ds := (s1.2.span isDigit).1
  if ds.isEmpty then none
  else
    let v : Int := if s1.1 then - (digitsToNat ds : Int) else (digitsToNat ds : Int)
    if v < -2147483648 ∨ 2147483647 < v then none else some v

/-- Split at the first line feed: the text before it and the text after it. -/
def splitLine : List Char → Option (List Char × List Char)
  | [] => none
  | c :: cs =>
    if c = '\n' then some ([], cs)
    else match splitLine cs with
      | some (l, rest) => some (c :: l, rest)
      | none => none

/-- Function `std::getline(file, line)`. The stream is `some rest` while it is
`good()` and `none` once `eofbit` or `failbit` is set. On a stream that is not
good the call leaves `line` as it was; otherwise `line` receives the text up
to the next line feed, or everything left (and the stream stops being good)
when there is none. -/
def getline (file : Option (List Char)) (line : List Char) : Option (List Char) × List Char :=
  match file with
  | none => (none, line)
  | some cs =>
    match splitLine cs with
    | some (l, rest) => (some rest, l)
    | none => (none, cs)

/-- Expression `line.substr(line.find('=') + 1)`: the text after the first
`=`, and the whole line when there is none (`npos + 1` wraps to 0). -/
def valueOf (line : List Char) : List Char :=
  match line.dropWhile (fun c => c != '=') with
  | [] => line
  | _ :: rest => rest

/-- Test `s.find(pat) != npos`. -/
def hasSubstr (pat : List Char) : List Char → Bool
  | [] => pat.isEmpty
  | c :: cs => pat.isPrefixOf (c :: cs) || hasSubstr pat cs

/-- Concatenation of lines, each followed by a line feed. -/
def unlines : List (List Char) → List Char
  | [] => []
  | l :: ls => l ++ '\n' :: unlines ls

/-! ## Price formatting: `formatPrice` -/

/-- Text written by `ss << std::fixed << std::setprecision(2) << price`:
optional minus sign, integer digits, a point and two decimals, the value
rounded to hundredths (ties to even). -/
def showFixed2 (x : ℚ) : List Char :=
  (if x < 0 then ['-'] else [])
    ++ showNat (roundHalfEven (x.num.natAbs * 100) x.den / 100)
    ++ ['.', digitChar (roundHalfEven (x.num.natAbs * 100) x.den % 100 / 10),
        digitChar (roundHalfEven (x.num.natAbs * 100) x.den % 10)]

/-- Position returned by `priceStr.find('.')`, or the length when there is no
point. -/
def findPoint : List Char → Nat
  | [] => 0
  | c :: cs => if c = '.' then 0 else findPoint cs + 1

/-- Loop `while (pos > 3) { pos -= 3; priceStr.insert(pos, ","); }` of
`formatPrice`; `fuel` bounds the number of iterations. -/
def insertCommas : Nat → List Char → Nat → List Char
  | 0, priceStr, _ => priceStr
  | fuel + 1, priceStr, pos =>
    if 3 < pos then
      insertCommas fuel (priceStr.take (pos - 3) ++ ',' :: priceStr.drop (pos - 3)) (pos - 3)
    else priceStr

/-- Function `formatPrice(price)`. -/
def formatPrice (price : ℚ) : List Char :=
  insertCommas (findPoint (showFixed2 price)) (showFixed2 price) (findPoint (showFixed2 price))
    ++ " USD".data

/-! ## Saving: `Vehicle::saveToFile` -/

/-- Value of `static_cast<int>(category)`. -/
def EquipmentCategory.toInt : EquipmentCategory → Int
  | .COMFORT => 0
  | .SAFETY => 1
  | .MULTIMEDIA => 2
  | .EXTERIOR => 3
  | .PERFORMANCE => 4

/-- A line `KEY=value`, as written by `file << "KEY=" << value`. -/
def kv (key : String) (value : List Char) : List Char :=
  key.data ++ '=' :: value

/-- Lines written by the `[ENGINE]` block of `saveToFile`. -/
def engineLines (e : Engine) : List (List Char) :=
  [ "[ENGINE]".data,
    kv "NAME" e.name.data,
    kv "CAPACITY" (showDouble e.capacity),
    kv "HORSEPOWER" (showInt e.horsePower),
    kv "FUEL_TYPE" e.fuelType.data,
    kv "PRICE" (showDouble e.price),
    kv "CO2_EMISSIONS" (showInt e.co2Emissions),
    kv "FUEL_CONSUMPTION" (showDouble e.fuelConsumption),
    [] ]

/-- Lines written by the item loop of `saveToFile` from loop index `i` on. -/
def itemLines : Nat → List Equipment → List (List Char)
  | _, [] => []
  | i, e :: es =>
    ("[EQUIPMENT_ITEM_".data ++ showNat (i + 1) ++ "]".data) ::
    kv "NAME" e.name.data ::
    kv "DESCRIPTION" e.description.data ::
    kv "PRICE" (showDouble e.price) ::
    kv "CATEGORY" (showInt e.category.toInt) ::
    [] :: itemLines (i + 1) es

/-- Lines written by `saveToFile`, in order; `dateTime` is the text returned
by `getCurrentDateTime()`. -/
def Vehicle.saveLines (v : Vehicle) (dateTime : List Char) : List (List Char) :=
  [ "VEHICLE_CONFIGURATION".data,
    "VERSION 2.0".data,
    "DATE ".data ++ dateTime,
    [],
    "[VEHICLE]".data,
    kv "BRAND" v.brand.data,
    kv "MODEL" v.model.data,
    kv "YEAR" v.year.data,
    kv "BASE_PRICE" (showDouble v.basePrice),
    kv "COLOR" v.color.data,
    kv "DISCOUNT" (showDouble v.discount),
    [] ]
  ++ (match v.engine with
      | some e => engineLines e
      | none => [])
  ++ [ "[EQUIPMENT]".data,
       kv "COUNT" (showNat v.selectedEquipment.length),
       [] ]
  ++ itemLines 0 v.selectedEquipment
  ++ [ "[SUMMARY]".data,
       kv "TOTAL_PRICE" (showDouble v.calculateTotalPrice) ]

/-- Method `Vehicle::saveToFile`: the content of the file after a successful
open; every line written ends with a line feed. -/
def Vehicle.saveToFile (v : Vehicle) (dateTime : List Char) : List Char :=
  unlines (v.saveLines dateTime)

/-! ## The file format

Section 6 of the specification, which is the layout written by `saveToFile`.
Fields are kept as the text that stands in the file. -/

/-- The `[ENGINE]` section of a configuration file. -/
structure FileEngine where
  name : List Char
  capacity : List Char
  horsePower : List Char
  fuelType : List Char
  price : List Char
  co2Emissions : List Char
  fuelConsumption : List Char
deriving DecidableEq, Repr

/-- One `[EQUIPMENT_ITEM_k]` block of a configuration file. -/
structure FileItem where
  name : List Char
  description : List Char
  price : List Char
  category : List Char
deriving DecidableEq, Repr

/-- A configuration file in the format of section 6: header, `[VEHICLE]`,
optional `[ENGINE]`, `[EQUIPMENT]` with `COUNT` equal to the number of item
blocks, the item blocks, `[SUMMARY]`. -/
structure ConfigFile where
  date : List Char
  brand : List Char
  model : List Char
  year : List Char
  basePrice : List Char
  color : List Char
  discount : List Char
  engine : Option FileEngine
  items : List FileItem
  totalPrice : List Char
deriving DecidableEq, Repr

/-- Lines of an `[ENGINE]` section. -/
def FileEngine.lines (e : FileEngine) : List (List Char) :=
  [ "[ENGINE]".data,
    kv "NAME" e.name,
    kv "CAPACITY" e.capacity,
    kv "HORSEPOWER" e.horsePower,
    kv "FUEL_TYPE" e.fuelType,
    kv "PRICE" e.price,
    kv "CO2_EMISSIONS" e.co2Emissions,
    kv "FUEL_CONSUMPTION" e.fuelConsumption,
    [] ]

/-- Lines of the item blocks, the first of which has number `i + 1`. -/
def fileItemLines : Nat → List FileItem → List (List Char)
  | _, [] => []
  | i, it :: its =>
    ("[EQUIPMENT_ITEM_".data ++ showNat (i + 1) ++ "]".data) ::
    kv "NAME" it.name ::
    kv "DESCRIPTION" it.description ::
    kv "PRICE" it.price ::
    kv "CATEGORY" it.category ::
    [] :: fileItemLines (i + 1) its

/-- Lines of a configuration file. -/
def ConfigFile.lines (f : ConfigFile) : List (List Char) :=
  [ "VEHICLE_CONFIGURATION".data,
    "VERSION 2.0".data,
    "DATE ".data ++ f.date,
    [],
    "[VEHICLE]".data,
    kv "BRAND" f.brand,
    kv "MODEL" f.model,
    kv "YEAR" f.year,
    kv "BASE_PRICE" f.basePrice,
    kv "COLOR" f.color,
    kv "DISCOUNT" f.discount,
    [] ]
  ++ (match f.engine with
      | some e => e.lines
      | none => [])
  ++ [ "[EQUIPMENT]".data,
       kv "COUNT" (showNat f.items.length),
       [] ]
  ++ fileItemLines 0 f.items
  ++ [ "[SUMMARY]".data,
       kv "TOTAL_PRICE" f.totalPrice ]

/-- Content of a configuration file. -/
def ConfigFile.text (f : ConfigFile) : List Char :=
  unlines f.lines

/-- A field that fits on its line: it holds no line feed. -/
def oneLine (s : List Char) : Prop := '\n' ∉ s

/-- Well-formed `[ENGINE]` section: every field fits on its line and every
numeric field holds text that its conversion (`stod` for decimals, `stoi` for
integers) accepts. -/
def FileEngine.WellFormed (e : FileEngine) : Prop :=
  oneLine e.name ∧ oneLine e.capacity ∧ oneLine e.horsePower ∧ oneLine e.fuelType
    ∧ oneLine e.price ∧ oneLine e.co2Emissions ∧ oneLine e.fuelConsumption
    ∧ (stod e.capacity).isSome ∧ (stoi e.horsePower).isSome ∧ (stod e.price).isSome
    ∧ (stoi e.co2Emissions).isSome ∧ (stod e.fuelConsumption).isSome

/-- Well-formed item block. -/
def FileItem.WellFormed (it : FileItem) : Prop :=
  oneLine it.name ∧ oneLine it.description ∧ oneLine it.price ∧ oneLine it.category
    ∧ (stod it.price).isSome ∧ (stoi it.category).isSome

/-- Well-formed configuration file: every field fits on its line, every
numeric field holds text that its conversion accepts, and the number of item
blocks fits the `int` read from `COUNT`. -/
def ConfigFile.WellFormed (f : ConfigFile) : Prop :=
  oneLine f.date ∧ oneLine f.brand ∧ oneLine f.model ∧ oneLine f.year
    ∧ oneLine f.basePrice ∧ oneLine f.color ∧ oneLine f.discount
    ∧ (stod f.basePrice).isSome ∧ (stod f.discount).isSome
    ∧ (∀ e ∈ f.engine, e.WellFormed)
    ∧ (∀ it ∈ f.items, it.WellFormed)
    ∧ f.items.length ≤ 2147483647

instance (s : List Char) : Decidable (oneLine s) := by
  unfold oneLine; infer_instance

instance (e : FileEngine) : Decidable e.WellFormed := by
  unfold FileEngine.WellFormed; infer_instance

instance (it : FileItem) : Decidable it.WellFormed := by
  unfold FileItem.WellFormed; infer_instance

instance (f : ConfigFile) : Decidable f.WellFormed := by
  unfold ConfigFile.WellFormed; infer_instance

/-- The file that `saveToFile` writes for `v`, field by field. -/
def ConfigFile.ofVehicle (v : Vehicle) (dateTime : List Char) : ConfigFile :=
  { date := dateTime,
    brand := v.brand.data,
    model := v.model.data,
    year := v.year.data,
    basePrice := showDouble v.basePrice,
    color := v.color.data,
    discount := showDouble v.discount,
    engine := v.engine.map (fun e =>
      { name := e.name.data,
        capacity := showDouble e.capacity,
        horsePower := showInt e.horsePower,
        fuelType := e.fuelType.data,
        price := showDouble e.price,
        co2Emissions := showInt e.co2Emissions,
        fuelConsumption := showDouble e.fuelConsumption }),
    items := v.selectedEquipment.map (fun e =>
      { name := e.name.data,
        description := e.description.data,
        price := showDouble e.price,
        category := showInt e.category.toInt }),
    totalPrice := showDouble v.calculateTotalPrice }

/-- Class `VehicleConfigurator`. `currentVehicle` and `comparisonVehicle` are
positions in `availableVehicles`. -/
structure VehicleConfigurator where
  availableVehicles : List Vehicle
  availableEngines : List Engine
  availableEquipment : List Equipment
  availableColors : List String
  currentVehicle : Option Nat
  comparisonVehicle : Option Nat
deriving DecidableEq, Repr

namespace VehicleConfigurator

/-- Catalog engines pushed by `initializeData`, in order. -/
def catalogEngines : List Engine :=
  [ ⟨"1.4 TSI", 1.4, 150, "Gasoline", 12000, 130, 6.5⟩,
    ⟨"1.6 TDI", 1.6, 115, "Diesel", 15000, 110, 4.8⟩,
    ⟨"2.0 TDI", 2.0, 190, "Diesel", 20000, 135, 5.2⟩,
    ⟨"2.0 TSI", 2.0, 220, "Gasoline", 22000, 155, 7.1⟩,
    ⟨"Electric Motor", 0.0, 204, "Electric", 30000, 0, 0.0⟩,
    ⟨"Hybrid 1.8", 1.8, 180, "Hybrid", 25000, 95, 4.2⟩,
    ⟨"3.0 V6", 3.0, 340, "Gasoline", 35000, 190, 9.8⟩,
    ⟨"650cc Twin", 0.65, 75, "Gasoline", 8000, 90, 3.8⟩ ]

/-- Catalog equipment pushed by `initializeData`, in order. -/
def catalogEquipment : List Equipment :=
  [ ⟨"Leather upholstery", "High-quality leather upholstery", 5000, .COMFORT⟩,
    ⟨"Navigation system", "Advanced GPS navigation system", 3000, .MULTIMEDIA⟩,
    ⟨"Panoramic roof", "Glass panoramic roof", 7000, .EXTERIOR⟩,
    ⟨"Heated seats", "Heated front seats", 2000, .COMFORT⟩,
    ⟨"Premium audio system", "Audio system with 12 speakers", 4500, .MULTIMEDIA⟩,
    ⟨"Parking assistant", "Automatic parking assistant", 3500, .SAFETY⟩,
    ⟨"Adaptive cruise control", "Cruise control with adaptive function", 4000, .SAFETY⟩,
    ⟨"Backup camera", "HD camera with 360-degree view", 2500, .SAFETY⟩,
    ⟨"Sport suspension", "Lowered sport suspension", 3800, .PERFORMANCE⟩,
    ⟨"Alloy wheels 19\"", "19-inch alloy wheels", 4200, .EXTERIOR⟩,
    ⟨"LED headlights", "Full LED headlights with dynamic turn signals", 3200, .EXTERIOR⟩,
    ⟨"Sport exhaust", "Sport exhaust system with enhanced sound", 5500, .PERFORMANCE⟩,
    ⟨"Wireless charging", "Wireless phone charging pad", 800, .MULTIMEDIA⟩,
    ⟨"Head-up display", "Information projected onto windshield", 2800, .MULTIMEDIA⟩,
    ⟨"Keyless entry", "Keyless entry and start system", 1500, .COMFORT⟩ ]

/-- Catalog vehicles pushed by `initializeData`, in order. -/
def catalogVehicles : List Vehicle :=
  [ Vehicle.new "Volkswagen" "Golf" 80000 "2023" (.Car 5 "Hatchback" 380),
    Vehicle.new "Audi" "A4" 150000 "2023" (.Car 4 "Sedan" 480),
    Vehicle.new "BMW" "X5" 250000 "2023" (.Car 5 "SUV" 650),
    Vehicle.new "Toyota" "Corolla" 90000 "2023" (.Car 4 "Sedan" 470),
    Vehicle.new "Mercedes-Benz" "C-Class" 170000 "2023" (.Car 4 "Sedan" 455),
    Vehicle.new "Ford" "Mustang" 220000 "2023" (.Car 2 "Coupe" 408),
    Vehicle.new "Yamaha" "MT-07" 35000 "2023" (.Motorcycle "Naked" 689),
    Vehicle.new "Honda" "CBR650R" 42000 "2023" (.Motorcycle "Sport" 649),
    Vehicle.new "Harley-Davidson" "Fat Boy" 85000 "2023" (.Motorcycle "Cruiser" 1868),
    Vehicle.new "Tesla" "Model 3" 180000 "2023" (.ElectricVehicle 75 560 30),
    Vehicle.new "Nissan" "Leaf" 120000 "2023" (.ElectricVehicle 62 385 40) ]

/-- Catalog colours set by `initializeData`. -/
def catalogColors : List String :=
  ["White", "Black", "Red", "Blue", "Silver", "Green", "Yellow", "Orange", "Purple", "Brown"]

/-- Constructor `VehicleConfigurator()`: runs `initializeData` on empty
vectors and null pointers. -/
def initializeData : VehicleConfigurator :=
  { availableVehicles := catalogVehicles,
    availableEngines := catalogEngines,
    availableEquipment := catalogEquipment,
    availableColors := catalogColors,
    currentVehicle := none,
    comparisonVehicle := none }

/-- The object `*currentVehicle`, when the pointer is not null. -/
def current (c : VehicleConfigurator) : Option Vehicle :=
  c.currentVehicle.bind (fun i => c.availableVehicles[i]?)

/-- Effect of calling a mutating method through `currentVehicle->`: the
pointed-to element of `availableVehicles` is replaced by the result. -/
def updateCurrent (c : VehicleConfigurator) (f : Vehicle → Vehicle) : VehicleConfigurator :=
  match c.currentVehicle with
  | none => c
  | some i => { c with availableVehicles := c.availableVehicles.modify f i }

/-- Method `hasSelectedVehicle`. -/
def hasSelectedVehicle (c : VehicleConfigurator) : Bool :=
  c.currentVehicle.isSome

/-- Method `selectVehicle(index)`. -/
def selectVehicle (c : VehicleConfigurator) (index : Nat) : Bool × VehicleConfigurator :=
  if index ≥ 1 ∧ index ≤ c.availableVehicles.length then
    (true, { c with currentVehicle := some (index - 1) })
  else
    (false, c)

/-- Method `selectEngine(index)`. -/
def selectEngine (c : VehicleConfigurator) (index : Nat) : Bool × VehicleConfigurator :=
  if c.currentVehicle.isSome ∧ index ≥ 1 ∧ index ≤ c.availableEngines.length then
    (true, c.updateCurrent (fun v => v.setEngine c.availableEngines[index - 1]?))
  else
    (false, c)

/-- Method `VehicleConfigurator::addEquipment(index)`. -/
def addEquipment (c : VehicleConfigurator) (index : Nat) : Bool × VehicleConfigurator :=
  if c.currentVehicle.isSome ∧ index ≥ 1 ∧ index ≤ c.availableEquipment.length then
    match c.availableEquipment[index - 1]? with
    | some e => (true, c.updateCurrent (fun v => v.addEquipment e))
    | none => (true, c)
  else
    (false, c)

/-- Method `selectColor(index)`. -/
def selectColor (c : VehicleConfigurator) (index : Nat) : Bool × VehicleConfigurator :=
  if c.currentVehicle.isSome ∧ index ≥ 1 ∧ index ≤ c.availableColors.length then
    match c.availableColors[index - 1]? with
    | some col => (true, c.updateCurrent (fun v => v.setColor col))
    | none => (true, c)
  else
    (false, c)

/-- Method `applyDiscount(discountPercent)`. -/
def applyDiscount (c : VehicleConfigurator) (discountPercent : ℚ) : Bool × VehicleConfigurator :=
  if c.currentVehicle.isSome ∧ discountPercent ≥ 0 ∧ discountPercent ≤ 30 then
    (true, c.updateCurrent (fun v => v.setDiscount discountPercent))
  else
    (false, c)

/-- Method `saveForComparison`. -/
def saveForComparison (c : VehicleConfigurator) : VehicleConfigurator :=
  match c.currentVehicle with
  | some i => { c with comparisonVehicle := some i }
  | none => c

/-- File name normalisation shared by `saveConfiguration` and
`loadConfiguration`: `configs/` in front unless `find("configs/")` succeeds,
`.txt` behind unless `find(".txt")` succeeds. -/
def fullPath (filename : List Char) : List Char :=
  let p := if hasSubstr "configs/".data filename then filename else "configs/".data ++ filename
  if hasSubstr ".txt".data p then p else p ++ ".txt".data

/-- Method `saveConfiguration(filename)`, in the case where the output file
can be opened: the file at the normalised path receives the text of
`saveToFile`; without a current vehicle nothing is written. `dateTime` is the
clock text of `getCurrentDateTime()`. -/
def saveConfiguration (c : VehicleConfigurator) (fs : List Char → Option (List Char))
    (filename dateTime : List Char) : List Char → Option (List Char) :=
  match c.current with
  | some v => fun p => if p = fullPath filename then some (v.saveToFile dateTime) else fs p
  | none => fs

/-- How a call of `loadConfiguration` ends: `return true`, `return false`, or
an exception of `std::stod` / `std::stoi` leaving the function. -/
inductive LoadResult where
  | returnedTrue
  | returnedFalse
  | threw
deriving DecidableEq, Repr

/-- Index of the first element satisfying `p`, as found by a `for` loop with
`break`. -/
def findIndex {α : Type} (p : α → Bool) : List α → Option Nat
  | [] => none
  | x :: xs => if p x then some 0 else (findIndex p xs).map (fun i => i + 1)

/-- Loop "Find matching engine" of `loadConfiguration`: the first catalog
engine with the name read is set on the current vehicle; nothing happens when
there is none. -/
def installEngineNamed (c : VehicleConfigurator) (engineName : List Char) : VehicleConfigurator :=
  match c.availableEngines.find? (fun e => e.name.data == engineName) with
  | some e => c.updateCurrent (fun v => v.setEngine (some e))
  | none => c

/-- Loop "Find matching equipment" of `loadConfiguration`: the first catalog
item with the name read is passed to `Vehicle::addEquipment` of the current
vehicle; nothing happens when there is none. -/
def addEquipmentNamed (c : VehicleConfigurator) (equipmentName : List Char) :
    VehicleConfigurator :=
  match c.availableEquipment.find? (fun e => e.name.data == equipmentName) with
  | some e => c.updateCurrent (fun v => v.addEquipment e)
  | none => c

/-- Item loop of `loadConfiguration` with `n` iterations left
(`n = equipmentCount - i`). -/
def loadItems : Nat → VehicleConfigurator → Option (List Char) → List Char →
    LoadResult × VehicleConfigurator
  | 0, c, _, _ => (.returnedTrue, c)
  | n + 1, c, file, line =>
    let r1 := getline file line
    let r2 := getline r1.1 r1.2
    let equipmentName := valueOf r2.2
    let r3 := getline r2.1 r2.2
    let r4 := getline r3.1 r3.2
    match stod (valueOf r4.2) with
    | none => (.threw, c)
    | some _ =>
      let r5 := getline r4.1 r4.2
      match stoi (valueOf r5.2) with
      | none => (.threw, c)
      | some _ =>
        let c1 := c.addEquipmentNamed equipmentName
        let r6 := if 1 ≤ n then getline r5.1 r5.2 else r5
        loadItems n c1 r6.1 r6.2

/-- Engine and equipment sections of `loadConfiguration`, entered once the
vehicle has been found; `file` and `line` are the stream and the `line`
variable at that point. -/
def loadSections (c : VehicleConfigurator) (file : Option (List Char)) (line : List Char) :
    LoadResult × VehicleConfigurator :=
  let r1 := getline file line
  let r2 := getline r1.1 r1.2
  let r3 := getline r2.1 r2.2
  let engineName := valueOf r3.2
  let r4 := getline r3.1 r3.2
  match stod (valueOf r4.2) with
  | none => (.threw, c)
  | some _ =>
    let r5 := getline r4.1 r4.2
    match stoi (valueOf r5.2) with
    | none => (.threw, c)
    | some _ =>
      let r6 := getline r5.1 r5.2
      let r7 := getline r6.1 r6.2
      match stod (valueOf r7.2) with
      | none => (.threw, c)
      | some _ =>
        let r8 := getline r7.1 r7.2
        match stoi (valueOf r8.2) with
        | none => (.threw, c)
        | some _ =>
          let r9 := getline r8.1 r8.2
          match stod (valueOf r9.2) with
          | none => (.threw, c)
          | some _ =>
            let c1 := c.installEngineNamed engineName
            let r10 := getline r9.1 r9.2
            let r11 := getline r10.1 r10.2
            let r12 := getline r11.1 r11.2
            match stoi (valueOf r12.2) with
            | none => (.threw, c1)
            | some equipmentCount =>
              let r13 := getline r12.1 r12.2
              loadItems equipmentCount.toNat c1 r13.1 r13.2

/-- Method `loadConfiguration(filename)`. `fs` gives the content of the files
that can be opened for reading. -/
def loadConfiguration (c : VehicleConfigurator) (fs : List Char → Option (List Char))
    (filename : List Char) : LoadResult × VehicleConfigurator :=
  match fs (fullPath filename) with
  | none => (.returnedFalse, c)
  | some content =>
    let r1 := getline (some content) []
    let r2 := getline r1.1 []
    let r3 := getline r2.1 r1.2
    let r4 := getline r3.1 r3.2
    let r5 := getline r4.1 r4.2
    let r6 := getline r5.1 r5.2
    let brand := valueOf r6.2
    let r7 := getline r6.1 r6.2
    let model := valueOf r7.2
    let r8 := getline r7.1 r7.2
    let r9 := getline r8.1 r8.2
    match stod (valueOf r9.2) with
    | none => (.threw, c)
    | some _ =>
      let r10 := getline r9.1 r9.2
      let color := valueOf r10.2
      let r11 := getline r10.1 r10.2
      match stod (valueOf r11.2) with
      | none => (.threw, c)
      | some discount =>
        match findIndex (fun v => v.brand.data == brand && v.model.data == model)
            c.availableVehicles with
        | none => (.returnedFalse, c)
        | some i =>
          let c1 := { c with currentVehicle := some i }
          let c2 := c1.updateCurrent (fun v => (v.setColor (String.mk color)).setDiscount discount)
          loadSections c2 r11.1 r11.2

/-- Method `removeEquipmentMenu()`, with the number typed at the prompt as
`choice`: nothing happens without a current vehicle, with an empty equipment
list, for choice 0 (cancel) and for a choice beyond the list; otherwise the
item shown at position `choice` is removed by name. -/
def removeEquipmentMenu (c : VehicleConfigurator) (choice : Nat) : VehicleConfigurator :=
  match c.current with
  | none => c
  | some v =>
    if v.selectedEquipment.isEmpty then c
    else if choice = 0 then c
    else if choice ≥ 1 ∧ choice ≤ v.selectedEquipment.length then
      match v.selectedEquipment[choice - 1]? with
      | some e => c.updateCurrent (fun w => w.removeEquipment e.name)
      | none => c
    else c

/-- The object `*comparisonVehicle`, when the pointer is not null. -/
def comparison (c : VehicleConfigurator) : Option Vehicle :=
  c.comparisonVehicle.bind (fun i => c.availableVehicles[i]?)

/-- Cell of the "Engine" row of `compareConfigurations` for one vehicle. -/
def engineCell (v : Vehicle) : String :=
  if v.calculateTotalPrice > v.basePrice then "Engine selected" else "No engine selected"

/-- Cell of the "Price Difference" row of `compareConfigurations`:
`(priceDifference >= 0 ? "+" : "") + formatPrice(priceDifference)`. -/
def differenceText (priceDifference : ℚ) : List Char :=
  (if priceDifference ≥ 0 then ['+'] else []) ++ formatPrice priceDifference

/-- The table printed by `compareConfigurations`, cell by cell (column widths
and colours left out). -/
structure ComparisonTable where
  vehicleCurrent : String
  vehicleSaved : String
  colorCurrent : String
  colorSaved : String
  basePriceCurrent : List Char
  basePriceSaved : List Char
  engineCurrent : String
  engineSaved : String
  totalPriceCurrent : List Char
  totalPriceSaved : List Char
  priceDifference : List Char
deriving DecidableEq, Repr

/-- Method `compareConfigurations()`: `none` when the current or the saved
vehicle is missing (only a notice is printed), the table otherwise. -/
def compareConfigurations (c : VehicleConfigurator) : Option ComparisonTable :=
  match c.current with
  | none => none
  | some cur =>
    match c.comparison with
    | none => none
    | some saved =>
      some
        { vehicleCurrent := cur.brand ++ " " ++ cur.model,
          vehicleSaved := saved.brand ++ " " ++ saved.model,
          colorCurrent := cur.color,
          colorSaved := saved.color,
          basePriceCurrent := formatPrice cur.basePrice,
          basePriceSaved := formatPrice saved.basePrice,
          engineCurrent := engineCell cur,
          engineSaved := engineCell saved,
          totalPriceCurrent := formatPrice cur.calculateTotalPrice,
          totalPriceSaved := formatPrice saved.calculateTotalPrice,
          priceDifference :=
            differenceText (cur.calculateTotalPrice - saved.calculateTotalPrice) }

end VehicleConfigurator

/-! ## Sessions: sequences of service operations -/

/-- The calls of the service that can change the configurator. -/
inductive Op where
  | selectVehicle (index : Nat)
  | selectEngine (index : Nat)
  | addEquipment (index : Nat)
  | removeEquipment (choice : Nat)
  | selectColor (index : Nat)
  | applyDiscount (discountPercent : ℚ)
  | saveForComparison
  | loadConfiguration (fs : List Char → Option (List Char)) (filename : List Char)

/-- The configurator after one call. For a `loadConfiguration` that ends with
an exception it is the configurator at the moment of the throw. -/
def step (c : VehicleConfigurator) : Op → VehicleConfigurator
  | .selectVehicle index => (c.selectVehicle index).2
  | .selectEngine index => (c.selectEngine index).2
  | .addEquipment index => (c.addEquipment index).2
  | .removeEquipment choice => c.removeEquipmentMenu choice
  | .selectColor index => (c.selectColor index).2
  | .applyDiscount discountPercent => (c.applyDiscount discountPercent).2
  | .saveForComparison => c.saveForComparison
  | .loadConfiguration fs filename => (c.loadConfiguration fs filename).2

/-- The configurator after a sequence of calls. -/
def run (c : VehicleConfigurator) (ops : List Op) : VehicleConfigurator :=
  ops.foldl step c

/-- States of a session: those that some sequence of calls produces from the
freshly initialized configurator. -/
def Reachable (c : VehicleConfigurator) : Prop :=
  ∃ ops : List Op, c = run VehicleConfigurator.initializeData ops

/-- The equipment of a vehicle is in order: names pairwise distinct, every
item taken from `catalog`. -/
def Vehicle.EquipmentOK (catalog : List Equipment) (v : Vehicle) : Prop :=
  (v.selectedEquipment.map Equipment.name).Nodup ∧ ∀ x ∈ v.selectedEquipment, x ∈ catalog

/-- Facts that hold in every state of a session: the catalogs of engines,
equipment and colours are those of `initializeData`, the number of vehicles is
unchanged, the two vehicle pointers point into the vector, and the equipment
of every vehicle is in order. -/
def SessionInvariant (c : VehicleConfigurator) : Prop :=
  c.availableEquipment = VehicleConfigurator.catalogEquipment
    ∧ c.availableEngines = VehicleConfigurator.catalogEngines
    ∧ c.availableColors = VehicleConfigurator.catalogColors
    ∧ c.availableVehicles.length = VehicleConfigurator.catalogVehicles.length
    ∧ (∀ i, c.currentVehicle = some i → i < c.availableVehicles.length)
    ∧ (∀ i, c.comparisonVehicle = some i → i < c.availableVehicles.length)
    ∧ (∀ v ∈ c.availableVehicles, v.EquipmentOK VehicleConfigurator.catalogEquipment)

/-- Vehicle `k` is not the current vehicle after any call of the sequence
`ops` started in `c`. -/
def neverCurrent (k : Nat) : VehicleConfigurator → List Op → Prop
  | _, [] => True
  | c, op :: ops => (step c op).currentVehicle ≠ some k ∧ neverCurrent k (step c op) ops

/-- Calls that customise the current vehicle: every call except
`selectVehicle` and `loadConfiguration`. -/
def Op.keepsSelection : Op → Bool
  | .selectVehicle _ => false
  | .loadConfiguration _ _ => false
  | _ => true

/-! ## Catalog lookups of the loader, seen from the vehicle -/

/-- Effect of the loop "Find matching equipment" on the current vehicle. -/
def Vehicle.addNamed (catalog : List Equipment) (v : Vehicle) (name : List Char) : Vehicle :=
  match catalog.find? (fun e => e.name.data == name) with
  | some e => v.addEquipment e
  | none => v

/-- Effect of the loop "Find matching engine" on the current vehicle. -/
def Vehicle.installNamed (catalog : List Engine) (v : Vehicle) (name : List Char) : Vehicle :=
  match catalog.find? (fun e => e.name.data == name) with
  | some e => v.setEngine (some e)
  | none => v

/-! ## Sample values -/

/-- The first catalog vehicle as constructed by `initializeData`. -/
def sampleGolf : Vehicle :=
  Vehicle.new "Volkswagen" "Golf" 80000 "2023" (.Car 5 "Hatchback" 380)

/-- The catalog item "Heated seats". -/
def sampleSeats : Equipment :=
  ⟨"Heated seats", "Heated front seats", 2000, .COMFORT⟩

/-- An item that shares only its name with `sampleSeats`. -/
def sampleSeatsOther : Equipment :=
  ⟨"Heated seats", "Rear bench heating", 999, .SAFETY⟩

/-- A Golf with the 1.4 TSI engine, two items and a 10% discount. -/
def sampleConfigured : Vehicle :=
  { brand := "Volkswagen", model := "Golf", basePrice := 80000,
    engine := some ⟨"1.4 TSI", 1.4, 150, "Gasoline", 12000, 130, 6.5⟩,
    selectedEquipment :=
      [⟨"Leather upholstery", "High-quality leather upholstery", 5000, .COMFORT⟩,
       ⟨"Navigation system", "Advanced GPS navigation system", 3000, .MULTIMEDIA⟩],
    color := "White", year := "2023", discount := 10, kind := .Car 5 "Hatchback" 380 }

/-- A file system whose only readable file is `path`, holding `content`. -/
def singleFile (path content : List Char) : List Char → Option (List Char) :=
  fun p => if p = path then some content else none

/-- A file system without any file. -/
def noFiles : List Char → Option (List Char) :=
  fun _ => none

/-- A clock text. -/
def sampleDate : List Char := "2026-01-01 10:00:00".data

/-- The configurator after `selectVehicle(1)` on a fresh one. -/
def sampleSelected : VehicleConfigurator :=
  (VehicleConfigurator.initializeData.selectVehicle 1).2

/-- The Golf with "Leather upholstery" and no engine. -/
def sampleGolfLeather : Vehicle :=
  sampleGolf.addEquipment
    ⟨"Leather upholstery", "High-quality leather upholstery", 5000, .COMFORT⟩

/-- A Golf in red with the 1.4 TSI engine, two items and a 10% discount. -/
def sampleRedGolf : Vehicle :=
  { sampleGolf with
    engine := some ⟨"1.4 TSI", 1.4, 150, "Gasoline", 12000, 130, 6.5⟩,
    selectedEquipment :=
      [⟨"Navigation system", "Advanced GPS navigation system", 3000, .MULTIMEDIA⟩,
       ⟨"Leather upholstery", "High-quality leather upholstery", 5000, .COMFORT⟩],
    color := "Red", discount := 10 }

/-- Golf selected, "Leather upholstery" added, no engine. -/
def sampleNoEngine : VehicleConfigurator :=
  (sampleSelected.addEquipment 1).2

/-- Result of loading, in a fresh configurator, the file that
`sampleNoEngine` saves as "golf". -/
def sampleNoEngineReloaded : VehicleConfigurator.LoadResult × VehicleConfigurator :=
  VehicleConfigurator.initializeData.loadConfiguration
    (sampleNoEngine.saveConfiguration noFiles "golf".data sampleDate) "golf".data

/-- Golf selected, engine "1.4 TSI" installed, discount 12.345678 applied. -/
def sampleDiscounted : VehicleConfigurator :=
  ((sampleSelected.selectEngine 1).2.applyDiscount 12.345678).2

/-- Result of loading, in a fresh configurator, the file that
`sampleDiscounted` saves as "golf". -/
def sampleDiscountedReloaded : VehicleConfigurator.LoadResult × VehicleConfigurator :=
  VehicleConfigurator.initializeData.loadConfiguration
    (sampleDiscounted.saveConfiguration noFiles "golf".data sampleDate) "golf".data

/-- A well-formed file for a vehicle that is not in the catalog. -/
def sampleUnknownVehicleFile : ConfigFile :=
  { date := sampleDate, brand := "Trabant".data, model := "601".data, year := "1989".data,
    basePrice := "9000".data, color := "Blue".data, discount := "5".data,
    engine := some
      { name := "1.4 TSI".data, capacity := "1.4".data, horsePower := "150".data,
        fuelType := "Gasoline".data, price := "12000".data, co2Emissions := "130".data,
        fuelConsumption := "6.5".data },
    items := [⟨"Heated seats".data, "Heated front seats".data, "2000".data, "0".data⟩],
    totalPrice := "21850".data }

/-- A well-formed file for the Audi A4 that names an engine and an item
missing from the catalog, next to the catalog item "Heated seats". -/
def sampleSkipFile : ConfigFile :=
  { date := sampleDate, brand := "Audi".data, model := "A4".data, year := "2023".data,
    basePrice := "150000".data, color := "Red".data, discount := "5".data,
    engine := some
      { name := "Warp drive".data, capacity := "9.9".data, horsePower := "999".data,
        fuelType := "Dilithium".data, price := "1e+06".data, co2Emissions := "0".data,
        fuelConsumption := "0".data },
    items := [⟨"Sunroof".data, "Electric sunroof".data, "1200".data, "3".data⟩,
              ⟨"Heated seats".data, "Heated front seats".data, "2000".data, "0".data⟩],
    totalPrice := "144400".data }

/-- The file `sampleSkipFile` without its `[ENGINE]` section, as `saveToFile`
writes a configuration that has no engine. -/
def sampleEnginelessFile : ConfigFile :=
  { sampleSkipFile with engine := none }

/-- A well-formed file for the Audi A4 that lists "Heated seats" twice. -/
def sampleRepeatFile : ConfigFile :=
  { sampleSkipFile with
    items := [⟨"Heated seats".data, "Heated front seats".data, "2000".data, "0".data⟩,
              ⟨"Heated seats".data, "Heated front seats".data, "2000".data, "0".data⟩] }

/-- A session on the Audi A4: "Heated seats" is added twice, a file that lists
it twice is loaded, the first item is removed through the menu and "Heated
seats" is added once more. -/
def sampleSession : List Op :=
  [ .selectVehicle 2, .addEquipment 4, .addEquipment 4,
    .loadConfiguration (singleFile "configs/audi.txt".data sampleRepeatFile.text) "audi".data,
    .removeEquipment 1, .addEquipment 4, .addEquipment 1 ]

/-- The Golf is selected and customised: engine 1.4 TSI, "Leather
upholstery", colour Red, discount 10. -/
def sampleCustomised : VehicleConfigurator :=
  run VehicleConfigurator.initializeData
    [.selectVehicle 1, .selectEngine 1, .addEquipment 1, .selectColor 3, .applyDiscount 10]

/-- Calls that select and customise the Audi A4, one of them a load of
`sampleSkipFile`. -/
def sampleOtherVehicleOps : List Op :=
  [ .selectVehicle 2, .addEquipment 3, .selectColor 2,
    .loadConfiguration (singleFile "configs/audi.txt".data sampleSkipFile.text) "audi".data,
    .applyDiscount 5 ]

/-- Calls that customise the current vehicle after a snapshot was taken. -/
def sampleEditOps : List Op :=
  [ .selectEngine 2, .addEquipment 3, .removeEquipment 1, .selectColor 4, .applyDiscount 20 ]

/-- Golf with "Leather upholstery" and no engine, saved for comparison. -/
def sampleEquipmentOnly : VehicleConfigurator :=
  run VehicleConfigurator.initializeData [.selectVehicle 1, .addEquipment 1, .saveForComparison]

/-- Yamaha MT-07 with the engine "650cc Twin" and a 30% discount, saved for
comparison. -/
def sampleEngineDiscounted : VehicleConfigurator :=
  run VehicleConfigurator.initializeData
    [.selectVehicle 7, .selectEngine 8, .applyDiscount 30, .saveForComparison]

/-- BMW X5 saved for comparison, then Yamaha MT-07 selected. -/
def sampleCheaperCurrent : VehicleConfigurator :=
  run VehicleConfigurator.initializeData [.selectVehicle 3, .saveForComparison, .selectVehicle 7]

/-- Calls that are refused or fail: indices beyond every catalog, a discount
out of range, a menu choice beyond the list and a load of a missing file. -/
def sampleFailingOps : List Op :=
  [ .selectVehicle 99, .selectEngine 99, .addEquipment 99, .removeEquipment 99,
    .selectColor 99, .applyDiscount 50, .saveForComparison,
    .loadConfiguration noFiles "missing".data ]

/-! ## Listings: `displayAvailableVehicles` and `displayAvailableEngines` -/

/-- Statement `groups[key].push_back(x)` on a
`std::map<std::string, std::vector<T>>`, the map being kept as the list of its
pairs in key order, which is the order in which a range `for` visits it. -/
def mapPushBack {α : Type} (key : String) (x : α) :
    List (String × List α) → List (String × List α)
  | [] => [(key, [x])]
  | (k, xs) :: rest =>
    if key = k then (k, xs ++ [x]) :: rest
    else if key < k then (key, [x]) :: (k, xs) :: rest
    else (k, xs) :: mapPushBack key x rest

/-- The two nested printing loops of a listing: every group keeps its key,
every entry of a group gets the running `index`, which starts at the given
value and is incremented after every entry. -/
def numberGroups {α : Type} : Nat → List (String × List α) → List (String × List (Nat × α))
  | _, [] => []
  | index, (k, xs) :: rest => (k, xs.enumFrom index) :: numberGroups (index + xs.length) rest

/-- Group name chosen by the chain of `dynamic_pointer_cast` tests in
`displayAvailableVehicles`; the last branch, "Other", is not reached by an
object of one of the three subclasses. -/
def Vehicle.typeName (v : Vehicle) : String :=
  match v.kind with
  | .Car _ _ _ => "Cars"
  | .Motorcycle _ _ => "Motorcycles"
  | .ElectricVehicle _ _ _ => "Electric Vehicles"

/-- Method `displayAvailableVehicles`: the groups in the order printed, each
with its entries and the number printed in front of each entry. -/
def VehicleConfigurator.displayAvailableVehicles (c : VehicleConfigurator) :
    List (String × List (Nat × Vehicle)) :=
  numberGroups 1 (c.availableVehicles.foldl (fun m v => mapPushBack v.typeName v m) [])

/-- Method `displayAvailableEngines`: the groups in the order printed, each
with its entries and the number printed in front of each entry. -/
def VehicleConfigurator.displayAvailableEngines (c : VehicleConfigurator) :
    List (String × List (Nat × Engine)) :=
  numberGroups 1 (c.availableEngines.foldl (fun m e => mapPushBack e.fuelType e m) [])

/-- A file in the layout of section 6 for the Golf with the engine 1.4 TSI,
whose `DISCOUNT` line holds 150. -/
def sampleOverDiscountFile : ConfigFile :=
  { date := sampleDate, brand := "Volkswagen".data, model := "Golf".data, year := "2023".data,
    basePrice := "80000".data, color := "White".data, discount := "150".data,
    engine := some
      { name := "1.4 TSI".data, capacity := "1.4".data, horsePower := "150".data,
        fuelType := "Gasoline".data, price := "12000".data, co2Emissions := "130".data,
        fuelConsumption := "6.5".data },
    items := [],
    totalPrice := "-46000".data }

/-- A session that consists of one load of `sampleOverDiscountFile`. -/
def sampleOverDiscountSession : List Op :=
  [ .loadConfiguration (singleFile "configs/golf.txt".data sampleOverDiscountFile.text)
      "golf".data ]

/-- The file `sampleSkipFile` with a `CAPACITY` line that `std::stod` does not
accept. -/
def sampleBadCapacityFile : ConfigFile :=
  { sampleSkipFile with
    engine := some
      { name := "2.0 TDI".data, capacity := "abc".data, horsePower := "190".data,
        fuelType := "Diesel".data, price := "20000".data, co2Emissions := "135".data,
        fuelConsumption := "5.2".data } }

/-- The file `sampleSkipFile` with the catalog engine 2.0 TDI and a `PRICE`
line in its second item block that `std::stod` does not accept. -/
def sampleBadItemPriceFile : ConfigFile :=
  { sampleSkipFile with
    engine := some
      { name := "2.0 TDI".data, capacity := "2".data, horsePower := "190".data,
        fuelType := "Diesel".data, price := "20000".data, co2Emissions := "135".data,
        fuelConsumption := "5.2".data },
    items := [⟨"Heated seats".data, "Heated front seats".data, "2000".data, "0".data⟩,
              ⟨"Sunroof".data, "Electric sunroof".data, "n/a".data, "3".data⟩] }

/-- The Audi A4 selected, with the item "Heated seats". -/
def sampleAudiSeats : VehicleConfigurator :=
  run VehicleConfigurator.initializeData [.selectVehicle 2, .addEquipment 4]

/-- A file for the Audi A4 with an engine that is not in the catalog and five
item blocks: "Heated seats", the unknown "Sunroof", "Navigation system",
"Leather upholstery" and "Navigation system" again. -/
def sampleAppendFile : ConfigFile :=
  { sampleSkipFile with
    items := [⟨"Heated seats".data, "Heated front seats".data, "2000".data, "0".data⟩,
              ⟨"Sunroof".data, "Electric sunroof".data, "1200".data, "3".data⟩,
              ⟨"Navigation system".data, "Advanced GPS navigation system".data,
                "3000".data, "2".data⟩,
              ⟨"Leather upholstery".data, "High-quality leather upholstery".data,
                "5000".data, "0".data⟩,
              ⟨"Navigation system".data, "Advanced GPS navigation system".data,
                "3000".data, "2".data⟩] }

/-- The lines of `sampleAppendFile` with `COUNT=1` in place of `COUNT=5`: the
count is smaller than the number of item blocks that follow. -/
def sampleShortCountLines : List (List Char) :=
  sampleAppendFile.lines.map
    (fun l => if l = kv "COUNT" "5".data then kv "COUNT" "1".data else l)

/-- The file with the lines `sampleShortCountLines`. -/
def sampleShortCountText : List Char :=
  unlines sampleShortCountLines

/-! ## Theorems -/

/-- The accumulation loop of `calculateTotalPrice` adds the list sum of the
prices to its starting value. -/
theorem foldl_price_eq_sum (l : List Equipment) (t : ℚ) :
    l.foldl (fun t equipment => t + equipment.price) t = t + (l.map Equipment.price).sum := by
  induction l generalizing t with
  | nil => simp
  | cons e l ih => simp [ih, add_assoc]

/-- C1: for every vehicle whose equipment names are pairwise distinct,
`calculateTotalPrice` is `basePrice + (engine price or 0) + Σ equipment price`,
multiplied as a whole by `1 - discount/100` when `discount > 0` and returned
unscaled when `discount <= 0`. -/
theorem C1_calculateTotalPrice_formula (v : Vehicle)
    (hnodup : (v.selectedEquipment.map Equipment.name).Nodup) :
    v.calculateTotalPrice =
      if v.discount > 0 then
        (v.basePrice + (v.engine.map Engine.price).getD 0
          + (v.selectedEquipment.map Equipment.price).sum) * (1 - v.discount / 100)
      else
        v.basePrice + (v.engine.map Engine.price).getD 0
          + (v.selectedEquipment.map Equipment.price).sum := by
  have _ := hnodup
  unfold Vehicle.calculateTotalPrice
  cases hE : v.engine <;> simp [foldl_price_eq_sum]

/-- C1 on a Golf with the 1.4 TSI engine, two distinct items and a 10%
discount: `(80000 + 12000 + 5000 + 3000) * 0.9 = 90000`. -/
theorem C1_calculateTotalPrice_formula_witness :
    (sampleConfigured.selectedEquipment.map Equipment.name).Nodup
      ∧ sampleConfigured.calculateTotalPrice = 90000 := by
  have hnodup : (sampleConfigured.selectedEquipment.map Equipment.name).Nodup := by decide
  refine ⟨hnodup, ?_⟩
  rw [C1_calculateTotalPrice_formula sampleConfigured hnodup]
  decide!

/-- C2: from the freshly initialized configurator, `selectVehicle(1)`,
`selectEngine(1)`, `addEquipment(1)` and `applyDiscount(10)` all return true,
catalog vehicle #1 has base price 80000, the engine and the item chosen cost
12000 and 5000, and the total price of the result is exactly 87300. -/
theorem C2_scenario_total_87300 :
    (VehicleConfigurator.initializeData.selectVehicle 1).1 = true
      ∧ ((VehicleConfigurator.initializeData.selectVehicle 1).2.selectEngine 1).1 = true
      ∧ (((VehicleConfigurator.initializeData.selectVehicle 1).2.selectEngine 1).2.addEquipment 1).1
          = true
      ∧ ((((VehicleConfigurator.initializeData.selectVehicle 1).2.selectEngine 1).2.addEquipment
          1).2.applyDiscount 10).1 = true
      ∧ (VehicleConfigurator.initializeData.selectVehicle 1).2.current.map Vehicle.basePrice
          = some 80000
      ∧ (((((VehicleConfigurator.initializeData.selectVehicle 1).2.selectEngine 1).2.addEquipment
          1).2.applyDiscount 10).2.current.bind Vehicle.engine).map Engine.price = some 12000
      ∧ ((((VehicleConfigurator.initializeData.selectVehicle 1).2.selectEngine 1).2.addEquipment
          1).2.applyDiscount 10).2.current.map
            (fun v => v.selectedEquipment.map Equipment.price) = some [5000]
      ∧ ((((VehicleConfigurator.initializeData.selectVehicle 1).2.selectEngine 1).2.addEquipment
          1).2.applyDiscount 10).2.current.map Vehicle.calculateTotalPrice = some 87300 := by
  decide!

/-- After `updateCurrent f` the pointed-to vehicle is `f` of the old one. -/
theorem current_updateCurrent (c : VehicleConfigurator) (f : Vehicle → Vehicle) :
    (c.updateCurrent f).current = c.current.map f := by
  unfold VehicleConfigurator.updateCurrent VehicleConfigurator.current
  cases h : c.currentVehicle with
  | none => simp [h]
  | some i => simp [h, List.getElem?_modify]

/-- C7: with a vehicle selected, `applyDiscount(p)` returns true exactly when
`0 <= p <= 30`; when it returns true the current vehicle is the old one with
discount `p`, and when it returns false the configurator is unchanged. -/
theorem C7_applyDiscount_range (c : VehicleConfigurator) (i : Nat) (v : Vehicle) (p : ℚ)
    (hsel : c.currentVehicle = some i) (hv : c.availableVehicles[i]? = some v) :
    ((c.applyDiscount p).1 = true ↔ (0 ≤ p ∧ p ≤ 30))
      ∧ ((c.applyDiscount p).1 = true →
          (c.applyDiscount p).2.current = some { v with discount := p }
            ∧ (c.applyDiscount p).2.currentVehicle = some i)
      ∧ ((c.applyDiscount p).1 = false → (c.applyDiscount p).2 = c) := by
  have hcur : c.current = some v := by
    simp [VehicleConfigurator.current, hsel, hv]
  by_cases hp : 0 ≤ p ∧ p ≤ 30
  · have h : c.applyDiscount p = (true, c.updateCurrent (fun v => v.setDiscount p)) := by
      simp [VehicleConfigurator.applyDiscount, hsel, hp]
    rw [h]
    refine ⟨by simp [hp], fun _ => ⟨?_, ?_⟩, by simp⟩
    · simp [current_updateCurrent, hcur, Vehicle.setDiscount]
    · simp [VehicleConfigurator.updateCurrent, hsel]
  · have h : c.applyDiscount p = (false, c) := by
      simp only [VehicleConfigurator.applyDiscount]
      rw [if_neg]
      intro hh
      exact hp ⟨hh.2.1, hh.2.2⟩
    rw [h]
    simp [hp]

/-- C7 at the boundary values: with vehicle #1 selected, discounts 0 and 30
are accepted, 31 and -1 are rejected. -/
theorem C7_applyDiscount_range_witness :
    (sampleSelected.applyDiscount 0).1 = true
      ∧ (sampleSelected.applyDiscount 30).1 = true
      ∧ (sampleSelected.applyDiscount 31).1 = false
      ∧ (sampleSelected.applyDiscount (-1)).1 = false
      ∧ (sampleSelected.applyDiscount 31).2 = sampleSelected := by
  have h0 := C7_applyDiscount_range sampleSelected 0 sampleGolf 0 rfl rfl
  have h30 := C7_applyDiscount_range sampleSelected 0 sampleGolf 30 rfl rfl
  have h31 := C7_applyDiscount_range sampleSelected 0 sampleGolf 31 rfl rfl
  have hneg := C7_applyDiscount_range sampleSelected 0 sampleGolf (-1) rfl rfl
  have e31 : (sampleSelected.applyDiscount 31).1 = false := by
    rw [← Bool.not_eq_true, h31.1]; norm_num
  refine ⟨h0.1.2 (by norm_num), h30.1.2 (by norm_num), e31, ?_, h31.2.2 e31⟩
  rw [← Bool.not_eq_true, hneg.1]; norm_num

/-- Adding an item whose name is already selected returns the vehicle as is. -/
theorem addEquipment_of_name_mem (v : Vehicle) (e : Equipment)
    (h : ∃ x ∈ v.selectedEquipment, x.name = e.name) : v.addEquipment e = v := by
  obtain ⟨x, hx, hname⟩ := h
  unfold Vehicle.addEquipment
  cases hf : v.selectedEquipment.find? (fun y => y.name == e.name) with
  | some _ => rfl
  | none =>
    rw [List.find?_eq_none] at hf
    exact absurd (by simpa using hname) (hf x hx)

/-- After `addEquipment e` some selected item carries the name of `e`. -/
theorem name_mem_addEquipment (v : Vehicle) (e : Equipment) :
    ∃ x ∈ (v.addEquipment e).selectedEquipment, x.name = e.name := by
  unfold Vehicle.addEquipment
  cases hf : v.selectedEquipment.find? (fun y => y.name == e.name) with
  | some y =>
    refine ⟨y, List.mem_of_find?_eq_some hf, ?_⟩
    simpa using List.find?_some hf
  | none => exact ⟨e, by simp, rfl⟩

/-- C8: `Vehicle::addEquipment` is idempotent by name. Adding `e` twice gives
the same equipment list as adding it once, and adding any item whose name is
already selected leaves the list (indeed the whole vehicle) unchanged, whatever
its description, price and category. -/
theorem C8_addEquipment_idempotent (v : Vehicle) (e : Equipment) :
    ((v.addEquipment e).addEquipment e).selectedEquipment = (v.addEquipment e).selectedEquipment
      ∧ ∀ e2 : Equipment, (∃ x ∈ v.selectedEquipment, x.name = e2.name) →
          (v.addEquipment e2).selectedEquipment = v.selectedEquipment
            ∧ v.addEquipment e2 = v := by
  refine ⟨?_, fun e2 h => ?_⟩
  · rw [addEquipment_of_name_mem (v.addEquipment e) e (name_mem_addEquipment v e)]
  · rw [addEquipment_of_name_mem v e2 h]
    exact ⟨rfl, rfl⟩

/-- C8 on the Golf: adding "Heated seats" twice equals adding it once, and a
second item of that name with another description, price and category is not
added. -/
theorem C8_addEquipment_idempotent_witness :
    ((sampleGolf.addEquipment sampleSeats).addEquipment sampleSeats).selectedEquipment
        = [sampleSeats]
      ∧ ((sampleGolf.addEquipment sampleSeats).addEquipment sampleSeatsOther).selectedEquipment
        = [sampleSeats] := by
  have h := C8_addEquipment_idempotent sampleGolf sampleSeats
  have h2 := (C8_addEquipment_idempotent (sampleGolf.addEquipment sampleSeats) sampleSeats).2
    sampleSeatsOther ⟨sampleSeats, by decide, by decide⟩
  exact ⟨h.1.trans (by decide), h2.1.trans (by decide)⟩

/-- C9: for every vehicle and every name that no selected item carries,
`removeEquipment(name)` changes nothing: the vehicle is the same, so its
equipment list, engine, colour, discount and total price are the same. -/
theorem C9_removeEquipment_absent_noop (v : Vehicle) (name : String)
    (habs : ∀ x ∈ v.selectedEquipment, x.name ≠ name) :
    v.removeEquipment name = v
      ∧ (v.removeEquipment name).selectedEquipment = v.selectedEquipment
      ∧ (v.removeEquipment name).engine = v.engine
      ∧ (v.removeEquipment name).color = v.color
      ∧ (v.removeEquipment name).discount = v.discount
      ∧ (v.removeEquipment name).calculateTotalPrice = v.calculateTotalPrice := by
  have h : v.removeEquipment name = v := by
    unfold Vehicle.removeEquipment
    cases hf : v.selectedEquipment.find? (fun y => y.name == name) with
    | none => rfl
    | some y =>
      have hy := List.find?_some hf
      exact absurd (by simpa using hy) (habs y (List.mem_of_find?_eq_some hf))
  rw [h]
  exact ⟨rfl, rfl, rfl, rfl, rfl, rfl⟩

/-- C9 on a Golf with heated seats: removing "Sunroof" leaves it as it was. -/
theorem C9_removeEquipment_absent_noop_witness :
    (∀ x ∈ (sampleGolf.addEquipment sampleSeats).selectedEquipment, x.name ≠ "Sunroof")
      ∧ (sampleGolf.addEquipment sampleSeats).removeEquipment "Sunroof"
          = sampleGolf.addEquipment sampleSeats := by
  have habs : ∀ x ∈ (sampleGolf.addEquipment sampleSeats).selectedEquipment,
      x.name ≠ "Sunroof" := by decide
  exact ⟨habs, (C9_removeEquipment_absent_noop _ "Sunroof" habs).1⟩

/-- C10: `selectVehicle(index)` returns true exactly when
`1 <= index <= availableVehicles.size()`; on success `currentVehicle` points at
element `index - 1` and nothing else changes; on failure the configurator is
unchanged. -/
theorem C10_selectVehicle_bounds (c : VehicleConfigurator) (index : Nat) :
    ((c.selectVehicle index).1 = true ↔ (1 ≤ index ∧ index ≤ c.availableVehicles.length))
      ∧ ((c.selectVehicle index).1 = true →
          (c.selectVehicle index).2 = { c with currentVehicle := some (index - 1) }
            ∧ (c.selectVehicle index).2.current = c.availableVehicles[index - 1]?
            ∧ (c.selectVehicle index).2.current.isSome = true)
      ∧ ((c.selectVehicle index).1 = false → (c.selectVehicle index).2 = c) := by
  by_cases h : index ≥ 1 ∧ index ≤ c.availableVehicles.length
  · have e : c.selectVehicle index = (true, { c with currentVehicle := some (index - 1) }) := by
      simp [VehicleConfigurator.selectVehicle, h]
    rw [e]
    refine ⟨by simpa using h, fun _ => ⟨rfl, ?_, ?_⟩, by simp⟩
    · simp [VehicleConfigurator.current]
    · have hlt : index - 1 < c.availableVehicles.length := by omega
      simp [VehicleConfigurator.current, hlt]
  · have e : c.selectVehicle index = (false, c) := by
      simp only [VehicleConfigurator.selectVehicle]
      rw [if_neg h]
    rw [e]
    refine ⟨by simpa using h, by simp, fun _ => rfl⟩

/-- C10 on the catalog of eleven vehicles: index 3 selects the BMW X5, and
indices 0 and 12 fail without changing a configurator that has the Golf
selected. -/
theorem C10_selectVehicle_bounds_witness :
    ((VehicleConfigurator.initializeData.selectVehicle 3).2.current.map Vehicle.model = some "X5")
      ∧ (sampleSelected.selectVehicle 0).2 = sampleSelected
      ∧ (sampleSelected.selectVehicle 12).2 = sampleSelected := by
  have h3 := (C10_selectVehicle_bounds VehicleConfigurator.initializeData 3).2.1 (by decide)
  have h0 := (C10_selectVehicle_bounds sampleSelected 0).2.2 (by decide)
  have h12 := (C10_selectVehicle_bounds sampleSelected 12).2.2 (by decide)
  refine ⟨?_, h0, h12⟩
  rw [h3.2.1]
  decide


/-! ### Lines, keys and digits -/

open VehicleConfigurator

theorem oneLine_nil : oneLine [] := by simp [oneLine]

theorem oneLine_cons (c : Char) (l : List Char) : oneLine (c :: l) ↔ (c ≠ '\n' ∧ oneLine l) := by
  simp [oneLine, eq_comm]

theorem oneLine_append (a b : List Char) : oneLine (a ++ b) ↔ (oneLine a ∧ oneLine b) := by
  simp [oneLine]

theorem oneLine_kv (key : String) (v : List Char) :
    oneLine (kv key v) ↔ (oneLine key.data ∧ oneLine v) := by
  simp [kv, oneLine]

theorem splitLine_append (l rest : List Char) (h : oneLine l) :
    splitLine (l ++ '\n' :: rest) = some (l, rest) := by
  induction l with
  | nil => simp [splitLine]
  | cons c l ih =>
    rw [oneLine_cons] at h
    simp [splitLine, h.1, ih h.2]

theorem getline_unlines_cons (l : List Char) (ls : List (List Char)) (old : List Char)
    (h : oneLine l) : getline (some (unlines (l :: ls))) old = (some (unlines ls), l) := by
  simp [getline, unlines, splitLine_append l _ h]

theorem dropWhile_ne_eq (k v : List Char) (hk : '=' ∉ k) :
    List.dropWhile (fun c => c != '=') (k ++ '=' :: v) = '=' :: v := by
  induction k with
  | nil => simp [List.dropWhile]
  | cons c k ih =>
    have hc : (c != '=') = true := by
      simp only [bne_iff_ne, ne_eq]
      exact fun e => hk (by simp [e])
    have hk2 : '=' ∉ k := fun e => hk (List.mem_cons_of_mem _ e)
    rw [List.cons_append, List.dropWhile_cons, hc]
    exact ih hk2

theorem valueOf_kv (key : String) (v : List Char) (hk : '=' ∉ key.data) :
    valueOf (kv key v) = v := by
  unfold valueOf kv
  rw [dropWhile_ne_eq _ _ hk]

theorem digitChar_isDigit (d : Nat) (h : d < 10) : isDigit (digitChar d) = true := by
  interval_cases d <;> decide

theorem digitChar_val (d : Nat) (h : d < 10) : (digitChar d).toNat - 48 = d := by
  interval_cases d <;> decide

theorem showNatAux_append (fuel n : Nat) (acc : List Char) :
    showNatAux fuel n acc = showNatAux fuel n [] ++ acc := by
  induction fuel generalizing n acc with
  | zero => simp [showNatAux]
  | succ fuel ih =>
    unfold showNatAux
    split
    · simp
    · rw [ih (n / 10) (digitChar (n % 10) :: acc), ih (n / 10) [digitChar (n % 10)]]
      simp

theorem showNatAux_digits (fuel n : Nat) :
    ∀ c ∈ showNatAux fuel n [], isDigit c = true := by
  induction fuel generalizing n with
  | zero => simp [showNatAux]
  | succ fuel ih =>
    unfold showNatAux
    split
    · rename_i h
      simpa using digitChar_isDigit n h
    · rw [showNatAux_append]
      intro c hc
      rw [List.mem_append] at hc
      rcases hc with hc | hc
      · exact ih _ c hc
      · rw [List.mem_singleton] at hc
        rw [hc]
        exact digitChar_isDigit _ (Nat.mod_lt _ (by norm_num))

theorem showNatAux_ne_nil (fuel n : Nat) : showNatAux (fuel + 1) n [] ≠ [] := by
  unfold showNatAux
  split
  · simp
  · rw [showNatAux_append]
    simp

theorem digitsToNat_append_singleton (ds : List Char) (c : Char) :
    digitsToNat (ds ++ [c]) = 10 * digitsToNat ds + (c.toNat - 48) := by
  simp [digitsToNat, List.foldl_append]

theorem digitsToNat_showNatAux (fuel n : Nat) (h : n < fuel) :
    digitsToNat (showNatAux fuel n []) = n := by
  induction fuel generalizing n with
  | zero => omega
  | succ fuel ih =>
    unfold showNatAux
    split
    · rename_i h10
      simp [digitsToNat, digitChar_val n h10]
    · rw [showNatAux_append, digitsToNat_append_singleton, ih (n / 10) (by omega),
        digitChar_val _ (Nat.mod_lt _ (by norm_num))]
      omega

theorem showNat_digits (n : Nat) : ∀ c ∈ showNat n, isDigit c = true :=
  showNatAux_digits _ _

theorem showNat_ne_nil (n : Nat) : showNat n ≠ [] :=
  showNatAux_ne_nil _ _

theorem digitsToNat_showNat (n : Nat) : digitsToNat (showNat n) = n :=
  digitsToNat_showNatAux _ _ (Nat.lt_succ_self n)

theorem isDigit_ne (c : Char) (h : isDigit c = true) :
    c ≠ '\n' ∧ c ≠ '-' ∧ c ≠ '+' ∧ c ≠ '=' ∧ c ≠ '.' ∧ c ≠ 'e' ∧ c ≠ 'E' ∧ isSpace c = false := by
  refine ⟨?_, ?_, ?_, ?_, ?_, ?_, ?_, ?_⟩
  any_goals (rintro rfl; exact absurd h (by decide))
  unfold isSpace
  simp only [Bool.or_eq_false_iff, beq_eq_false_iff_ne, ne_eq]
  refine ⟨⟨⟨⟨⟨?_, ?_⟩, ?_⟩, ?_⟩, ?_⟩, ?_⟩ <;> (rintro rfl; exact absurd h (by decide))

theorem oneLine_of_digits (l : List Char) (h : ∀ c ∈ l, isDigit c = true) : oneLine l := by
  intro hm
  exact (isDigit_ne _ (h _ hm)).1 rfl

theorem oneLine_showNat (n : Nat) : oneLine (showNat n) :=
  oneLine_of_digits _ (showNat_digits n)

theorem span_isDigit_of_digits (l : List Char) (h : ∀ c ∈ l, isDigit c = true) :
    l.span isDigit = (l, []) := by
  rw [List.span_eq_take_drop]
  have h1 : l.takeWhile isDigit = l := List.takeWhile_eq_self_iff.2 h
  have h2 : l.dropWhile isDigit = [] := List.dropWhile_eq_nil_iff.2 h
  rw [h1, h2]

theorem stoi_digits (l : List Char) (h : ∀ c ∈ l, isDigit c = true) (hne : l ≠ [])
    (hr : digitsToNat l ≤ 2147483647) : stoi l = some (digitsToNat l : Int) := by
  obtain ⟨c, t, rfl⟩ := List.exists_cons_of_ne_nil hne
  have hc := isDigit_ne c (h c (List.mem_cons_self _ _))
  have e1 : List.dropWhile isSpace (c :: t) = c :: t := by
    rw [List.dropWhile_cons, hc.2.2.2.2.2.2.2]; rfl
  have e2 : parseSign (c :: t) = (false, c :: t) := by
    simp [parseSign, hc.2.1, hc.2.2.1]
  unfold stoi
  simp only [e1, e2, span_isDigit_of_digits _ h]
  simp only [List.isEmpty_cons, Bool.false_eq_true, if_false]
  rw [if_neg (by omega)]

theorem stoi_showNat (n : Nat) (h : n ≤ 2147483647) : stoi (showNat n) = some (n : Int) := by
  have := stoi_digits (showNat n) (showNat_digits n) (showNat_ne_nil n)
    (by rw [digitsToNat_showNat]; exact h)
  rw [digitsToNat_showNat] at this
  exact this

/-! ### Stepping `loadConfiguration` through a well-formed file -/

theorem load_vehicleSection (c : VehicleConfigurator) (fs : List Char → Option (List Char))
    (filename : List Char) (f : ConfigFile)
    (hfs : fs (fullPath filename) = some f.text)
    (h1 : oneLine f.date) (h2 : oneLine f.brand) (h3 : oneLine f.model) (h4 : oneLine f.year)
    (h5 : oneLine f.basePrice) (h6 : oneLine f.color) (h7 : oneLine f.discount) :
    loadConfiguration c fs filename =
      match stod f.basePrice with
      | none => (.threw, c)
      | some _ =>
        match stod f.discount with
        | none => (.threw, c)
        | some d =>
          match findIndex (fun v => v.brand.data == f.brand && v.model.data == f.model)
              c.availableVehicles with
          | none => (.returnedFalse, c)
          | some i =>
            loadSections
              (({ c with currentVehicle := some i } : VehicleConfigurator).updateCurrent
                (fun v => (v.setColor (String.mk f.color)).setDiscount d))
              (some (unlines (f.lines.drop 11))) (kv "DISCOUNT" f.discount) := by
  simp [loadConfiguration, hfs, ConfigFile.text, ConfigFile.lines, getline_unlines_cons,
    oneLine_cons, oneLine_nil, oneLine_kv, valueOf_kv, h1, h2, h3, h4, h5, h6, h7]

theorem loadItems_wellFormed (its : List FileItem) (c : VehicleConfigurator) (i : Nat)
    (line : List Char) (rest : List (List Char)) (hwf : ∀ it ∈ its, it.WellFormed) :
    loadItems its.length c (some (unlines (fileItemLines i its ++ rest))) line =
      (.returnedTrue, its.foldl (fun c it => c.addEquipmentNamed it.name) c) := by
  induction its generalizing c i line with
  | nil => simp [loadItems]
  | cons it its ih =>
    have hit := hwf it (List.mem_cons_self _ _)
    have hrest : ∀ x ∈ its, x.WellFormed := fun x hx => hwf x (List.mem_cons_of_mem _ hx)
    obtain ⟨h1, h2, h3, h4, h5, h6⟩ := hit
    obtain ⟨p, hp⟩ := Option.isSome_iff_exists.1 h5
    obtain ⟨q, hq⟩ := Option.isSome_iff_exists.1 h6
    have hn := oneLine_showNat (i + 1)
    cases its with
    | nil =>
      simp [loadItems, fileItemLines, getline_unlines_cons, oneLine_cons, oneLine_nil,
        oneLine_kv, oneLine_append, valueOf_kv, h1, h2, h3, h4, hp, hq, hn]
    | cons it2 its2 =>
      have e := ih (c.addEquipmentNamed it.name) (i + 1) [] hrest
      simp [loadItems, fileItemLines, getline_unlines_cons, oneLine_cons, oneLine_nil,
        oneLine_kv, oneLine_append, valueOf_kv, h1, h2, h3, h4, hp, hq, hn]
      simpa [fileItemLines] using e

theorem loadSections_wellFormed (c : VehicleConfigurator) (f : ConfigFile) (e : FileEngine)
    (line : List Char) (he : f.engine = some e) (hwf : f.WellFormed) :
    loadSections c (some (unlines (f.lines.drop 11))) line =
      (.returnedTrue,
        f.items.foldl (fun c it => c.addEquipmentNamed it.name) (c.installEngineNamed e.name)) := by
  obtain ⟨-, -, -, -, -, -, -, -, -, hE, hI, hlen⟩ := hwf
  obtain ⟨h1, h2, h3, h4, h5, h6, h7, p1, p2, p3, p4, p5⟩ := hE e (by simp [he])
  obtain ⟨x1, hx1⟩ := Option.isSome_iff_exists.1 p1
  obtain ⟨x2, hx2⟩ := Option.isSome_iff_exists.1 p2
  obtain ⟨x3, hx3⟩ := Option.isSome_iff_exists.1 p3
  obtain ⟨x4, hx4⟩ := Option.isSome_iff_exists.1 p4
  obtain ⟨x5, hx5⟩ := Option.isSome_iff_exists.1 p5
  have hcount := stoi_showNat f.items.length hlen
  have hn := oneLine_showNat f.items.length
  have hloop := loadItems_wellFormed f.items (c.installEngineNamed e.name) 0 []
    [['[', 'S', 'U', 'M', 'M', 'A', 'R', 'Y', ']'], kv "TOTAL_PRICE" f.totalPrice] hI
  simp [loadSections, ConfigFile.lines, he, FileEngine.lines, getline_unlines_cons, oneLine_cons,
    oneLine_nil, oneLine_kv, valueOf_kv, h1, h2, h3, h4, h5, h6, h7, hx1, hx2, hx3, hx4, hx5,
    hcount, hn]
  simpa using hloop

theorem updateCurrent_fields (c : VehicleConfigurator) (g : Vehicle → Vehicle) :
    (c.updateCurrent g).currentVehicle = c.currentVehicle
      ∧ (c.updateCurrent g).comparisonVehicle = c.comparisonVehicle
      ∧ (c.updateCurrent g).availableEquipment = c.availableEquipment
      ∧ (c.updateCurrent g).availableEngines = c.availableEngines
      ∧ (c.updateCurrent g).availableColors = c.availableColors
      ∧ (c.updateCurrent g).availableVehicles.length = c.availableVehicles.length := by
  unfold VehicleConfigurator.updateCurrent
  split <;> simp

theorem addEquipmentNamed_fields (c : VehicleConfigurator) (name : List Char) :
    (c.addEquipmentNamed name).currentVehicle = c.currentVehicle
      ∧ (c.addEquipmentNamed name).comparisonVehicle = c.comparisonVehicle
      ∧ (c.addEquipmentNamed name).availableEquipment = c.availableEquipment
      ∧ (c.addEquipmentNamed name).availableEngines = c.availableEngines
      ∧ (c.addEquipmentNamed name).availableColors = c.availableColors
      ∧ (c.addEquipmentNamed name).current
          = c.current.map (fun v => v.addNamed c.availableEquipment name) := by
  unfold VehicleConfigurator.addEquipmentNamed Vehicle.addNamed
  cases h : c.availableEquipment.find? (fun e => e.name.data == name) with
  | none => simp
  | some e =>
    obtain ⟨h1, h2, h3, h4, h5, -⟩ := updateCurrent_fields c (fun v => v.addEquipment e)
    exact ⟨h1, h2, h3, h4, h5, current_updateCurrent c _⟩

theorem installEngineNamed_fields (c : VehicleConfigurator) (name : List Char) :
    (c.installEngineNamed name).currentVehicle = c.currentVehicle
      ∧ (c.installEngineNamed name).comparisonVehicle = c.comparisonVehicle
      ∧ (c.installEngineNamed name).availableEquipment = c.availableEquipment
      ∧ (c.installEngineNamed name).availableEngines = c.availableEngines
      ∧ (c.installEngineNamed name).availableColors = c.availableColors
      ∧ (c.installEngineNamed name).current
          = c.current.map (fun v => v.installNamed c.availableEngines name) := by
  unfold VehicleConfigurator.installEngineNamed Vehicle.installNamed
  cases h : c.availableEngines.find? (fun e => e.name.data == name) with
  | none => simp
  | some e =>
    obtain ⟨h1, h2, h3, h4, h5, -⟩ := updateCurrent_fields c (fun v => v.setEngine (some e))
    exact ⟨h1, h2, h3, h4, h5, current_updateCurrent c _⟩

theorem foldl_addEquipmentNamed_fields (names : List (List Char)) (c : VehicleConfigurator) :
    (names.foldl (fun c n => c.addEquipmentNamed n) c).currentVehicle = c.currentVehicle
      ∧ (names.foldl (fun c n => c.addEquipmentNamed n) c).comparisonVehicle
          = c.comparisonVehicle
      ∧ (names.foldl (fun c n => c.addEquipmentNamed n) c).availableEquipment
          = c.availableEquipment
      ∧ (names.foldl (fun c n => c.addEquipmentNamed n) c).availableEngines
          = c.availableEngines
      ∧ (names.foldl (fun c n => c.addEquipmentNamed n) c).availableColors
          = c.availableColors
      ∧ (names.foldl (fun c n => c.addEquipmentNamed n) c).current
          = c.current.map (fun v => names.foldl (fun v n => v.addNamed c.availableEquipment n) v) := by
  induction names generalizing c with
  | nil => simp
  | cons n ns ih =>
    obtain ⟨h1, h2, h3, h4, h5, h6⟩ := addEquipmentNamed_fields c n
    obtain ⟨g1, g2, g3, g4, g5, g6⟩ := ih (c.addEquipmentNamed n)
    simp only [List.foldl_cons]
    refine ⟨g1.trans h1, g2.trans h2, g3.trans h3, g4.trans h4, g5.trans h5, ?_⟩
    rw [g6, h6, h3]
    cases c.current <;> simp

theorem findIndex_some {α : Type} (p : α → Bool) (l : List α) (i : Nat)
    (h : findIndex p l = some i) : ∃ x, l[i]? = some x ∧ p x = true := by
  induction l generalizing i with
  | nil => simp [findIndex] at h
  | cons a l ih =>
    unfold findIndex at h
    by_cases hp : p a = true
    · simp only [hp, if_true, Option.some.injEq] at h
      subst h
      exact ⟨a, by simp, hp⟩
    · simp only [hp, Bool.false_eq_true, if_false, Option.map_eq_some'] at h
      obtain ⟨j, hj, rfl⟩ := h
      obtain ⟨x, hx, hpx⟩ := ih j hj
      exact ⟨x, by simpa using hx, hpx⟩

theorem findIndex_eq_none {α : Type} (p : α → Bool) (l : List α)
    (h : ∀ x ∈ l, p x = false) : findIndex p l = none := by
  induction l with
  | nil => rfl
  | cons a l ih =>
    unfold findIndex
    rw [h a (List.mem_cons_self _ _), ih (fun x hx => h x (List.mem_cons_of_mem _ hx))]
    simp

theorem findIndex_isSome {α : Type} (p : α → Bool) (l : List α) (x : α) (hx : x ∈ l)
    (hp : p x = true) : ∃ i, findIndex p l = some i := by
  induction l with
  | nil => simp at hx
  | cons a l ih =>
    unfold findIndex
    by_cases hpa : p a = true
    · exact ⟨0, by simp [hpa]⟩
    · rcases List.mem_cons.1 hx with rfl | hm
      · exact absurd hp hpa
      · obtain ⟨i, hi⟩ := ih hm
        exact ⟨i + 1, by simp [hpa, hi]⟩

theorem load_wellFormed (c : VehicleConfigurator) (fs : List Char → Option (List Char))
    (filename : List Char) (f : ConfigFile) (e : FileEngine) (d : ℚ) (i : Nat) (old : Vehicle)
    (hfs : fs (fullPath filename) = some f.text) (hwf : f.WellFormed)
    (he : f.engine = some e) (hd : stod f.discount = some d)
    (hi : findIndex (fun v => v.brand.data == f.brand && v.model.data == f.model)
      c.availableVehicles = some i)
    (hold : c.availableVehicles[i]? = some old) :
    (loadConfiguration c fs filename).1 = .returnedTrue
      ∧ (loadConfiguration c fs filename).2.currentVehicle = some i
      ∧ (loadConfiguration c fs filename).2.comparisonVehicle = c.comparisonVehicle
      ∧ (loadConfiguration c fs filename).2.availableEquipment = c.availableEquipment
      ∧ (loadConfiguration c fs filename).2.availableEngines = c.availableEngines
      ∧ (loadConfiguration c fs filename).2.availableColors = c.availableColors
      ∧ (loadConfiguration c fs filename).2.current =
          some ((f.items.map FileItem.name).foldl
            (fun v n => v.addNamed c.availableEquipment n)
            (((old.setColor (String.mk f.color)).setDiscount d).installNamed
              c.availableEngines e.name)) := by
  have hwf2 := hwf
  obtain ⟨h1, h2, h3, h4, h5, h6, h7, hb, -, -, -, -⟩ := hwf2
  obtain ⟨bp, hbp⟩ := Option.isSome_iff_exists.1 hb
  rw [load_vehicleSection c fs filename f hfs h1 h2 h3 h4 h5 h6 h7]
  simp only [hbp, hd, hi]
  rw [loadSections_wellFormed _ f e _ he hwf, ← List.foldl_map]
  generalize hg : (fun v : Vehicle => (v.setColor (String.mk f.color)).setDiscount d) = g
  have hg' : ((old.setColor (String.mk f.color)).setDiscount d) = g old := by rw [← hg]
  rw [hg']
  generalize hc0 : ({ c with currentVehicle := some i } : VehicleConfigurator) = c0
  have e0 : c0.current = some old := by
    rw [← hc0]; simp [VehicleConfigurator.current, hold]
  have a0 : c0.currentVehicle = some i ∧ c0.comparisonVehicle = c.comparisonVehicle
      ∧ c0.availableEquipment = c.availableEquipment ∧ c0.availableEngines = c.availableEngines
      ∧ c0.availableColors = c.availableColors := by
    rw [← hc0]; simp
  obtain ⟨u1, u2, u3, u4, u5, -⟩ := updateCurrent_fields c0 g
  have u6 := current_updateCurrent c0 g
  obtain ⟨v1, v2, v3, v4, v5, v6⟩ := installEngineNamed_fields (c0.updateCurrent g) e.name
  obtain ⟨w1, w2, w3, w4, w5, w6⟩ := foldl_addEquipmentNamed_fields (f.items.map FileItem.name)
    ((c0.updateCurrent g).installEngineNamed e.name)
  refine ⟨rfl, ?_, ?_, ?_, ?_, ?_, ?_⟩
  · rw [w1, v1, u1, a0.1]
  · rw [w2, v2, u2, a0.2.1]
  · rw [w3, v3, u3, a0.2.2.1]
  · rw [w4, v4, u4, a0.2.2.2.1]
  · rw [w5, v5, u5, a0.2.2.2.2]
  · rw [w6, v6, u6, e0, v3, u3, a0.2.2.1, u4, a0.2.2.2.1]
    rfl

/-- C5: for every well-formed configuration file whose BRAND/MODEL pair
matches no vehicle of the catalog, `loadConfiguration` returns false and the
configurator is exactly what it was before the call: same current vehicle,
same comparison vehicle, and the same colour, discount, engine and equipment
on every catalog vehicle. -/
theorem C5_load_unknown_vehicle_untouched (c : VehicleConfigurator)
    (fs : List Char → Option (List Char)) (filename : List Char) (f : ConfigFile)
    (hfs : fs (fullPath filename) = some f.text) (hwf : f.WellFormed)
    (hunknown : ∀ v ∈ c.availableVehicles, ¬ (v.brand.data = f.brand ∧ v.model.data = f.model)) :
    loadConfiguration c fs filename = (.returnedFalse, c) := by
  obtain ⟨h1, h2, h3, h4, h5, h6, h7, hb, hdd, -, -, -⟩ := hwf
  obtain ⟨bp, hbp⟩ := Option.isSome_iff_exists.1 hb
  obtain ⟨d, hd⟩ := Option.isSome_iff_exists.1 hdd
  rw [load_vehicleSection c fs filename f hfs h1 h2 h3 h4 h5 h6 h7]
  simp only [hbp, hd]
  rw [findIndex_eq_none]
  intro v hv
  have := hunknown v hv
  simpa [Bool.and_eq_false_iff, not_and_or] using this

/-! ### Equipment and engine of the loaded vehicle -/

theorem mem_addEquipment (v : Vehicle) (e x : Equipment)
    (h : x ∈ (v.addEquipment e).selectedEquipment) : x ∈ v.selectedEquipment ∨ x = e := by
  unfold Vehicle.addEquipment at h
  split at h
  · simpa using h
  · exact Or.inl h

theorem mem_addEquipment_of_mem (v : Vehicle) (e x : Equipment)
    (h : x ∈ v.selectedEquipment) : x ∈ (v.addEquipment e).selectedEquipment := by
  unfold Vehicle.addEquipment
  split
  · simp [h]
  · exact h

theorem addEquipment_frame (v : Vehicle) (e : Equipment) :
    (v.addEquipment e).engine = v.engine ∧ (v.addEquipment e).color = v.color
      ∧ (v.addEquipment e).discount = v.discount ∧ (v.addEquipment e).brand = v.brand
      ∧ (v.addEquipment e).model = v.model ∧ (v.addEquipment e).basePrice = v.basePrice := by
  unfold Vehicle.addEquipment
  split <;> simp

theorem addNamed_frame (cat : List Equipment) (v : Vehicle) (n : List Char) :
    (v.addNamed cat n).engine = v.engine ∧ (v.addNamed cat n).color = v.color
      ∧ (v.addNamed cat n).discount = v.discount ∧ (v.addNamed cat n).brand = v.brand
      ∧ (v.addNamed cat n).model = v.model ∧ (v.addNamed cat n).basePrice = v.basePrice := by
  unfold Vehicle.addNamed
  split
  · exact addEquipment_frame v _
  · simp

theorem mem_addNamed (cat : List Equipment) (v : Vehicle) (n : List Char) (x : Equipment)
    (h : x ∈ (v.addNamed cat n).selectedEquipment) :
    x ∈ v.selectedEquipment ∨ (x ∈ cat ∧ x.name.data = n) := by
  unfold Vehicle.addNamed at h
  split at h
  · rename_i e he
    rcases mem_addEquipment v e x h with h1 | h1
    · exact Or.inl h1
    · subst h1
      exact Or.inr ⟨List.mem_of_find?_eq_some he, by simpa using List.find?_some he⟩
  · exact Or.inl h

theorem mem_addNamed_of_mem (cat : List Equipment) (v : Vehicle) (n : List Char)
    (x : Equipment) (h : x ∈ v.selectedEquipment) : x ∈ (v.addNamed cat n).selectedEquipment := by
  unfold Vehicle.addNamed
  split
  · exact mem_addEquipment_of_mem v _ x h
  · exact h

theorem name_mem_addNamed (cat : List Equipment) (v : Vehicle) (n : List Char)
    (h : ∃ e ∈ cat, e.name.data = n) :
    ∃ x ∈ (v.addNamed cat n).selectedEquipment, x.name.data = n := by
  obtain ⟨e, he, hn⟩ := h
  unfold Vehicle.addNamed
  cases hf : cat.find? (fun e => e.name.data == n) with
  | none =>
    rw [List.find?_eq_none] at hf
    exact absurd (by simpa using hn) (hf e he)
  | some e2 =>
    have h2 : e2.name.data = n := by simpa using List.find?_some hf
    obtain ⟨x, hx, hxn⟩ := name_mem_addEquipment v e2
    exact ⟨x, hx, by rw [hxn, h2]⟩

theorem foldl_addNamed_frame (cat : List Equipment) (names : List (List Char)) (v : Vehicle) :
    (names.foldl (fun v n => v.addNamed cat n) v).engine = v.engine
      ∧ (names.foldl (fun v n => v.addNamed cat n) v).color = v.color
      ∧ (names.foldl (fun v n => v.addNamed cat n) v).discount = v.discount
      ∧ (names.foldl (fun v n => v.addNamed cat n) v).brand = v.brand
      ∧ (names.foldl (fun v n => v.addNamed cat n) v).model = v.model
      ∧ (names.foldl (fun v n => v.addNamed cat n) v).basePrice = v.basePrice := by
  induction names generalizing v with
  | nil => simp
  | cons n ns ih =>
    obtain ⟨a1, a2, a3, a4, a5, a6⟩ := addNamed_frame cat v n
    obtain ⟨b1, b2, b3, b4, b5, b6⟩ := ih (v.addNamed cat n)
    exact ⟨b1.trans a1, b2.trans a2, b3.trans a3, b4.trans a4, b5.trans a5, b6.trans a6⟩

theorem mem_foldl_addNamed (cat : List Equipment) (names : List (List Char)) (v : Vehicle)
    (x : Equipment) (h : x ∈ (names.foldl (fun v n => v.addNamed cat n) v).selectedEquipment) :
    x ∈ v.selectedEquipment ∨ (x ∈ cat ∧ x.name.data ∈ names) := by
  induction names generalizing v with
  | nil => exact Or.inl h
  | cons n ns ih =>
    rcases ih (v.addNamed cat n) h with h1 | h1
    · rcases mem_addNamed cat v n x h1 with h2 | h2
      · exact Or.inl h2
      · exact Or.inr ⟨h2.1, by simp [h2.2]⟩
    · exact Or.inr ⟨h1.1, List.mem_cons_of_mem _ h1.2⟩

theorem mem_foldl_addNamed_of_mem (cat : List Equipment) (names : List (List Char))
    (v : Vehicle) (x : Equipment) (h : x ∈ v.selectedEquipment) :
    x ∈ (names.foldl (fun v n => v.addNamed cat n) v).selectedEquipment := by
  induction names generalizing v with
  | nil => exact h
  | cons n ns ih => exact ih (v.addNamed cat n) (mem_addNamed_of_mem cat v n x h)

theorem name_mem_foldl_addNamed (cat : List Equipment) (names : List (List Char))
    (v : Vehicle) (n : List Char) (hn : n ∈ names) (h : ∃ e ∈ cat, e.name.data = n) :
    ∃ x ∈ (names.foldl (fun v n => v.addNamed cat n) v).selectedEquipment, x.name.data = n := by
  induction names generalizing v with
  | nil => simp at hn
  | cons m ms ih =>
    rcases List.mem_cons.1 hn with rfl | hm
    · obtain ⟨x, hx, hxn⟩ := name_mem_addNamed cat v n h
      exact ⟨x, mem_foldl_addNamed_of_mem cat ms _ x hx, hxn⟩
    · exact ih (v.addNamed cat m) hm

theorem installNamed_frame (cat : List Engine) (v : Vehicle) (n : List Char) :
    (v.installNamed cat n).selectedEquipment = v.selectedEquipment
      ∧ (v.installNamed cat n).color = v.color
      ∧ (v.installNamed cat n).discount = v.discount
      ∧ (v.installNamed cat n).brand = v.brand
      ∧ (v.installNamed cat n).model = v.model
      ∧ (v.installNamed cat n).basePrice = v.basePrice
      ∧ ((∀ x ∈ cat, x.name.data ≠ n) → (v.installNamed cat n).engine = v.engine)
      ∧ (∀ e, cat.find? (fun e => e.name.data == n) = some e →
          (v.installNamed cat n).engine = some e) := by
  unfold Vehicle.installNamed
  cases hf : cat.find? (fun e => e.name.data == n) with
  | none => simp
  | some e =>
    refine ⟨rfl, rfl, rfl, rfl, rfl, rfl, ?_, ?_⟩
    · intro hx
      exact absurd (by simpa using List.find?_some hf) (hx e (List.mem_of_find?_eq_some hf))
    · intro e2 h2
      simp only [Option.some.injEq] at h2
      subst h2
      rfl

/-! ### Rendered numbers stay on their line -/

theorem oneLine_of_forall (l : List Char) (h : ∀ c ∈ l, c ≠ '\n') : oneLine l :=
  fun hm => h _ hm rfl

theorem stripTrailingZeros_subset (l : List Char) : ∀ c ∈ stripTrailingZeros l, c ∈ l := by
  intro c hc
  unfold stripTrailingZeros at hc
  rw [List.mem_reverse] at hc
  have := (List.dropWhile_sublist _).subset hc
  simpa using this

theorem withPoint_ne (a b : List Char) (ha : ∀ c ∈ a, c ≠ '\n') (hb : ∀ c ∈ b, c ≠ '\n') :
    ∀ c ∈ withPoint a b, c ≠ '\n' := by
  intro c hc
  unfold withPoint at hc
  split at hc
  · exact ha c hc
  · rcases List.mem_append.1 hc with h | h
    · exact ha c h
    · rcases List.mem_cons.1 h with h | h
      · rw [h]; decide
      · exact hb c h

theorem showNat_ne (n : Nat) : ∀ c ∈ showNat n, c ≠ '\n' :=
  fun c hc => (isDigit_ne c (showNat_digits n c hc)).1

theorem showExponent_ne (X : Int) : ∀ c ∈ showExponent X, c ≠ '\n' := by
  intro c hc
  unfold showExponent at hc
  rcases List.mem_cons.1 hc with h | h
  · rw [h]; decide
  rcases List.mem_cons.1 h with h | h
  · rw [h]; split <;> decide
  split at h
  · rcases List.mem_cons.1 h with h | h
    · rw [h]; decide
    · exact showNat_ne _ c h
  · exact showNat_ne _ c h

theorem layoutG_ne (X : Int) (ds : List Char) (hds : ∀ c ∈ ds, c ≠ '\n') :
    ∀ c ∈ layoutG X ds, c ≠ '\n' := by
  intro c hc
  unfold layoutG at hc
  split at hc
  · rcases List.mem_append.1 hc with h | h
    · refine withPoint_ne _ _ ?_ ?_ c h
      · exact fun c hc => hds c (List.mem_of_mem_take hc)
      · exact fun c hc => hds c (List.mem_of_mem_drop (stripTrailingZeros_subset _ c hc))
    · exact showExponent_ne _ c h
  · split at hc
    · refine withPoint_ne _ _ ?_ ?_ c hc
      · exact fun c hc => hds c (List.mem_of_mem_take hc)
      · exact fun c hc => hds c (List.mem_of_mem_drop (stripTrailingZeros_subset _ c hc))
    · refine withPoint_ne _ _ ?_ ?_ c hc
      · intro c hc
        rw [List.mem_singleton] at hc
        rw [hc]; decide
      · intro c hc
        rcases List.mem_append.1 hc with h | h
        · rw [(List.mem_replicate.1 h).2]; decide
        · exact hds c (stripTrailingZeros_subset _ c h)

theorem showPositive_ne (n d : Nat) : ∀ c ∈ showPositive n d, c ≠ '\n' :=
  layoutG_ne _ _ (showNat_ne _)

theorem oneLine_showDouble (x : ℚ) : oneLine (showDouble x) := by
  apply oneLine_of_forall
  intro c hc
  unfold showDouble at hc
  split at hc
  · rw [List.mem_singleton] at hc
    rw [hc]; decide
  · split at hc
    · rcases List.mem_cons.1 hc with h | h
      · rw [h]; decide
      · exact showPositive_ne _ _ c h
    · exact showPositive_ne _ _ c hc

theorem oneLine_showInt (i : Int) : oneLine (showInt i) := by
  apply oneLine_of_forall
  intro c hc
  unfold showInt at hc
  split at hc
  · rcases List.mem_cons.1 hc with h | h
    · rw [h]; decide
    · exact showNat_ne _ c h
  · exact showNat_ne _ c hc

/-! ### The file written by `saveToFile` -/

theorem itemLines_eq_fileItemLines (i : Nat) (eqs : List Equipment) :
    itemLines i eqs = fileItemLines i (eqs.map (fun e =>
      ({ name := e.name.data, description := e.description.data, price := showDouble e.price,
         category := showInt e.category.toInt } : FileItem))) := by
  induction eqs generalizing i with
  | nil => rfl
  | cons e es ih => simp [itemLines, fileItemLines, ih]

theorem saveToFile_eq_text (v : Vehicle) (dateTime : List Char) :
    v.saveToFile dateTime = (ConfigFile.ofVehicle v dateTime).text := by
  unfold Vehicle.saveToFile ConfigFile.text Vehicle.saveLines ConfigFile.lines
  rw [itemLines_eq_fileItemLines]
  cases hE : v.engine <;> simp [ConfigFile.ofVehicle, hE, engineLines, FileEngine.lines]

theorem loadSections_engineless (c : VehicleConfigurator) (f : ConfigFile) (line : List Char)
    (he : f.engine = none) :
    loadSections c (some (unlines (f.lines.drop 11))) line = (.threw, c) := by
  have h0 : stod [] = none := by decide!
  simp [loadSections, ConfigFile.lines, he, getline_unlines_cons, oneLine_cons,
    oneLine_nil, oneLine_kv, oneLine_showNat, valueOf, h0]

/-- Every configuration saved without an engine fails to load: whatever the
vehicle, its equipment, colour and discount, and whatever the state of the
loading configurator, `loadConfiguration` on the file written by `saveToFile`
never returns true. -/
theorem load_engineless_save_never_true (c : VehicleConfigurator)
    (fs : List Char → Option (List Char)) (filename dateTime : List Char) (v : Vehicle)
    (hfs : fs (fullPath filename) = some (v.saveToFile dateTime))
    (hdate : oneLine dateTime) (hbrand : oneLine v.brand.data) (hmodel : oneLine v.model.data)
    (hyear : oneLine v.year.data) (hcolor : oneLine v.color.data) (hengine : v.engine = none) :
    (loadConfiguration c fs filename).1 ≠ .returnedTrue := by
  rw [saveToFile_eq_text] at hfs
  have he : (ConfigFile.ofVehicle v dateTime).engine = none := by
    simp [ConfigFile.ofVehicle, hengine]
  rw [load_vehicleSection c fs filename _ hfs hdate hbrand hmodel hyear
    (oneLine_showDouble _) hcolor (oneLine_showDouble _)]
  split
  · simp
  · split
    · simp
    · split
      · simp
      · rw [loadSections_engineless _ _ _ he]
        simp

/-! ### Round trip of catalog configurations -/

theorem addEquipment_of_name_not_mem (v : Vehicle) (e : Equipment)
    (h : ∀ y ∈ v.selectedEquipment, y.name ≠ e.name) :
    v.addEquipment e = { v with selectedEquipment := v.selectedEquipment ++ [e] } := by
  unfold Vehicle.addEquipment
  have : v.selectedEquipment.find? (fun y => y.name == e.name) = none := by
    rw [List.find?_eq_none]
    intro y hy
    simpa using h y hy
  rw [this]

theorem foldl_addNamed_fresh (cat : List Equipment) (eqs : List Equipment) (v : Vehicle)
    (hcat : ∀ x ∈ eqs, cat.find? (fun y => y.name.data == x.name.data) = some x)
    (hnd : (eqs.map Equipment.name).Nodup)
    (hnew : ∀ x ∈ eqs, ∀ y ∈ v.selectedEquipment, y.name ≠ x.name) :
    (eqs.map (fun e => e.name.data)).foldl (fun v n => v.addNamed cat n) v
      = { v with selectedEquipment := v.selectedEquipment ++ eqs } := by
  induction eqs generalizing v with
  | nil => simp
  | cons x es ih =>
    have hx : v.addNamed cat x.name.data
        = { v with selectedEquipment := v.selectedEquipment ++ [x] } := by
      unfold Vehicle.addNamed
      rw [hcat x (List.mem_cons_self _ _)]
      exact addEquipment_of_name_not_mem v x (hnew x (List.mem_cons_self _ _))
    rw [List.map_cons, List.nodup_cons] at hnd
    simp only [List.map_cons, List.foldl_cons, hx]
    rw [ih _ (fun y hy => hcat y (List.mem_cons_of_mem _ hy)) hnd.2]
    · simp
    · intro y hy z hz
      simp only [List.mem_append, List.mem_singleton] at hz
      rcases hz with hz | hz
      · exact hnew y (List.mem_cons_of_mem _ hy) z hz
      · subst hz
        intro heq
        exact hnd.1 (by rw [heq]; exact List.mem_map_of_mem _ hy)

theorem catalogVehicles_facts : ∀ cv ∈ catalogVehicles,
    oneLine cv.brand.data ∧ oneLine cv.model.data ∧ oneLine cv.year.data
      ∧ (stod (showDouble cv.basePrice)).isSome
      ∧ cv.selectedEquipment = []
      ∧ (findIndex (fun v => v.brand.data == cv.brand.data && v.model.data == cv.model.data)
          catalogVehicles).bind (fun i => catalogVehicles[i]?) = some cv := by
  decide!

theorem catalogEngines_facts : ∀ e ∈ catalogEngines,
    FileEngine.WellFormed
        { name := e.name.data, capacity := showDouble e.capacity,
          horsePower := showInt e.horsePower, fuelType := e.fuelType.data,
          price := showDouble e.price, co2Emissions := showInt e.co2Emissions,
          fuelConsumption := showDouble e.fuelConsumption }
      ∧ catalogEngines.find? (fun x => x.name.data == e.name.data) = some e := by
  decide!

theorem catalogEquipment_facts : ∀ e ∈ catalogEquipment,
    FileItem.WellFormed
        { name := e.name.data, description := e.description.data,
          price := showDouble e.price, category := showInt e.category.toInt }
      ∧ catalogEquipment.find? (fun x => x.name.data == e.name.data) = some e := by
  decide!

theorem catalogColors_facts : ∀ col ∈ catalogColors, oneLine col.data := by
  decide

/-- Round trip with an engine, for the discounts that survive their own
rendering: a catalog vehicle with a catalog engine, a list of catalog
equipment with pairwise distinct names, a catalog colour and a discount `d`
with `stod (showDouble d) = some d` is saved; loading the file into a freshly
initialized configurator returns true and the current vehicle is the saved
one, field for field. -/
theorem roundtrip_with_engine (cv : Vehicle) (e : Engine) (eqs : List Equipment)
    (col : String) (d : ℚ) (dateTime filename : List Char)
    (hcv : cv ∈ catalogVehicles) (he : e ∈ catalogEngines)
    (heqs : ∀ x ∈ eqs, x ∈ catalogEquipment) (hnd : (eqs.map Equipment.name).Nodup)
    (hcol : col ∈ catalogColors) (hdate : oneLine dateTime)
    (hd : stod (showDouble d) = some d) :
    (loadConfiguration initializeData
        (singleFile (fullPath filename)
          (Vehicle.saveToFile { cv with engine := some e, selectedEquipment := eqs,
                                        color := col, discount := d } dateTime))
        filename).1 = .returnedTrue
      ∧ (loadConfiguration initializeData
        (singleFile (fullPath filename)
          (Vehicle.saveToFile { cv with engine := some e, selectedEquipment := eqs,
                                        color := col, discount := d } dateTime))
        filename).2.current
        = some { cv with engine := some e, selectedEquipment := eqs,
                         color := col, discount := d } := by
  obtain ⟨c1, c2, c3, c4, c5, c6⟩ := catalogVehicles_facts cv hcv
  obtain ⟨e1, e2⟩ := catalogEngines_facts e he
  generalize hv : ({ cv with engine := some e, selectedEquipment := eqs,
                             color := col, discount := d } : Vehicle) = v
  have hvb : v.brand = cv.brand := by rw [← hv]
  have hvm : v.model = cv.model := by rw [← hv]
  have hvy : v.year = cv.year := by rw [← hv]
  have hvp : v.basePrice = cv.basePrice := by rw [← hv]
  have hvc : v.color = col := by rw [← hv]
  have hvd : v.discount = d := by rw [← hv]
  have hve : v.engine = some e := by rw [← hv]
  have hvs : v.selectedEquipment = eqs := by rw [← hv]
  have hlen : eqs.length ≤ 2147483647 := by
    have h1 : eqs.Nodup := List.Nodup.of_map _ hnd
    have h2 := (List.subperm_of_subset h1 (fun x hx => heqs x hx)).length_le
    have h3 : catalogEquipment.length = 15 := by decide
    omega
  have hwf : (ConfigFile.ofVehicle v dateTime).WellFormed := by
    refine ⟨hdate, ?_, ?_, ?_, ?_, ?_, ?_, ?_, ?_, ?_, ?_, ?_⟩
    · simpa [ConfigFile.ofVehicle, hvb] using c1
    · simpa [ConfigFile.ofVehicle, hvm] using c2
    · simpa [ConfigFile.ofVehicle, hvy] using c3
    · exact oneLine_showDouble _
    · simpa [ConfigFile.ofVehicle, hvc] using catalogColors_facts col hcol
    · exact oneLine_showDouble _
    · simpa [ConfigFile.ofVehicle, hvp] using c4
    · simp [ConfigFile.ofVehicle, hvd, hd]
    · intro fe hfe
      simp only [ConfigFile.ofVehicle, hve, Option.map_some', Option.mem_def,
        Option.some.injEq] at hfe
      rw [← hfe]
      exact e1
    · intro it hit
      simp only [ConfigFile.ofVehicle, hvs, List.mem_map] at hit
      obtain ⟨x, hx, rfl⟩ := hit
      exact (catalogEquipment_facts x (heqs x hx)).1
    · simp [ConfigFile.ofVehicle, hvs, hlen]
  obtain ⟨i, hi, hold⟩ := Option.bind_eq_some.1 c6
  have hfs : singleFile (fullPath filename) (v.saveToFile dateTime) (fullPath filename)
      = some (ConfigFile.ofVehicle v dateTime).text := by
    simp [singleFile, saveToFile_eq_text]
  have hi2 : findIndex (fun w => w.brand.data == (ConfigFile.ofVehicle v dateTime).brand
      && w.model.data == (ConfigFile.ofVehicle v dateTime).model)
      initializeData.availableVehicles = some i := by
    simpa [ConfigFile.ofVehicle, hvb, hvm, initializeData] using hi
  have hfe : (ConfigFile.ofVehicle v dateTime).engine = some
      { name := e.name.data, capacity := showDouble e.capacity,
        horsePower := showInt e.horsePower, fuelType := e.fuelType.data,
        price := showDouble e.price, co2Emissions := showInt e.co2Emissions,
        fuelConsumption := showDouble e.fuelConsumption } := by
    simp [ConfigFile.ofVehicle, hve]
  have hfd : stod (ConfigFile.ofVehicle v dateTime).discount = some d := by
    simpa [ConfigFile.ofVehicle, hvd] using hd
  obtain ⟨r1, -, -, -, -, -, r7⟩ := load_wellFormed initializeData _ filename
    (ConfigFile.ofVehicle v dateTime) _ d i cv hfs hwf hfe hfd hi2
    (by simpa [initializeData] using hold)
  refine ⟨r1, ?_⟩
  rw [r7]
  have hinst : Vehicle.installNamed initializeData.availableEngines
      ((cv.setColor (String.mk (ConfigFile.ofVehicle v dateTime).color)).setDiscount d)
      e.name.data = { cv with color := col, discount := d, engine := some e } := by
    unfold Vehicle.installNamed
    have : initializeData.availableEngines = catalogEngines := rfl
    rw [this, e2]
    simp [Vehicle.setEngine, Vehicle.setColor, Vehicle.setDiscount, ConfigFile.ofVehicle, hvc]
  have hnames : (ConfigFile.ofVehicle v dateTime).items.map FileItem.name
      = eqs.map (fun x => x.name.data) := by
    simp [ConfigFile.ofVehicle, hvs]
  rw [hinst, hnames]
  have hcatE : initializeData.availableEquipment = catalogEquipment := rfl
  rw [hcatE, foldl_addNamed_fresh catalogEquipment eqs _
    (fun x hx => (catalogEquipment_facts x (heqs x hx)).2) hnd
    (by intro x _ y hy; simp [c5] at hy)]
  rw [← hv]
  simp [c5]

/-! ### Claims about save and load -/

/-- C5 on a configurator with a customised Golf and a file for a "Trabant
601": the load returns false and the configurator is unchanged. -/
theorem C5_load_unknown_vehicle_untouched_witness :
    sampleUnknownVehicleFile.WellFormed
      ∧ loadConfiguration sampleDiscounted
          (singleFile "configs/trabant.txt".data sampleUnknownVehicleFile.text) "trabant".data
        = (.returnedFalse, sampleDiscounted) := by
  have hwf : sampleUnknownVehicleFile.WellFormed := by decide!
  exact ⟨hwf, C5_load_unknown_vehicle_untouched sampleDiscounted _ "trabant".data
    sampleUnknownVehicleFile (by decide!) hwf (by decide!)⟩

/-- C6 at a failing input, a file without `[ENGINE]` section:
`sampleEnginelessFile` is well-formed, names the catalog vehicle Audi A4 and
lists the catalog item "Heated seats", yet `loadConfiguration` does not return
true and the item is not present afterwards; `std::stod` throws on the empty
line that the loader takes for the CAPACITY line. -/
theorem C6_engineless_file_not_loaded :
    sampleEnginelessFile.WellFormed
      ∧ (∃ v ∈ VehicleConfigurator.initializeData.availableVehicles,
          v.brand.data = sampleEnginelessFile.brand ∧ v.model.data = sampleEnginelessFile.model)
      ∧ (∃ it ∈ sampleEnginelessFile.items,
          ∃ x ∈ VehicleConfigurator.initializeData.availableEquipment, x.name.data = it.name)
      ∧ (loadConfiguration VehicleConfigurator.initializeData
          (singleFile "configs/audi.txt".data sampleEnginelessFile.text) "audi".data).1
        = .threw
      ∧ (loadConfiguration VehicleConfigurator.initializeData
          (singleFile "configs/audi.txt".data sampleEnginelessFile.text)
            "audi".data).2.current.map Vehicle.selectedEquipment
        = some [] := by
  decide!

/-- Unknown names are skipped when the file carries every section the loader
reads: for every well-formed configuration file that has an
`[ENGINE]` section and whose vehicle is in the catalog, `loadConfiguration`
returns true and the matched vehicle `old` becomes the current one; every item
of the file whose name is in the catalog is present afterwards, every item
present afterwards was selected before or is a catalog item named in the file
(so nothing with an unknown name is added), nothing selected before is lost,
and an engine name missing from the catalog leaves the engine as it was. -/
theorem load_skips_unknown_names (c : VehicleConfigurator)
    (fs : List Char → Option (List Char)) (filename : List Char) (f : ConfigFile)
    (e : FileEngine) (hfs : fs (fullPath filename) = some f.text) (hwf : f.WellFormed)
    (he : f.engine = some e)
    (hveh : ∃ v ∈ c.availableVehicles, v.brand.data = f.brand ∧ v.model.data = f.model) :
    (loadConfiguration c fs filename).1 = .returnedTrue
      ∧ ∃ i old final, c.availableVehicles[i]? = some old
        ∧ old.brand.data = f.brand ∧ old.model.data = f.model
        ∧ (loadConfiguration c fs filename).2.currentVehicle = some i
        ∧ (loadConfiguration c fs filename).2.current = some final
        ∧ (∀ it ∈ f.items, (∃ x ∈ c.availableEquipment, x.name.data = it.name) →
            ∃ y ∈ final.selectedEquipment, y.name.data = it.name)
        ∧ (∀ y ∈ final.selectedEquipment, y ∈ old.selectedEquipment
            ∨ (y ∈ c.availableEquipment ∧ ∃ it ∈ f.items, y.name.data = it.name))
        ∧ (∀ y ∈ old.selectedEquipment, y ∈ final.selectedEquipment)
        ∧ ((∀ x ∈ c.availableEngines, x.name.data ≠ e.name) → final.engine = old.engine) := by
  obtain ⟨v, hv, hvb, hvm⟩ := hveh
  obtain ⟨i, hi⟩ := findIndex_isSome
    (fun v => v.brand.data == f.brand && v.model.data == f.model) c.availableVehicles v hv
    (by simp [hvb, hvm])
  obtain ⟨old, hold, hp⟩ := findIndex_some _ _ _ hi
  have hdd := hwf.2.2.2.2.2.2.2.2.1
  obtain ⟨d, hd⟩ := Option.isSome_iff_exists.1 hdd
  obtain ⟨r1, r2, -, -, -, -, r7⟩ := load_wellFormed c fs filename f e d i old hfs hwf he hd hi hold
  simp only [Bool.and_eq_true, beq_iff_eq] at hp
  obtain ⟨q1, -, -, -, -, -, q7, -⟩ := installNamed_frame c.availableEngines
    ((old.setColor (String.mk f.color)).setDiscount d) e.name
  refine ⟨r1, i, old, _, hold, hp.1, hp.2, r2, r7, ?_, ?_, ?_, ?_⟩
  · intro it hit hx
    exact name_mem_foldl_addNamed _ _ _ it.name (List.mem_map_of_mem _ hit) hx
  · intro y hy
    rcases mem_foldl_addNamed _ _ _ y hy with h1 | h1
    · rw [q1] at h1
      exact Or.inl h1
    · obtain ⟨it, hit, hname⟩ := List.mem_map.1 h1.2
      exact Or.inr ⟨h1.1, it, hit, hname.symm⟩
  · intro y hy
    apply mem_foldl_addNamed_of_mem
    rw [q1]
    exact hy
  · intro hx
    rw [(foldl_addNamed_frame _ _ _).1, q7 hx]
    rfl

/-- The file `sampleSkipFile` (engine "Warp drive" and item "Sunroof" unknown,
item "Heated seats" known) loaded into a fresh configurator: the load returns
true. -/
theorem load_skips_unknown_names_sample :
    sampleSkipFile.WellFormed
      ∧ (loadConfiguration VehicleConfigurator.initializeData
          (singleFile "configs/audi.txt".data sampleSkipFile.text) "audi".data).1
        = .returnedTrue :=
  ⟨by decide!,
    (load_skips_unknown_names VehicleConfigurator.initializeData
      (singleFile "configs/audi.txt".data sampleSkipFile.text) "audi".data sampleSkipFile
      _ (by decide!) (by decide!) rfl (by decide!)).1⟩

/-- C4 at a failing input: a Golf with "Leather upholstery" and no engine is
saved, its file has no `[ENGINE]` line, and loading that file into a fresh
configurator ends with an exception of `std::stod` instead of `true`; the
equipment of the file is not restored. -/
theorem C4_engineless_roundtrip_throws :
    sampleNoEngine.current = some sampleGolfLeather
      ∧ sampleGolfLeather.engine = none
      ∧ sampleGolfLeather.selectedEquipment.map Equipment.name = ["Leather upholstery"]
      ∧ "[ENGINE]".data ∉ sampleGolfLeather.saveLines sampleDate
      ∧ sampleNoEngineReloaded.1 = .threw
      ∧ sampleNoEngineReloaded.2.current.map Vehicle.selectedEquipment = some [] := by
  decide!

/-- C3 fails for a discount with more than six significant digits: a Golf with
the 1.4 TSI engine and the accepted discount 12.345678 is saved and loaded
into a fresh configurator; the load returns true, brand, model, colour and
engine come back, but the discount comes back as 12.3457 (the six significant
digits written by `saveToFile`), and the total price differs from the one
saved from. -/
theorem C3_roundtrip_discount_truncated :
    ((sampleSelected.selectEngine 1).2.applyDiscount 12.345678).1 = true
      ∧ sampleDiscounted.current.map Vehicle.discount = some 12.345678
      ∧ sampleDiscountedReloaded.1 = .returnedTrue
      ∧ sampleDiscountedReloaded.2.current.map Vehicle.brand
          = sampleDiscounted.current.map Vehicle.brand
      ∧ sampleDiscountedReloaded.2.current.map Vehicle.model
          = sampleDiscounted.current.map Vehicle.model
      ∧ sampleDiscountedReloaded.2.current.map Vehicle.color
          = sampleDiscounted.current.map Vehicle.color
      ∧ sampleDiscountedReloaded.2.current.map Vehicle.engine
          = sampleDiscounted.current.map Vehicle.engine
      ∧ sampleDiscountedReloaded.2.current.map Vehicle.discount = some 12.3457
      ∧ sampleDiscountedReloaded.2.current.map Vehicle.calculateTotalPrice
          ≠ sampleDiscounted.current.map Vehicle.calculateTotalPrice := by
  decide!

/-- C3, amended: for every configuration built from the catalog (a catalog
vehicle, a catalog engine, a list of catalog equipment with pairwise distinct
names, a catalog colour) and every discount `d` that survives the text form in
which `saveToFile` writes it (reading the six significant digits written gives
`d` back), loading the saved text into a freshly initialized configurator
returns true and yields a current vehicle with the same brand and model, the
same colour, the same discount, the same engine, the same equipment (even in
the same order) and the same total price. -/
theorem C3_roundtrip_with_engine (cv : Vehicle) (e : Engine) (eqs : List Equipment)
    (col : String) (d : ℚ) (dateTime filename : List Char)
    (hcv : cv ∈ catalogVehicles) (he : e ∈ catalogEngines)
    (heqs : ∀ x ∈ eqs, x ∈ catalogEquipment) (hnd : (eqs.map Equipment.name).Nodup)
    (hcol : col ∈ catalogColors) (hdate : oneLine dateTime)
    (hd : stod (showDouble d) = some d) :
    (loadConfiguration initializeData
        (singleFile (fullPath filename)
          (Vehicle.saveToFile { cv with engine := some e, selectedEquipment := eqs,
                                        color := col, discount := d } dateTime))
        filename).1 = .returnedTrue
      ∧ ∃ loaded, (loadConfiguration initializeData
          (singleFile (fullPath filename)
            (Vehicle.saveToFile { cv with engine := some e, selectedEquipment := eqs,
                                          color := col, discount := d } dateTime))
          filename).2.current = some loaded
        ∧ loaded.brand = cv.brand ∧ loaded.model = cv.model
        ∧ loaded.color = col ∧ loaded.discount = d ∧ loaded.engine = some e
        ∧ loaded.selectedEquipment = eqs
        ∧ loaded.calculateTotalPrice
            = Vehicle.calculateTotalPrice { cv with engine := some e, selectedEquipment := eqs,
                                                    color := col, discount := d } := by
  obtain ⟨h1, h2⟩ := roundtrip_with_engine cv e eqs col d dateTime filename hcv he heqs hnd
    hcol hdate hd
  exact ⟨h1, _, h2, rfl, rfl, rfl, rfl, rfl, rfl, rfl⟩

/-- C3, amended, on the red Golf with a 10% discount: the discount 10, like
every whole number from 0 to 30, survives its text form, and the reload
returns true. -/
theorem C3_roundtrip_with_engine_witness :
    stod (showDouble 10) = some 10
      ∧ (∀ k : Fin 31, stod (showDouble (k.val : ℚ)) = some (k.val : ℚ))
      ∧ (loadConfiguration initializeData
          (singleFile (fullPath "golf".data) (sampleRedGolf.saveToFile sampleDate))
          "golf".data).1 = .returnedTrue :=
  ⟨by decide!, by decide!,
    (C3_roundtrip_with_engine sampleGolf
      ⟨"1.4 TSI", 1.4, 150, "Gasoline", 12000, 130, 6.5⟩
      [⟨"Navigation system", "Advanced GPS navigation system", 3000, .MULTIMEDIA⟩,
       ⟨"Leather upholstery", "High-quality leather upholstery", 5000, .COMFORT⟩]
      "Red" 10 sampleDate "golf".data (by decide!) (by decide!) (by decide!) (by decide)
      (by decide) (by decide) (by decide!)).1⟩

/-! ### What every run of `loadConfiguration` preserves -/

theorem loadItems_preserves (P : VehicleConfigurator → Prop)
    (hadd : ∀ c n, P c → P (c.addEquipmentNamed n)) :
    ∀ (n : Nat) (c : VehicleConfigurator) (file : Option (List Char)) (line : List Char),
      P c → P (loadItems n c file line).2 := by
  intro n
  induction n with
  | zero => intro c file line h; simpa [loadItems] using h
  | succ n ih =>
    intro c file line h
    unfold loadItems
    simp only
    split
    · exact h
    · split
      · exact h
      · exact ih _ _ _ (hadd _ _ h)

theorem loadSections_preserves (P : VehicleConfigurator → Prop)
    (hadd : ∀ c n, P c → P (c.addEquipmentNamed n))
    (heng : ∀ c n, P c → P (c.installEngineNamed n))
    (c : VehicleConfigurator) (file : Option (List Char)) (line : List Char) (h : P c) :
    P (loadSections c file line).2 := by
  unfold loadSections
  simp only
  split
  · exact h
  · split
    · exact h
    · split
      · exact h
      · split
        · exact h
        · split
          · exact h
          · split
            · exact heng _ _ h
            · exact loadItems_preserves P hadd _ _ _ _ (heng _ _ h)

theorem loadConfiguration_preserves (P : VehicleConfigurator → Prop)
    (hadd : ∀ c n, P c → P (c.addEquipmentNamed n))
    (heng : ∀ c n, P c → P (c.installEngineNamed n))
    (c : VehicleConfigurator)
    (hsel : ∀ i col d, i < c.availableVehicles.length →
      P (({ c with currentVehicle := some i } : VehicleConfigurator).updateCurrent
        (fun v => (v.setColor col).setDiscount d)))
    (fs : List Char → Option (List Char)) (filename : List Char)
    (h : P c) : P (loadConfiguration c fs filename).2 := by
  unfold loadConfiguration
  split
  · exact h
  · simp only
    split
    · exact h
    · split
      · exact h
      · split
        · exact h
        · rename_i i hi
          obtain ⟨x, hx, -⟩ := findIndex_some _ _ _ hi
          have hlt : i < c.availableVehicles.length := by
            by_contra hcon
            rw [List.getElem?_eq_none (by omega)] at hx
            exact absurd hx (by simp)
          exact loadSections_preserves P hadd heng _ _ _ (hsel i _ _ hlt)

/-! ### The session invariant -/

theorem mem_modify {α : Type} (f : α → α) (l : List α) (i : Nat) (x : α)
    (h : x ∈ l.modify f i) : x ∈ l ∨ ∃ y ∈ l, x = f y := by
  induction l generalizing i with
  | nil => simp at h
  | cons a l ih =>
    cases i with
    | zero =>
      simp only [List.modify_zero_cons, List.mem_cons] at h
      rcases h with h | h
      · exact Or.inr ⟨a, by simp, h⟩
      · exact Or.inl (by simp [h])
    | succ i =>
      simp only [List.modify_succ_cons, List.mem_cons] at h
      rcases h with h | h
      · exact Or.inl (by simp [h])
      · rcases ih i h with h2 | ⟨y, hy, hxy⟩
        · exact Or.inl (by simp [h2])
        · exact Or.inr ⟨y, by simp [hy], hxy⟩

theorem forall_updateCurrent (Q : Vehicle → Prop) (g : Vehicle → Vehicle)
    (hg : ∀ v, Q v → Q (g v)) (c : VehicleConfigurator)
    (h : ∀ v ∈ c.availableVehicles, Q v) :
    ∀ v ∈ (c.updateCurrent g).availableVehicles, Q v := by
  unfold VehicleConfigurator.updateCurrent
  split
  · exact h
  · intro v hv
    rcases mem_modify g _ _ v hv with h1 | ⟨y, hy, rfl⟩
    · exact h v h1
    · exact hg y (h y hy)

theorem equipmentOK_addEquipment (cat : List Equipment) (v : Vehicle) (e : Equipment)
    (he : e ∈ cat) (h : v.EquipmentOK cat) : (v.addEquipment e).EquipmentOK cat := by
  unfold Vehicle.addEquipment
  cases hf : v.selectedEquipment.find? (fun y => y.name == e.name) with
  | some _ => exact h
  | none =>
    rw [List.find?_eq_none] at hf
    refine ⟨?_, ?_⟩
    · simp only [List.map_append, List.map_cons, List.map_nil]
      refine List.Nodup.append h.1 (by simp) ?_
      intro n hn hn2
      rw [List.mem_singleton] at hn2
      obtain ⟨y, hy, hyn⟩ := List.mem_map.1 hn
      exact hf y hy (by simp [hyn, hn2])
    · intro x hx
      rcases List.mem_append.1 hx with hx | hx
      · exact h.2 x hx
      · rw [List.mem_singleton] at hx
        rw [hx]; exact he

theorem equipmentOK_removeEquipment (cat : List Equipment) (v : Vehicle) (name : String)
    (h : v.EquipmentOK cat) : (v.removeEquipment name).EquipmentOK cat := by
  unfold Vehicle.removeEquipment
  split
  · refine ⟨?_, ?_⟩
    · exact List.Nodup.sublist ((List.eraseP_sublist _).map _) h.1
    · intro x hx
      exact h.2 x ((List.eraseP_sublist _).subset hx)
  · exact h

theorem equipmentOK_setters (cat : List Equipment) (v : Vehicle) (h : v.EquipmentOK cat)
    (col : String) (d : ℚ) (e : Option Engine) :
    (v.setColor col).EquipmentOK cat ∧ (v.setDiscount d).EquipmentOK cat
      ∧ (v.setEngine e).EquipmentOK cat := ⟨h, h, h⟩

theorem inv_updateCurrent (g : Vehicle → Vehicle)
    (hg : ∀ v, v.EquipmentOK catalogEquipment → (g v).EquipmentOK catalogEquipment)
    (c : VehicleConfigurator) (h : SessionInvariant c) : SessionInvariant (c.updateCurrent g) := by
  obtain ⟨h1, h2, h3, h4, h5, h6, h7⟩ := h
  obtain ⟨u1, u2, u3, u4, u5, u6⟩ := updateCurrent_fields c g
  refine ⟨u3.trans h1, u4.trans h2, u5.trans h3, u6.trans h4, ?_, ?_, ?_⟩
  · intro i hi
    rw [u6]; exact h5 i (u1 ▸ hi)
  · intro i hi
    rw [u6]; exact h6 i (u2 ▸ hi)
  · exact forall_updateCurrent _ g hg c h7

theorem inv_setEngine (c : VehicleConfigurator) (e : Option Engine) (h : SessionInvariant c) :
    SessionInvariant (c.updateCurrent (fun v => v.setEngine e)) :=
  inv_updateCurrent (fun v => v.setEngine e) (fun _ hv => hv) c h

theorem inv_setColor (c : VehicleConfigurator) (col : String) (h : SessionInvariant c) :
    SessionInvariant (c.updateCurrent (fun v => v.setColor col)) :=
  inv_updateCurrent (fun v => v.setColor col) (fun _ hv => hv) c h

theorem inv_setDiscount (c : VehicleConfigurator) (d : ℚ) (h : SessionInvariant c) :
    SessionInvariant (c.updateCurrent (fun v => v.setDiscount d)) :=
  inv_updateCurrent (fun v => v.setDiscount d) (fun _ hv => hv) c h

theorem inv_initializeData : SessionInvariant initializeData := by
  refine ⟨rfl, rfl, rfl, rfl, ?_, ?_, ?_⟩
  · intro i hi; simp [initializeData] at hi
  · intro i hi; simp [initializeData] at hi
  · intro v hv
    have : ∀ v ∈ catalogVehicles, v.selectedEquipment = [] := by decide
    have hv2 := this v hv
    exact ⟨by simp [hv2], by simp [hv2]⟩

theorem inv_addEquipmentNamed (c : VehicleConfigurator) (n : List Char)
    (h : SessionInvariant c) : SessionInvariant (c.addEquipmentNamed n) := by
  unfold VehicleConfigurator.addEquipmentNamed
  cases hf : c.availableEquipment.find? (fun e => e.name.data == n) with
  | none => exact h
  | some e =>
    have he : e ∈ catalogEquipment := h.1 ▸ List.mem_of_find?_eq_some hf
    exact inv_updateCurrent _ (fun v hv => equipmentOK_addEquipment _ v e he hv) c h

theorem inv_installEngineNamed (c : VehicleConfigurator) (n : List Char)
    (h : SessionInvariant c) : SessionInvariant (c.installEngineNamed n) := by
  unfold VehicleConfigurator.installEngineNamed
  split
  · exact inv_setEngine c _ h
  · exact h

theorem inv_select (c : VehicleConfigurator) (i : Nat) (h : SessionInvariant c)
    (hi : i < c.availableVehicles.length) :
    SessionInvariant { c with currentVehicle := some i } := by
  obtain ⟨h1, h2, h3, h4, h5, h6, h7⟩ := h
  refine ⟨h1, h2, h3, h4, ?_, h6, h7⟩
  intro j hj
  simp only [Option.some.injEq] at hj
  exact hj ▸ hi

theorem inv_loadConfiguration (c : VehicleConfigurator) (fs : List Char → Option (List Char))
    (filename : List Char) (h : SessionInvariant c) :
    SessionInvariant (loadConfiguration c fs filename).2 :=
  loadConfiguration_preserves SessionInvariant inv_addEquipmentNamed inv_installEngineNamed c
    (fun i col d hi => inv_updateCurrent (fun v => (v.setColor col).setDiscount d)
      (fun _ hv => hv) _ (inv_select c i h hi))
    fs filename h

theorem inv_step (c : VehicleConfigurator) (op : Op) (h : SessionInvariant c) :
    SessionInvariant (step c op) := by
  cases op with
  | selectVehicle index =>
    simp only [step, VehicleConfigurator.selectVehicle]
    split
    · rename_i hidx
      exact inv_select c _ h (by omega)
    · exact h
  | selectEngine index =>
    simp only [step, VehicleConfigurator.selectEngine]
    split
    · exact inv_setEngine c _ h
    · exact h
  | addEquipment index =>
    simp only [step, VehicleConfigurator.addEquipment]
    split
    · cases he : c.availableEquipment[index - 1]? with
      | none => exact h
      | some e =>
        have hmem : e ∈ catalogEquipment := h.1 ▸ List.getElem?_mem he
        exact inv_updateCurrent _ (fun v hv => equipmentOK_addEquipment _ v e hmem hv) c h
    · exact h
  | removeEquipment choice =>
    simp only [step, VehicleConfigurator.removeEquipmentMenu]
    split
    · exact h
    · split
      · exact h
      · split
        · exact h
        · split
          · split
            · exact inv_updateCurrent _
                (fun v hv => equipmentOK_removeEquipment _ v _ hv) c h
            · exact h
          · exact h
  | selectColor index =>
    simp only [step, VehicleConfigurator.selectColor]
    split
    · split
      · exact inv_setColor c _ h
      · exact h
    · exact h
  | applyDiscount p =>
    simp only [step, VehicleConfigurator.applyDiscount]
    split
    · exact inv_setDiscount c _ h
    · exact h
  | saveForComparison =>
    simp only [step, VehicleConfigurator.saveForComparison]
    split
    · rename_i i hi
      obtain ⟨h1, h2, h3, h4, h5, h6, h7⟩ := h
      refine ⟨h1, h2, h3, h4, h5, ?_, h7⟩
      intro j hj
      simp only [Option.some.injEq] at hj
      exact hj ▸ h5 i hi
    · exact h
  | loadConfiguration fs filename =>
    exact inv_loadConfiguration c fs filename h

theorem inv_run (ops : List Op) (c : VehicleConfigurator) (h : SessionInvariant c) :
    SessionInvariant (run c ops) := by
  induction ops generalizing c with
  | nil => exact h
  | cons op ops ih => exact ih (step c op) (inv_step c op h)

theorem inv_of_reachable (c : VehicleConfigurator) (h : Reachable c) : SessionInvariant c := by
  obtain ⟨ops, rfl⟩ := h
  exact inv_run ops _ inv_initializeData

/-- C11: without a selected vehicle, `selectEngine`, `addEquipment`,
`selectColor` and `applyDiscount` return false for every argument and give
back the configurator unchanged, so that no vehicle is selected afterwards and
no catalog vehicle is modified. -/
theorem C11_no_vehicle_no_effect (c : VehicleConfigurator) (hnone : c.currentVehicle = none)
    (index : Nat) (p : ℚ) :
    c.selectEngine index = (false, c) ∧ c.addEquipment index = (false, c)
      ∧ c.selectColor index = (false, c) ∧ c.applyDiscount p = (false, c)
      ∧ c.hasSelectedVehicle = false := by
  simp [VehicleConfigurator.selectEngine, VehicleConfigurator.addEquipment,
    VehicleConfigurator.selectColor, VehicleConfigurator.applyDiscount,
    VehicleConfigurator.hasSelectedVehicle, hnone]

/-- C11 on the fresh configurator with in-range arguments. -/
theorem C11_no_vehicle_no_effect_witness :
    initializeData.currentVehicle = none
      ∧ initializeData.selectEngine 1 = (false, initializeData)
      ∧ initializeData.addEquipment 1 = (false, initializeData)
      ∧ initializeData.selectColor 1 = (false, initializeData)
      ∧ initializeData.applyDiscount 10 = (false, initializeData) := by
  have h := C11_no_vehicle_no_effect initializeData rfl 1 10
  exact ⟨rfl, h.1, h.2.1, h.2.2.1, h.2.2.2.1⟩

/-- C20: in every state reachable from the freshly initialized configurator by
`selectVehicle`, `selectEngine`, `addEquipment`, removal through the menu,
`selectColor`, `applyDiscount`, `saveForComparison` and `loadConfiguration`
(with any file system and any file content), no vehicle has two selected items
with the same name. -/
theorem C20_equipment_names_unique (c : VehicleConfigurator) (hreach : Reachable c) :
    ∀ v ∈ c.availableVehicles, (v.selectedEquipment.map Equipment.name).Nodup :=
  fun v hv => ((inv_of_reachable c hreach).2.2.2.2.2.2 v hv).1

/-- C20 on `sampleSession`, which adds an item twice and loads a file that
repeats it: the state is reachable and the names stay distinct. -/
theorem C20_equipment_names_unique_witness :
    Reachable (run initializeData sampleSession)
      ∧ ∀ v ∈ (run initializeData sampleSession).availableVehicles,
          (v.selectedEquipment.map Equipment.name).Nodup :=
  ⟨⟨sampleSession, rfl⟩, C20_equipment_names_unique _ ⟨sampleSession, rfl⟩⟩

theorem reachable_step (c : VehicleConfigurator) (op : Op) (h : Reachable c) :
    Reachable (step c op) := by
  obtain ⟨ops, rfl⟩ := h
  exact ⟨ops ++ [op], by simp [run]⟩

theorem catalogEquipment_names_nodup : (catalogEquipment.map Equipment.name).Nodup := by
  decide

/-- C12: in every state of a session with a vehicle selected,
`addEquipment(index)` of the service returns true exactly when
`1 <= index <= availableEquipment.size()`, whether or not the item was already
selected; after a true result the catalog item at position `index - 1` occurs
exactly once in the equipment of the current vehicle, which is the old vehicle
after `Vehicle::addEquipment`; after a false result the configurator is
unchanged. -/
theorem C12_service_addEquipment (c : VehicleConfigurator) (i index : Nat)
    (hreach : Reachable c) (hsel : c.currentVehicle = some i) :
    ((c.addEquipment index).1 = true ↔ (1 ≤ index ∧ index ≤ c.availableEquipment.length))
      ∧ ((c.addEquipment index).1 = true →
          ∃ e old, c.availableEquipment[index - 1]? = some e ∧ c.current = some old
            ∧ (c.addEquipment index).2.current = some (old.addEquipment e)
            ∧ (old.addEquipment e).selectedEquipment.count e = 1)
      ∧ ((c.addEquipment index).1 = false → (c.addEquipment index).2 = c) := by
  have hinv := inv_of_reachable c hreach
  have hilt : i < c.availableVehicles.length := hinv.2.2.2.2.1 i hsel
  have hcur : c.current = some c.availableVehicles[i] := by
    simp [VehicleConfigurator.current, hsel, hilt]
  by_cases hidx : index ≥ 1 ∧ index ≤ c.availableEquipment.length
  · have hlt : index - 1 < c.availableEquipment.length := by omega
    have he : c.availableEquipment[index - 1]? = some c.availableEquipment[index - 1] :=
      List.getElem?_eq_getElem hlt
    have hres : c.addEquipment index
        = (true, c.updateCurrent (fun v => v.addEquipment c.availableEquipment[index - 1])) := by
      simp [VehicleConfigurator.addEquipment, hsel, hidx, he]
    have hmemcat : c.availableEquipment[index - 1] ∈ catalogEquipment :=
      hinv.1 ▸ List.getElem_mem hlt
    have hcur2 : (c.addEquipment index).2.current
        = some (c.availableVehicles[i].addEquipment c.availableEquipment[index - 1]) := by
      rw [hres]
      simp [current_updateCurrent, hcur]
    have hok : (c.availableVehicles[i].addEquipment
        c.availableEquipment[index - 1]).EquipmentOK catalogEquipment :=
      equipmentOK_addEquipment _ _ _ hmemcat
        (hinv.2.2.2.2.2.2 _ (List.getElem_mem hilt))
    refine ⟨by rw [hres]; simpa using hidx, fun _ => ?_, by rw [hres]; simp⟩
    refine ⟨_, _, he, hcur, hcur2, ?_⟩
    obtain ⟨x, hx, hxn⟩ := name_mem_addEquipment c.availableVehicles[i]
      c.availableEquipment[index - 1]
    have hxe : x = c.availableEquipment[index - 1] :=
      List.inj_on_of_nodup_map catalogEquipment_names_nodup (hok.2 x hx) hmemcat hxn
    rw [hxe] at hx
    exact List.count_eq_one_of_mem (List.Nodup.of_map _ hok.1) hx
  · have hres : c.addEquipment index = (false, c) := by
      simp only [VehicleConfigurator.addEquipment]
      rw [if_neg (fun hh => hidx hh.2)]
    rw [hres]
    exact ⟨by simpa using hidx, by simp, fun _ => rfl⟩

/-- C12 on the Audi A4 of `sampleSession`, which already has "Heated seats":
adding catalog item 4 ("Heated seats") again returns true, and index 16 is
refused without any change. -/
theorem C12_service_addEquipment_witness :
    ((run initializeData sampleSession).addEquipment 4).1 = true
      ∧ ((run initializeData sampleSession).addEquipment 16).2
          = run initializeData sampleSession := by
  have h4 := C12_service_addEquipment (run initializeData sampleSession) 1 4
    ⟨sampleSession, rfl⟩ (by decide!)
  have h16 := C12_service_addEquipment (run initializeData sampleSession) 1 16
    ⟨sampleSession, rfl⟩ (by decide!)
  refine ⟨h4.1.2 (by decide!), h16.2.2 ?_⟩
  rw [← Bool.not_eq_true, h16.1]
  decide!

/-! ### Which vehicle a call can change -/

theorem updateCurrent_getElem?_ne (c : VehicleConfigurator) (g : Vehicle → Vehicle) (k : Nat)
    (hk : c.currentVehicle ≠ some k) :
    (c.updateCurrent g).availableVehicles[k]? = c.availableVehicles[k]? := by
  unfold VehicleConfigurator.updateCurrent
  split
  · rfl
  · rename_i i hi
    have hne : i ≠ k := fun e => hk (by rw [hi, e])
    simp [List.getElem?_modify, hne]

theorem step_length (c : VehicleConfigurator) (op : Op) :
    (step c op).availableVehicles.length = c.availableVehicles.length := by
  cases op with
  | selectVehicle index =>
    simp only [step, VehicleConfigurator.selectVehicle]
    split <;> rfl
  | selectEngine index =>
    simp only [step, VehicleConfigurator.selectEngine]
    split
    · exact (updateCurrent_fields c _).2.2.2.2.2
    · rfl
  | addEquipment index =>
    simp only [step, VehicleConfigurator.addEquipment]
    split
    · split
      · exact (updateCurrent_fields c _).2.2.2.2.2
      · rfl
    · rfl
  | removeEquipment choice =>
    simp only [step, VehicleConfigurator.removeEquipmentMenu]
    split
    · rfl
    · split
      · rfl
      · split
        · rfl
        · split
          · split
            · exact (updateCurrent_fields c _).2.2.2.2.2
            · rfl
          · rfl
  | selectColor index =>
    simp only [step, VehicleConfigurator.selectColor]
    split
    · split
      · exact (updateCurrent_fields c _).2.2.2.2.2
      · rfl
    · rfl
  | applyDiscount p =>
    simp only [step, VehicleConfigurator.applyDiscount]
    split
    · exact (updateCurrent_fields c _).2.2.2.2.2
    · rfl
  | saveForComparison =>
    simp only [step, VehicleConfigurator.saveForComparison]
    split <;> rfl
  | loadConfiguration fs filename =>
    refine loadConfiguration_preserves
      (fun c2 => c2.availableVehicles.length = c.availableVehicles.length) ?_ ?_ c ?_ fs filename
      rfl
    · intro c2 n h
      unfold VehicleConfigurator.addEquipmentNamed
      split
      · exact ((updateCurrent_fields c2 _).2.2.2.2.2).trans h
      · exact h
    · intro c2 n h
      unfold VehicleConfigurator.installEngineNamed
      split
      · exact ((updateCurrent_fields c2 _).2.2.2.2.2).trans h
      · exact h
    · intro i col d _
      exact (updateCurrent_fields _ _).2.2.2.2.2

theorem run_length (ops : List Op) (c : VehicleConfigurator) :
    (run c ops).availableVehicles.length = c.availableVehicles.length := by
  induction ops generalizing c with
  | nil => rfl
  | cons op ops ih => exact (ih (step c op)).trans (step_length c op)

theorem step_frame (c : VehicleConfigurator) (op : Op) (k : Nat)
    (hk : (step c op).currentVehicle ≠ some k) :
    (step c op).availableVehicles[k]? = c.availableVehicles[k]? := by
  cases op with
  | selectVehicle index =>
    simp only [step, VehicleConfigurator.selectVehicle]
    split <;> rfl
  | selectEngine index =>
    simp only [step, VehicleConfigurator.selectEngine] at hk ⊢
    split
    · rename_i h
      rw [if_pos h] at hk
      exact updateCurrent_getElem?_ne c _ k ((updateCurrent_fields c _).1 ▸ hk)
    · rfl
  | addEquipment index =>
    simp only [step, VehicleConfigurator.addEquipment] at hk ⊢
    split
    · rename_i h
      rw [if_pos h] at hk
      split
      · rename_i e he
        rw [he] at hk
        exact updateCurrent_getElem?_ne c _ k ((updateCurrent_fields c _).1 ▸ hk)
      · rfl
    · rfl
  | removeEquipment choice =>
    simp only [step, VehicleConfigurator.removeEquipmentMenu] at hk ⊢
    split
    · rfl
    · split
      · rfl
      · split
        · rfl
        · split
          · split
            · apply updateCurrent_getElem?_ne
              intro hcon
              apply hk
              simp_all [(updateCurrent_fields c _).1]
            · rfl
          · rfl
  | selectColor index =>
    simp only [step, VehicleConfigurator.selectColor] at hk ⊢
    split
    · rename_i h
      rw [if_pos h] at hk
      split
      · rename_i col hcol
        rw [hcol] at hk
        exact updateCurrent_getElem?_ne c _ k ((updateCurrent_fields c _).1 ▸ hk)
      · rfl
    · rfl
  | applyDiscount p =>
    simp only [step, VehicleConfigurator.applyDiscount] at hk ⊢
    split
    · rename_i h
      rw [if_pos h] at hk
      exact updateCurrent_getElem?_ne c _ k ((updateCurrent_fields c _).1 ▸ hk)
    · rfl
  | saveForComparison =>
    simp only [step, VehicleConfigurator.saveForComparison]
    split <;> rfl
  | loadConfiguration fs filename =>
    have hP : (step c (.loadConfiguration fs filename)).currentVehicle = some k
        ∨ (step c (.loadConfiguration fs filename)).availableVehicles[k]?
            = c.availableVehicles[k]? := by
      refine loadConfiguration_preserves
        (fun c2 => c2.currentVehicle = some k
          ∨ c2.availableVehicles[k]? = c.availableVehicles[k]?) ?_ ?_ c ?_ fs filename
        (Or.inr rfl)
      · intro c2 n h
        unfold VehicleConfigurator.addEquipmentNamed
        split
        · by_cases hc : c2.currentVehicle = some k
          · exact Or.inl (((updateCurrent_fields c2 _).1).trans hc)
          · exact Or.inr ((updateCurrent_getElem?_ne c2 _ k hc).trans (h.resolve_left hc))
        · exact h
      · intro c2 n h
        unfold VehicleConfigurator.installEngineNamed
        split
        · by_cases hc : c2.currentVehicle = some k
          · exact Or.inl (((updateCurrent_fields c2 _).1).trans hc)
          · exact Or.inr ((updateCurrent_getElem?_ne c2 _ k hc).trans (h.resolve_left hc))
        · exact h
      · intro i col d _
        by_cases hik : i = k
        · exact Or.inl (by rw [(updateCurrent_fields _ _).1, hik])
        · exact Or.inr (updateCurrent_getElem?_ne _ _ k (by simp [hik]))
    exact hP.resolve_left hk

theorem run_frame (ops : List Op) (c : VehicleConfigurator) (k : Nat)
    (h : neverCurrent k c ops) :
    (run c ops).availableVehicles[k]? = c.availableVehicles[k]? := by
  induction ops generalizing c with
  | nil => rfl
  | cons op ops ih =>
    exact (ih (step c op) h.2).trans (step_frame c op k h.1)

/-- C19: selecting index `k + 1` again yields the same object. Whatever calls
are made while vehicle `k` is not the current one (selections, customisation
and loads of other vehicles), they leave vehicle `k` as it was, and a
following `selectVehicle(k + 1)` succeeds and makes exactly that vehicle, with
the engine, equipment, colour and discount it had, the current one. -/
theorem C19_same_object_on_reselect (c : VehicleConfigurator) (k : Nat) (ops : List Op)
    (hk : k < c.availableVehicles.length) (hnever : neverCurrent k c ops) :
    (run c ops).availableVehicles[k]? = c.availableVehicles[k]?
      ∧ ((run c ops).selectVehicle (k + 1)).1 = true
      ∧ ((run c ops).selectVehicle (k + 1)).2.currentVehicle = some k
      ∧ ((run c ops).selectVehicle (k + 1)).2.current = c.availableVehicles[k]? := by
  have hframe := run_frame ops c k hnever
  have hlen := run_length ops c
  have hres : (run c ops).selectVehicle (k + 1)
      = (true, { run c ops with currentVehicle := some k }) := by
    simp only [VehicleConfigurator.selectVehicle]
    rw [if_pos (by omega)]
    simp
  rw [hres]
  refine ⟨hframe, rfl, rfl, ?_⟩
  simp [VehicleConfigurator.current, hframe]

/-- C19 on the customised Golf: the Audi A4 is selected, customised and loaded
from a file, then `selectVehicle(1)` brings back the Golf with its engine,
"Leather upholstery", colour Red and discount 10. -/
theorem C19_same_object_on_reselect_witness :
    neverCurrent 0 sampleCustomised sampleOtherVehicleOps
      ∧ ((run sampleCustomised sampleOtherVehicleOps).selectVehicle 1).2.current
          = sampleCustomised.current
      ∧ sampleCustomised.current.map (fun v => (v.color, v.discount)) = some ("Red", 10) := by
  have hn : neverCurrent 0 sampleCustomised sampleOtherVehicleOps := by
    refine ⟨?_, ?_, ?_, ?_, ?_, trivial⟩ <;> decide!
  have h := C19_same_object_on_reselect sampleCustomised 0 sampleOtherVehicleOps (by decide) hn
  exact ⟨hn, h.2.2.2.trans (by decide!), by decide!⟩

/-- C18 fails: the Golf is customised, the Audi A4 is selected, and a
successful `selectVehicle(1)` then shows the Golf with the engine, the
equipment, the colour and the discount chosen before that call; selecting the
Golf while it is current keeps them as well. -/
theorem C18_customisation_survives_selectVehicle :
    (((step sampleCustomised (.selectVehicle 2)).selectVehicle 1).1 = true)
      ∧ ((step sampleCustomised (.selectVehicle 2)).selectVehicle 1).2.current.map
          (fun v => (v.engine.map Engine.name, v.selectedEquipment.map Equipment.name,
            v.color, v.discount))
        = some (some "1.4 TSI", ["Leather upholstery"], "Red", 10)
      ∧ (sampleCustomised.selectVehicle 1).1 = true
      ∧ (sampleCustomised.selectVehicle 1).2.current = sampleCustomised.current := by
  decide!

/-- C18, amended: a successful `selectVehicle(index)` only redirects
`currentVehicle`. No vehicle is modified, so the new current configuration is
catalog vehicle `index` exactly as it was before the call (with whatever was
chosen for that vehicle earlier, and nothing of the vehicle that was current
before), and the vehicle that was current before keeps its customisation. -/
theorem C18_selectVehicle_redirects_only (c : VehicleConfigurator) (index : Nat)
    (hidx : 1 ≤ index ∧ index ≤ c.availableVehicles.length) :
    (c.selectVehicle index).1 = true
      ∧ (c.selectVehicle index).2.availableVehicles = c.availableVehicles
      ∧ (c.selectVehicle index).2.comparisonVehicle = c.comparisonVehicle
      ∧ (c.selectVehicle index).2.currentVehicle = some (index - 1)
      ∧ (c.selectVehicle index).2.current = c.availableVehicles[index - 1]? := by
  have hres : c.selectVehicle index = (true, { c with currentVehicle := some (index - 1) }) := by
    simp only [VehicleConfigurator.selectVehicle]
    rw [if_pos hidx]
  rw [hres]
  refine ⟨rfl, rfl, rfl, rfl, ?_⟩
  simp [VehicleConfigurator.current]

/-- C18, amended, on the customised Golf: `selectVehicle(2)` makes the
untouched Audi A4 current and leaves the Golf as customised. -/
theorem C18_selectVehicle_redirects_only_witness :
    (sampleCustomised.selectVehicle 2).2.current.map
        (fun v => (v.model, v.engine, v.selectedEquipment, v.color, v.discount))
        = some ("A4", none, [], "White", 0)
      ∧ (sampleCustomised.selectVehicle 2).2.availableVehicles[0]? = sampleCustomised.current := by
  have h := C18_selectVehicle_redirects_only sampleCustomised 2 (by decide)
  refine ⟨?_, ?_⟩
  · rw [h.2.2.2.2]; decide!
  · rw [h.2.1]; decide!

theorem step_keepsSelection (c : VehicleConfigurator) (op : Op) (i : Nat)
    (hop : op.keepsSelection = true) (hcur : c.currentVehicle = some i)
    (hcmp : c.comparisonVehicle = some i) :
    (step c op).currentVehicle = some i ∧ (step c op).comparisonVehicle = some i := by
  cases op with
  | selectVehicle index => simp [Op.keepsSelection] at hop
  | loadConfiguration fs filename => simp [Op.keepsSelection] at hop
  | selectEngine index =>
    simp only [step, VehicleConfigurator.selectEngine]
    split
    · obtain ⟨u1, u2, -⟩ := updateCurrent_fields c
        (fun v => v.setEngine c.availableEngines[index - 1]?)
      exact ⟨u1.trans hcur, u2.trans hcmp⟩
    · exact ⟨hcur, hcmp⟩
  | addEquipment index =>
    simp only [step, VehicleConfigurator.addEquipment]
    split
    · split
      · rename_i e _
        obtain ⟨u1, u2, -⟩ := updateCurrent_fields c (fun v => v.addEquipment e)
        exact ⟨u1.trans hcur, u2.trans hcmp⟩
      · exact ⟨hcur, hcmp⟩
    · exact ⟨hcur, hcmp⟩
  | removeEquipment choice =>
    simp only [step, VehicleConfigurator.removeEquipmentMenu]
    split
    · exact ⟨hcur, hcmp⟩
    · split
      · exact ⟨hcur, hcmp⟩
      · split
        · exact ⟨hcur, hcmp⟩
        · split
          · split
            · rename_i e _
              obtain ⟨u1, u2, -⟩ := updateCurrent_fields c (fun w => w.removeEquipment e.name)
              exact ⟨u1.trans hcur, u2.trans hcmp⟩
            · exact ⟨hcur, hcmp⟩
          · exact ⟨hcur, hcmp⟩
  | selectColor index =>
    simp only [step, VehicleConfigurator.selectColor]
    split
    · split
      · rename_i col _
        obtain ⟨u1, u2, -⟩ := updateCurrent_fields c (fun v => v.setColor col)
        exact ⟨u1.trans hcur, u2.trans hcmp⟩
      · exact ⟨hcur, hcmp⟩
    · exact ⟨hcur, hcmp⟩
  | applyDiscount p =>
    simp only [step, VehicleConfigurator.applyDiscount]
    split
    · obtain ⟨u1, u2, -⟩ := updateCurrent_fields c (fun v => v.setDiscount p)
      exact ⟨u1.trans hcur, u2.trans hcmp⟩
    · exact ⟨hcur, hcmp⟩
  | saveForComparison =>
    have hs : c.saveForComparison = { c with comparisonVehicle := some i } := by
      simp [VehicleConfigurator.saveForComparison, hcur]
    show c.saveForComparison.currentVehicle = some i ∧ c.saveForComparison.comparisonVehicle = some i
    rw [hs]
    exact ⟨hcur, rfl⟩

theorem run_keepsSelection (ops : List Op) (c : VehicleConfigurator) (i : Nat)
    (hops : ∀ op ∈ ops, op.keepsSelection = true) (hcur : c.currentVehicle = some i)
    (hcmp : c.comparisonVehicle = some i) :
    (run c ops).currentVehicle = some i ∧ (run c ops).comparisonVehicle = some i := by
  induction ops generalizing c with
  | nil => exact ⟨hcur, hcmp⟩
  | cons op ops ih =>
    obtain ⟨h1, h2⟩ := step_keepsSelection c op i (hops op (List.mem_cons_self _ _)) hcur hcmp
    exact ih (step c op) (fun o ho => hops o (List.mem_cons_of_mem _ ho)) h1 h2

theorem differenceText_zero : differenceText 0 = "+0.00 USD".data := by
  decide!

/-- C17: the comparison snapshot is the live object. After `saveForComparison`
on a selected vehicle, every sequence of `selectEngine`, `addEquipment`,
menu removals, `selectColor`, `applyDiscount` and further `saveForComparison`
calls leaves `comparisonVehicle` and `currentVehicle` pointing at the same
vehicle: the saved configuration is the live one (same colour, engine,
equipment, discount, total price), and the comparison table shows equal
columns and the price difference "+0.00 USD". -/
theorem C17_snapshot_is_alias (c : VehicleConfigurator) (i : Nat) (ops : List Op)
    (hsel : c.currentVehicle = some i) (hvalid : i < c.availableVehicles.length)
    (hops : ∀ op ∈ ops, op.keepsSelection = true) :
    ∃ live, (run c.saveForComparison ops).current = some live
      ∧ (run c.saveForComparison ops).comparison = some live
      ∧ ∃ t, (run c.saveForComparison ops).compareConfigurations = some t
        ∧ t.colorSaved = t.colorCurrent ∧ t.engineSaved = t.engineCurrent
        ∧ t.totalPriceSaved = t.totalPriceCurrent
        ∧ t.priceDifference = "+0.00 USD".data := by
  have hs : c.saveForComparison = { c with comparisonVehicle := some i } := by
    simp [VehicleConfigurator.saveForComparison, hsel]
  obtain ⟨h1, h2⟩ := run_keepsSelection ops c.saveForComparison i hops
    (by rw [hs]; exact hsel) (by rw [hs])
  have hlen : i < (run c.saveForComparison ops).availableVehicles.length := by
    rw [run_length, hs]; exact hvalid
  have hcur : (run c.saveForComparison ops).current
      = some (run c.saveForComparison ops).availableVehicles[i] := by
    simp [VehicleConfigurator.current, h1, hlen]
  have hcmp : (run c.saveForComparison ops).comparison
      = some (run c.saveForComparison ops).availableVehicles[i] := by
    simp [VehicleConfigurator.comparison, h2, hlen]
  refine ⟨_, hcur, hcmp, ?_⟩
  simp only [VehicleConfigurator.compareConfigurations, hcur, hcmp, sub_self,
    differenceText_zero]
  exact ⟨_, rfl, rfl, rfl, rfl, rfl⟩

/-- C17 on the Golf: after the snapshot the engine, equipment, colour and
discount are changed, and the saved configuration shows the changed discount
20 and colour Blue of the live one. -/
theorem C17_snapshot_is_alias_witness :
    (run sampleSelected.saveForComparison sampleEditOps).comparison
        = (run sampleSelected.saveForComparison sampleEditOps).current
      ∧ (run sampleSelected.saveForComparison sampleEditOps).comparison.map
          (fun v => (v.color, v.discount)) = some ("Blue", 20) := by
  obtain ⟨live, h1, h2, -⟩ := C17_snapshot_is_alias sampleSelected 0 sampleEditOps rfl
    (by decide) (by decide)
  exact ⟨h2.trans h1.symm, by decide!⟩

/-- C15 at two failing inputs. A Golf with "Leather upholstery" and no engine
is shown as "Engine selected", and a Yamaha MT-07 with the engine "650cc Twin"
and a 30% discount (total 30100, below its base price 35000) is shown as "No
engine selected": the cell reports `calculateTotalPrice() > getBasePrice()`,
not the engine. -/
theorem C15_engine_row_reports_price :
    sampleEquipmentOnly.current.map Vehicle.engine = some none
      ∧ sampleEquipmentOnly.compareConfigurations.map (fun t => t.engineCurrent)
          = some "Engine selected"
      ∧ sampleEquipmentOnly.compareConfigurations.map (fun t => t.engineSaved)
          = some "Engine selected"
      ∧ (sampleEngineDiscounted.current.bind Vehicle.engine).map Engine.name
          = some "650cc Twin"
      ∧ sampleEngineDiscounted.compareConfigurations.map (fun t => t.engineCurrent)
          = some "No engine selected" := by
  decide!

/-- C16 at a failing input. The BMW X5 (250000) is saved for comparison and
the Yamaha MT-07 (35000) is selected: the difference is -215000 and the cell
reads "-,215,000.00 USD", with a comma between the sign and the magnitude,
where the claim has "-215,000.00 USD". -/
theorem C16_negative_difference_misplaced_comma :
    sampleCheaperCurrent.current.map Vehicle.calculateTotalPrice = some 35000
      ∧ sampleCheaperCurrent.comparison.map Vehicle.calculateTotalPrice = some 250000
      ∧ sampleCheaperCurrent.compareConfigurations.map (fun t => t.priceDifference)
          = some "-,215,000.00 USD".data
      ∧ formatPrice 215000 = "215,000.00 USD".data := by
  decide!

/-! ### The layout written by saveToFile -/

theorem hasSubstr_iff_contains (pat s : List Char) : hasSubstr pat s = true ↔ pat <:+: s := by
  induction s with
  | nil => simp [hasSubstr, List.infix_nil]
  | cons c cs ih =>
    simp only [hasSubstr, Bool.or_eq_true, ih, List.infix_cons_iff, List.isPrefixOf_iff_prefix]

theorem fullPath_eq (filename : List Char) :
    fullPath filename =
      if hasSubstr ".txt".data
          (if hasSubstr "configs/".data filename then filename else "configs/".data ++ filename)
      then (if hasSubstr "configs/".data filename then filename else "configs/".data ++ filename)
      else (if hasSubstr "configs/".data filename then filename else "configs/".data ++ filename)
        ++ ".txt".data := rfl

/-- C14 fails: "my/configs/x" does not start with "configs/", yet no prefix is
added and the resulting path "my/configs/x.txt" does not start with
"configs/"; "notes.txt.bak" does not end with ".txt", yet no suffix is added
and the resulting path "configs/notes.txt.bak" does not end with ".txt". -/
theorem C14_find_is_not_prefix_test :
    ¬ ("configs/".data <+: "my/configs/x".data)
      ∧ fullPath "my/configs/x".data = "my/configs/x.txt".data
      ∧ ¬ ("configs/".data <+: fullPath "my/configs/x".data)
      ∧ ¬ (".txt".data <:+ "notes.txt.bak".data)
      ∧ fullPath "notes.txt.bak".data = "configs/notes.txt.bak".data
      ∧ ¬ (".txt".data <:+ fullPath "notes.txt.bak".data) := by
  decide

theorem txt_contains_configs_append (s : List Char) :
    (".txt".data <:+: "configs/".data ++ s) ↔ (".txt".data <:+: s) := by
  constructor
  · intro h
    have h2 := (hasSubstr_iff_contains _ _).2 h
    apply (hasSubstr_iff_contains _ _).1
    simpa [hasSubstr, List.isPrefixOf] using h2
  · intro h
    exact List.IsInfix.trans h (List.suffix_append _ _).isInfix

/-- The path in one formula: the input, with "configs/" in front unless the
input contains "configs/", and with ".txt" behind unless the input contains
".txt". -/
theorem fullPath_exact (filename : List Char) :
    fullPath filename
      = (if "configs/".data <:+: filename then [] else "configs/".data) ++ filename
        ++ (if ".txt".data <:+: filename then [] else ".txt".data) := by
  by_cases h1 : hasSubstr "configs/".data filename = true
  · have i1 := (hasSubstr_iff_contains _ _).1 h1
    by_cases h2 : hasSubstr ".txt".data filename = true
    · have i2 := (hasSubstr_iff_contains _ _).1 h2
      rw [fullPath_eq, if_pos h1, if_pos h2, if_pos i1, if_pos i2]
      simp
    · have i2 : ¬ (".txt".data <:+: filename) := fun h => h2 ((hasSubstr_iff_contains _ _).2 h)
      rw [fullPath_eq, if_pos h1, if_neg h2, if_pos i1, if_neg i2]
      simp
  · have i1 : ¬ ("configs/".data <:+: filename) := fun h => h1 ((hasSubstr_iff_contains _ _).2 h)
    by_cases h2 : hasSubstr ".txt".data ("configs/".data ++ filename) = true
    · have i2 := (txt_contains_configs_append filename).1 ((hasSubstr_iff_contains _ _).1 h2)
      rw [fullPath_eq, if_neg h1, if_pos h2, if_neg i1, if_pos i2]
      simp
    · have i2 : ¬ (".txt".data <:+: filename) := fun h =>
        h2 ((hasSubstr_iff_contains _ _).2 ((txt_contains_configs_append filename).2 h))
      rw [fullPath_eq, if_neg h1, if_neg h2, if_neg i1, if_neg i2]

theorem fullPath_facts (filename : List Char) :
    ("configs/".data <:+: fullPath filename) ∧ (".txt".data <:+: fullPath filename)
      ∧ (¬ ("configs/".data <:+: filename) → "configs/".data <+: fullPath filename)
      ∧ (("configs/".data <:+: filename) → filename <+: fullPath filename)
      ∧ (¬ (".txt".data <:+: filename) → ".txt".data <:+ fullPath filename)
      ∧ ((".txt".data <:+: filename) →
          fullPath filename = filename ∨ fullPath filename = "configs/".data ++ filename)
      ∧ fullPath "myconfig".data = "configs/myconfig.txt".data := by
  have key := txt_contains_configs_append
  by_cases h1 : hasSubstr "configs/".data filename = true
  · have i1 := (hasSubstr_iff_contains _ _).1 h1
    by_cases h2 : hasSubstr ".txt".data filename = true
    · have i2 := (hasSubstr_iff_contains _ _).1 h2
      have e : fullPath filename = filename := by rw [fullPath_eq, if_pos h1, if_pos h2]
      rw [e]
      exact ⟨i1, i2, fun h => absurd i1 h, fun _ => List.prefix_refl _, fun h => absurd i2 h,
        fun _ => Or.inl rfl, by decide⟩
    · have i2 : ¬ (".txt".data <:+: filename) := fun h => h2 ((hasSubstr_iff_contains _ _).2 h)
      have e : fullPath filename = filename ++ ".txt".data := by rw [fullPath_eq, if_pos h1, if_neg h2]
      rw [e]
      exact ⟨i1.trans (List.prefix_append _ _).isInfix, (List.suffix_append _ _).isInfix,
        fun h => absurd i1 h, fun _ => List.prefix_append _ _, fun _ => List.suffix_append _ _,
        fun h => absurd h i2, by decide⟩
  · have i1 : ¬ ("configs/".data <:+: filename) := fun h => h1 ((hasSubstr_iff_contains _ _).2 h)
    by_cases h2 : hasSubstr ".txt".data ("configs/".data ++ filename) = true
    · have i2 := (hasSubstr_iff_contains _ _).1 h2
      have e : fullPath filename = "configs/".data ++ filename := by rw [fullPath_eq, if_neg h1, if_pos h2]
      rw [e]
      exact ⟨(List.prefix_append _ _).isInfix, i2, fun _ => List.prefix_append _ _,
        fun h => absurd h i1, fun h => absurd ((key filename).1 i2) h, fun _ => Or.inr rfl,
        by decide⟩
    · have e : fullPath filename = ("configs/".data ++ filename) ++ ".txt".data := by
        rw [fullPath_eq, if_neg h1, if_neg h2]
      have i2 : ¬ (".txt".data <:+: filename) := fun h =>
        h2 ((hasSubstr_iff_contains _ _).2 ((key filename).2 h))
      rw [e]
      exact ⟨((List.prefix_append _ _).isInfix).trans (List.prefix_append _ _).isInfix,
        (List.suffix_append _ _).isInfix,
        fun _ => (List.prefix_append _ _).trans (List.prefix_append _ _),
        fun h => absurd h i1, fun _ => List.suffix_append _ _, fun h => absurd h i2, by decide⟩

/-- C14, amended: the normalisation shared by `saveConfiguration` and
`loadConfiguration` returns the input with "configs/" put in front exactly
when the input does not contain "configs/" anywhere, and with ".txt" appended
exactly when the path reached so far does not contain ".txt" anywhere, which
is the case exactly when the input does not contain it. The result always
contains both; it starts with "configs/" whenever the input does not contain
it, and ends with ".txt" whenever the input does not contain it; "myconfig"
becomes "configs/myconfig.txt". -/
theorem C14_fullPath_normalisation (filename : List Char) :
    fullPath filename
        = (if "configs/".data <:+: filename then [] else "configs/".data) ++ filename
          ++ (if ".txt".data <:+: filename then [] else ".txt".data)
      ∧ ((".txt".data <:+:
            (if "configs/".data <:+: filename then [] else "configs/".data) ++ filename)
          ↔ (".txt".data <:+: filename))
      ∧ ("configs/".data <:+: fullPath filename) ∧ (".txt".data <:+: fullPath filename)
      ∧ (¬ ("configs/".data <:+: filename) → "configs/".data <+: fullPath filename)
      ∧ (("configs/".data <:+: filename) → filename <+: fullPath filename)
      ∧ (¬ (".txt".data <:+: filename) → ".txt".data <:+ fullPath filename)
      ∧ ((".txt".data <:+: filename) →
          fullPath filename = filename ∨ fullPath filename = "configs/".data ++ filename)
      ∧ fullPath "myconfig".data = "configs/myconfig.txt".data := by
  refine ⟨fullPath_exact filename, ?_, fullPath_facts filename⟩
  by_cases h1 : "configs/".data <:+: filename
  · rw [if_pos h1]; simp
  · rw [if_neg h1]; exact txt_contains_configs_append filename

/-- C14, amended, on three inputs: "golf" becomes "configs/golf.txt",
"configs/audi" becomes "configs/audi.txt", and "my/configs/x.txt" is used as
it is. -/
theorem C14_fullPath_normalisation_witness :
    fullPath "golf".data = "configs/golf.txt".data
      ∧ fullPath "configs/audi".data = "configs/audi.txt".data
      ∧ fullPath "my/configs/x.txt".data = "my/configs/x.txt".data
      ∧ ("configs/".data <+: fullPath "myconfig".data)
      ∧ (".txt".data <:+ fullPath "myconfig".data) :=
  ⟨(C14_fullPath_normalisation "golf".data).1.trans (by decide),
   (C14_fullPath_normalisation "configs/audi".data).1.trans (by decide),
   (C14_fullPath_normalisation "my/configs/x.txt".data).1.trans (by decide),
   (C14_fullPath_normalisation "myconfig".data).2.2.2.2.1 (by decide),
   (C14_fullPath_normalisation "myconfig".data).2.2.2.2.2.2.1 (by decide)⟩

/-! ### Selection is never lost; what a discount touches -/

theorem step_hasSelectedVehicle (c : VehicleConfigurator) (op : Op)
    (h : c.hasSelectedVehicle = true) : (step c op).hasSelectedVehicle = true := by
  have hsome : c.currentVehicle.isSome = true := h
  cases op with
  | selectVehicle index =>
    simp only [step, VehicleConfigurator.selectVehicle]
    split
    · rfl
    · exact h
  | selectEngine index =>
    simp only [step, VehicleConfigurator.selectEngine]
    split
    · show (c.updateCurrent _).currentVehicle.isSome = true
      rw [(updateCurrent_fields c _).1]; exact hsome
    · exact h
  | addEquipment index =>
    simp only [step, VehicleConfigurator.addEquipment]
    split
    · split
      · show (c.updateCurrent _).currentVehicle.isSome = true
        rw [(updateCurrent_fields c _).1]; exact hsome
      · exact h
    · exact h
  | removeEquipment choice =>
    simp only [step, VehicleConfigurator.removeEquipmentMenu]
    split
    · exact h
    · split
      · exact h
      · split
        · exact h
        · split
          · split
            · show (c.updateCurrent _).currentVehicle.isSome = true
              rw [(updateCurrent_fields c _).1]; exact hsome
            · exact h
          · exact h
  | selectColor index =>
    simp only [step, VehicleConfigurator.selectColor]
    split
    · split
      · show (c.updateCurrent _).currentVehicle.isSome = true
        rw [(updateCurrent_fields c _).1]; exact hsome
      · exact h
    · exact h
  | applyDiscount p =>
    simp only [step, VehicleConfigurator.applyDiscount]
    split
    · show (c.updateCurrent _).currentVehicle.isSome = true
      rw [(updateCurrent_fields c _).1]; exact hsome
    · exact h
  | saveForComparison =>
    simp only [step, VehicleConfigurator.saveForComparison]
    split
    · exact h
    · exact h
  | loadConfiguration fs filename =>
    show (c.loadConfiguration fs filename).2.currentVehicle.isSome = true
    refine loadConfiguration_preserves (fun c => c.currentVehicle.isSome = true) ?_ ?_ c ?_
      fs filename hsome
    · intro c n hc
      show (c.addEquipmentNamed n).currentVehicle.isSome = true
      rw [(addEquipmentNamed_fields c n).1]; exact hc
    · intro c n hc
      show (c.installEngineNamed n).currentVehicle.isSome = true
      rw [(installEngineNamed_fields c n).1]; exact hc
    · intro i col d _
      show (VehicleConfigurator.updateCurrent _ _).currentVehicle.isSome = true
      rw [(updateCurrent_fields _ _).1]; rfl

theorem run_hasSelectedVehicle (ops : List Op) (c : VehicleConfigurator)
    (h : c.hasSelectedVehicle = true) : (run c ops).hasSelectedVehicle = true := by
  induction ops generalizing c with
  | nil => exact h
  | cons op ops ih => exact ih (step c op) (step_hasSelectedVehicle c op h)

/-- C22: once a vehicle is selected, `hasSelectedVehicle` is true after every
call of a sequence of `selectVehicle`, `selectEngine`, `addEquipment`, menu
removals, `selectColor`, `applyDiscount`, `saveForComparison` and
`loadConfiguration` calls, whatever the calls return (for a load that ends
with an exception: at the moment of the throw). -/
theorem C22_selection_never_lost (c : VehicleConfigurator) (ops : List Op)
    (hsel : c.hasSelectedVehicle = true) :
    ∀ n, (run c (ops.take n)).hasSelectedVehicle = true :=
  fun n => run_hasSelectedVehicle (ops.take n) c hsel

/-- C22 on the configurator with the Golf selected and a sequence with failing
calls: index 99 is refused by every call, the discount 50 is out of range and
the file does not exist. -/
theorem C22_selection_never_lost_witness :
    sampleSelected.hasSelectedVehicle = true
      ∧ ∀ n, (run sampleSelected (sampleFailingOps.take n)).hasSelectedVehicle = true :=
  ⟨by decide, C22_selection_never_lost sampleSelected sampleFailingOps (by decide)⟩

/-- C23: `applyDiscount(p)` leaves the catalogs of engines, equipment and
colours and the two vehicle pointers as they are; every vehicle other than the
current one is unchanged; and every vehicle, the current one included, keeps
its base price, engine, equipment, colour and all other fields, the discount
being the only field that can differ. -/
theorem C23_applyDiscount_frame (c : VehicleConfigurator) (p : ℚ) :
    (c.applyDiscount p).2.availableEngines = c.availableEngines
      ∧ (c.applyDiscount p).2.availableEquipment = c.availableEquipment
      ∧ (c.applyDiscount p).2.availableColors = c.availableColors
      ∧ (c.applyDiscount p).2.currentVehicle = c.currentVehicle
      ∧ (c.applyDiscount p).2.comparisonVehicle = c.comparisonVehicle
      ∧ (c.applyDiscount p).2.availableVehicles.length = c.availableVehicles.length
      ∧ (∀ k, c.currentVehicle ≠ some k →
          (c.applyDiscount p).2.availableVehicles[k]? = c.availableVehicles[k]?)
      ∧ (∀ (k : Nat) (v : Vehicle), c.availableVehicles[k]? = some v →
          ∃ d, (c.applyDiscount p).2.availableVehicles[k]? = some { v with discount := d }) := by
  unfold VehicleConfigurator.applyDiscount
  split
  · obtain ⟨h1, h2, h3, h4, h5, h6⟩ := updateCurrent_fields c (fun v => v.setDiscount p)
    refine ⟨h4, h3, h5, h1, h2, h6, fun k hk => updateCurrent_getElem?_ne c _ k hk, ?_⟩
    intro k v hv
    show ∃ d, (c.updateCurrent (fun v => v.setDiscount p)).availableVehicles[k]? = _
    unfold VehicleConfigurator.updateCurrent
    split
    · exact ⟨v.discount, hv⟩
    · rename_i i hi
      by_cases hik : i = k
      · exact ⟨p, by simp [List.getElem?_modify, hik, hv, Vehicle.setDiscount]⟩
      · exact ⟨v.discount, by simp [List.getElem?_modify, hik, hv]⟩
  · exact ⟨rfl, rfl, rfl, rfl, rfl, rfl, fun _ _ => rfl, fun k v hv => ⟨v.discount, hv⟩⟩

/-- C23 on the customised Golf (engine 1.4 TSI, colour Red, discount 10):
`applyDiscount(20)` leaves the Audi A4 and the engine catalog as they are, and
the Golf keeps base price, engine price and colour with the discount 20. -/
theorem C23_applyDiscount_frame_witness :
    (sampleCustomised.applyDiscount 20).2.availableVehicles[1]?
        = sampleCustomised.availableVehicles[1]?
      ∧ (sampleCustomised.applyDiscount 20).2.availableEngines
        = sampleCustomised.availableEngines
      ∧ (sampleCustomised.applyDiscount 20).2.current.map
          (fun v => (v.basePrice, v.engine.map Engine.price, v.color, v.discount))
        = some (80000, some 12000, "Red", 20) :=
  ⟨(C23_applyDiscount_frame sampleCustomised 20).2.2.2.2.2.2.1 1 (by decide!),
    (C23_applyDiscount_frame sampleCustomised 20).1, by decide!⟩

/-! ### Order of the equipment list -/

theorem eraseP_eq_filter_of_nodup (name : String) (l : List Equipment)
    (hnd : (l.map Equipment.name).Nodup) (hmem : ∃ x ∈ l, x.name = name) :
    l.eraseP (fun e => e.name == name) = l.filter (fun e => !(e.name == name)) := by
  induction l with
  | nil => simp at hmem
  | cons a l ih =>
    simp only [List.map_cons, List.nodup_cons, List.mem_map, not_exists, not_and] at hnd
    by_cases ha : a.name = name
    · have hrest : ∀ x ∈ l, ¬ (x.name = name) := fun x hx hxn => hnd.1 x hx (hxn.trans ha.symm)
      have hf : l.filter (fun e => !(e.name == name)) = l := by
        rw [List.filter_eq_self]
        intro x hx
        simp [hrest x hx]
      simp [List.eraseP_cons, ha, hf]
    · obtain ⟨x, hx, hxn⟩ := hmem
      have hx2 : x ∈ l := by
        rcases List.mem_cons.1 hx with h | h
        · exact absurd (h ▸ hxn) ha
        · exact h
      have := ih hnd.2 ⟨x, hx2, hxn⟩
      simp [List.eraseP_cons, ha, this]

/-- C24: on a vehicle whose equipment names are pairwise distinct,
`removeEquipment(name)` for a name that is present leaves the list of all
items with another name, in their original order: no item has the name
afterwards, the list is one shorter, and nothing else of the vehicle
changes. -/
theorem C24_removeEquipment_removes_exactly (v : Vehicle) (name : String)
    (hnodup : (v.selectedEquipment.map Equipment.name).Nodup)
    (hmem : ∃ x ∈ v.selectedEquipment, x.name = name) :
    (v.removeEquipment name).selectedEquipment
        = v.selectedEquipment.filter (fun e => !(e.name == name))
      ∧ (∀ x ∈ (v.removeEquipment name).selectedEquipment, x.name ≠ name)
      ∧ (v.removeEquipment name).selectedEquipment.length + 1 = v.selectedEquipment.length
      ∧ (v.removeEquipment name).selectedEquipment.Sublist v.selectedEquipment
      ∧ (∀ x ∈ v.selectedEquipment, x.name ≠ name →
          x ∈ (v.removeEquipment name).selectedEquipment)
      ∧ v.removeEquipment name
          = { v with selectedEquipment := (v.removeEquipment name).selectedEquipment } := by
  obtain ⟨x, hx, hxn⟩ := hmem
  have hfind : ∃ y, v.selectedEquipment.find? (fun e => e.name == name) = some y := by
    cases hf : v.selectedEquipment.find? (fun e => e.name == name) with
    | some y => exact ⟨y, rfl⟩
    | none =>
      have := List.find?_eq_none.1 hf x hx
      simp [hxn] at this
  obtain ⟨y, hy⟩ := hfind
  have hsel : (v.removeEquipment name).selectedEquipment
      = v.selectedEquipment.eraseP (fun e => e.name == name) := by
    simp [Vehicle.removeEquipment, hy]
  have hfilter := eraseP_eq_filter_of_nodup name v.selectedEquipment hnodup ⟨x, hx, hxn⟩
  refine ⟨hsel.trans hfilter, ?_, ?_, ?_, ?_, ?_⟩
  · intro z hz
    rw [hsel, hfilter] at hz
    simpa using (List.mem_filter.1 hz).2
  · rw [hsel, List.length_eraseP_of_mem hx (by simp [hxn])]
    have : 0 < v.selectedEquipment.length := List.length_pos_of_mem hx
    omega
  · rw [hsel]; exact List.eraseP_sublist _
  · intro z hz hzn
    rw [hsel, hfilter]
    exact List.mem_filter.2 ⟨hz, by simp [hzn]⟩
  · simp [Vehicle.removeEquipment, hy]

/-- C24 on the Golf with "Leather upholstery" and "Navigation system":
removing the first leaves exactly the second. -/
theorem C24_removeEquipment_removes_exactly_witness :
    (sampleConfigured.removeEquipment "Leather upholstery").selectedEquipment
      = [⟨"Navigation system", "Advanced GPS navigation system", 3000, .MULTIMEDIA⟩] :=
  (C24_removeEquipment_removes_exactly sampleConfigured "Leather upholstery"
    (by decide) ⟨_, List.mem_cons_self _ _, rfl⟩).1.trans (by decide!)

/-- C25: for an item whose name is not yet present, `Vehicle::addEquipment`
puts the item at the end of the list: the new list is the old one followed by
the item, every earlier position holds the item it held before, the last
position holds the new item, and nothing else of the vehicle changes. -/
theorem C25_addEquipment_appends (v : Vehicle) (e : Equipment)
    (hfresh : ∀ y ∈ v.selectedEquipment, y.name ≠ e.name) :
    (v.addEquipment e).selectedEquipment = v.selectedEquipment ++ [e]
      ∧ (∀ i, i < v.selectedEquipment.length →
          (v.addEquipment e).selectedEquipment[i]? = v.selectedEquipment[i]?)
      ∧ (v.addEquipment e).selectedEquipment[v.selectedEquipment.length]? = some e
      ∧ (v.addEquipment e).selectedEquipment.length = v.selectedEquipment.length + 1
      ∧ v.addEquipment e = { v with selectedEquipment := v.selectedEquipment ++ [e] } := by
  have h := addEquipment_of_name_not_mem v e hfresh
  rw [h]
  refine ⟨rfl, ?_, ?_, ?_, rfl⟩
  · intro i hi
    exact List.getElem?_append_left hi
  · simp
  · simp

/-- C25 on the Golf with "Leather upholstery" and "Navigation system":
"Heated seats" becomes the third item. -/
theorem C25_addEquipment_appends_witness :
    (sampleConfigured.addEquipment sampleSeats).selectedEquipment.map Equipment.name
      = ["Leather upholstery", "Navigation system", "Heated seats"] := by
  rw [(C25_addEquipment_appends sampleConfigured sampleSeats (by decide)).1]
  decide

/-! ### Numbers shown in the listings -/

/-- C26 on the catalog of `initializeData`. The listing is grouped through a
map ordered by group name, so "Electric Vehicles" comes before "Motorcycles":
the numbers 7 and 8 stand next to the Tesla Model 3 and the Nissan Leaf and 9
to 11 next to the motorcycles, while `selectVehicle(7)` selects the Yamaha
MT-07, `selectVehicle(9)` the Harley-Davidson Fat Boy and `selectVehicle(10)`
the Tesla Model 3. -/
theorem C26_listing_numbers_differ_from_index :
    initializeData.displayAvailableVehicles.map
        (fun g => (g.1, g.2.map (fun p => (p.1, p.2.model))))
      = [ ("Cars", [(1, "Golf"), (2, "A4"), (3, "X5"), (4, "Corolla"), (5, "C-Class"),
            (6, "Mustang")]),
          ("Electric Vehicles", [(7, "Model 3"), (8, "Leaf")]),
          ("Motorcycles", [(9, "MT-07"), (10, "CBR650R"), (11, "Fat Boy")]) ]
      ∧ (initializeData.selectVehicle 7).2.current.map Vehicle.model = some "MT-07"
      ∧ (initializeData.selectVehicle 9).2.current.map Vehicle.model = some "Fat Boy"
      ∧ (initializeData.selectVehicle 10).2.current.map Vehicle.model = some "Model 3" := by
  decide!

/-- C27 on the catalog of `initializeData`. The listing is grouped through a
map ordered by fuel type (Diesel, Electric, Gasoline, Hybrid), so the number 1
stands next to the 1.6 TDI and the number 4 next to the 1.4 TSI, while
`selectEngine(1)` installs the 1.4 TSI and `selectEngine(4)` the 2.0 TSI; no
engine has the number that selects it. -/
theorem C27_engine_numbers_differ_from_index :
    initializeData.displayAvailableEngines.map
        (fun g => (g.1, g.2.map (fun p => (p.1, p.2.name))))
      = [ ("Diesel", [(1, "1.6 TDI"), (2, "2.0 TDI")]),
          ("Electric", [(3, "Electric Motor")]),
          ("Gasoline", [(4, "1.4 TSI"), (5, "2.0 TSI"), (6, "3.0 V6"), (7, "650cc Twin")]),
          ("Hybrid", [(8, "Hybrid 1.8")]) ]
      ∧ ((sampleSelected.selectEngine 1).2.current.bind Vehicle.engine).map Engine.name
          = some "1.4 TSI"
      ∧ ((sampleSelected.selectEngine 4).2.current.bind Vehicle.engine).map Engine.name
          = some "2.0 TSI"
      ∧ (∀ g ∈ initializeData.displayAvailableEngines, ∀ p ∈ g.2,
          initializeData.availableEngines[p.1 - 1]? ≠ some p.2) := by
  decide!


/-! ### Failing and unchecked loads -/

theorem loadItems_ne_returnedFalse :
    ∀ (n : Nat) (c : VehicleConfigurator) (file : Option (List Char)) (line : List Char),
      (loadItems n c file line).1 ≠ .returnedFalse := by
  intro n
  induction n with
  | zero => intro c file line; simp [loadItems]
  | succ n ih =>
    intro c file line
    simp only [loadItems]
    split
    · simp
    · split
      · simp
      · exact ih _ _ _

theorem loadSections_ne_returnedFalse (c : VehicleConfigurator) (file : Option (List Char))
    (line : List Char) : (loadSections c file line).1 ≠ .returnedFalse := by
  simp only [loadSections]
  repeat' split
  all_goals first
    | exact loadItems_ne_returnedFalse _ _ _ _
    | simp

/-- Whenever `loadConfiguration` returns false (the file cannot be opened or
no catalog vehicle matches), the configurator is unchanged. -/
theorem loadConfiguration_returnedFalse (c : VehicleConfigurator)
    (fs : List Char → Option (List Char)) (filename : List Char)
    (h : (loadConfiguration c fs filename).1 = .returnedFalse) :
    (loadConfiguration c fs filename).2 = c := by
  revert h
  simp only [loadConfiguration]
  repeat' split
  all_goals first
    | (intro _; rfl)
    | (intro h; exact absurd h (loadSections_ne_returnedFalse _ _ _))

/-- C21 at a failing input. The file is in the layout of section 6 with every
numeric field accepted, and its `DISCOUNT` line holds 150; loading it into the
freshly initialized configurator returns true and leaves the Golf with
discount 150, outside [0,100], and with the total price -46000. -/
theorem C21_load_sets_unchecked_discount :
    sampleOverDiscountFile.WellFormed
      ∧ Reachable (run initializeData sampleOverDiscountSession)
      ∧ (initializeData.loadConfiguration
          (singleFile "configs/golf.txt".data sampleOverDiscountFile.text) "golf".data).1
          = .returnedTrue
      ∧ (run initializeData sampleOverDiscountSession).current.map Vehicle.discount = some 150
      ∧ (∃ v ∈ (run initializeData sampleOverDiscountSession).availableVehicles,
          ¬ (0 ≤ v.discount ∧ v.discount ≤ 100))
      ∧ (run initializeData sampleOverDiscountSession).current.map Vehicle.calculateTotalPrice
          = some (-46000) := by
  refine ⟨by decide!, ⟨sampleOverDiscountSession, rfl⟩, by decide!, by decide!, ?_, by decide!⟩
  have h0 : (run initializeData sampleOverDiscountSession).availableVehicles[0]?.map
      Vehicle.discount = some 150 := by decide!
  cases hv : (run initializeData sampleOverDiscountSession).availableVehicles[0]? with
  | none => rw [hv] at h0; simp at h0
  | some v =>
    rw [hv] at h0
    simp only [Option.map_some', Option.some.injEq] at h0
    refine ⟨v, List.getElem?_mem hv, ?_⟩
    rw [h0]
    norm_num

/-- C29 at two failing inputs, with the Golf selected, colour White, no
discount. The load of a file for the Audi A4 whose `CAPACITY` is not a number
ends with the exception of `std::stod`, and by then the current vehicle is the
Audi A4 with the colour Red and the discount 5 of the file. When the `PRICE`
of the second item is not a number, the engine 2.0 TDI and the first item
"Heated seats" have been installed on the Audi A4 as well. -/
theorem C29_failed_load_leaves_changes :
    sampleSelected.currentVehicle = some 0
      ∧ sampleSelected.availableVehicles[1]?.map
          (fun v => (v.color, v.discount, v.engine, v.selectedEquipment))
          = some ("White", 0, none, [])
      ∧ (sampleSelected.loadConfiguration
          (singleFile "configs/audi.txt".data sampleBadCapacityFile.text) "audi".data).1
          = .threw
      ∧ (sampleSelected.loadConfiguration
          (singleFile "configs/audi.txt".data sampleBadCapacityFile.text) "audi".data).2.currentVehicle
          = some 1
      ∧ (sampleSelected.loadConfiguration
          (singleFile "configs/audi.txt".data sampleBadCapacityFile.text)
            "audi".data).2.availableVehicles[1]?.map
          (fun v => (v.color, v.discount, v.engine, v.selectedEquipment))
          = some ("Red", 5, none, [])
      ∧ (sampleSelected.loadConfiguration
          (singleFile "configs/audi.txt".data sampleBadItemPriceFile.text) "audi".data).1
          = .threw
      ∧ (sampleSelected.loadConfiguration
          (singleFile "configs/audi.txt".data sampleBadItemPriceFile.text)
            "audi".data).2.availableVehicles[1]?.map
          (fun v => (v.color, v.discount, v.engine.map Engine.name,
            v.selectedEquipment.map Equipment.name))
          = some ("Red", 5, some "2.0 TDI", ["Heated seats"]) := by
  refine ⟨by decide!, by decide!, by decide!, by decide!, by decide!, by decide!, by decide!⟩

/-! ### Thousands separators of `formatPrice` -/

theorem findPoint_append (ds rest : List Char) (h : ∀ ch ∈ ds, ch ≠ '.') :
    findPoint (ds ++ '.' :: rest) = ds.length := by
  induction ds with
  | nil => simp [findPoint]
  | cons d ds ih =>
    have hd : d ≠ '.' := h d (List.mem_cons_self _ _)
    have := ih (fun ch hch => h ch (List.mem_cons_of_mem _ hch))
    simp [findPoint, hd, this]

theorem insertCommas_groups :
    ∀ (fuel : Nat) (ds rest : List Char), ds.length ≤ fuel + 3 → 1 ≤ ds.length →
      ∃ (g0 : List Char) (gs : List (List Char)),
        insertCommas fuel (ds ++ rest) ds.length = g0 ++ gs.flatMap (fun g => ',' :: g) ++ rest
          ∧ ds = g0 ++ gs.flatten
          ∧ 1 ≤ g0.length ∧ g0.length ≤ 3 ∧ ∀ g ∈ gs, g.length = 3 := by
  intro fuel
  induction fuel with
  | zero =>
    intro ds rest h1 h2
    exact ⟨ds, [], by simp [insertCommas], by simp, h2, by omega, by simp⟩
  | succ fuel ih =>
    intro ds rest h1 h2
    by_cases h3 : 3 < ds.length
    · have htake : (ds ++ rest).take (ds.length - 3) = ds.take (ds.length - 3) := by
        rw [List.take_append_of_le_length (by omega)]
      have hdrop : (ds ++ rest).drop (ds.length - 3) = ds.drop (ds.length - 3) ++ rest := by
        rw [List.drop_append_of_le_length (by omega)]
      have hlen : (ds.take (ds.length - 3)).length = ds.length - 3 := by
        rw [List.length_take]; omega
      obtain ⟨g0, gs, hres, hds, hg1, hg2, hgs⟩ :=
        ih (ds.take (ds.length - 3)) (',' :: (ds.drop (ds.length - 3) ++ rest))
          (by rw [hlen]; omega) (by rw [hlen]; omega)
      refine ⟨g0, gs ++ [ds.drop (ds.length - 3)], ?_, ?_, hg1, hg2, ?_⟩
      · rw [insertCommas, if_pos h3, htake, hdrop]
        rw [hlen] at hres
        rw [show ds.take (ds.length - 3) ++ ',' :: (ds.drop (ds.length - 3) ++ rest)
            = ds.take (ds.length - 3) ++ (',' :: (ds.drop (ds.length - 3) ++ rest)) from rfl,
          hres]
        simp [List.flatMap_append]
      · have := List.take_append_drop (ds.length - 3) ds
        rw [List.flatten_append, ← List.append_assoc, ← hds]
        simp
      · intro g hg
        rcases List.mem_append.1 hg with h | h
        · exact hgs g h
        · rw [List.mem_singleton.1 h, List.length_drop]; omega
    · exact ⟨ds, [], by rw [insertCommas, if_neg h3]; simp, by simp, h2, by omega, by simp⟩

theorem filter_comma_digits (ds : List Char) (h : ∀ ch ∈ ds, isDigit ch = true) :
    ds.filter (fun ch => ch ≠ ',') = ds := by
  rw [List.filter_eq_self]
  intro ch hch
  have hd := h ch hch
  have : ch ≠ ',' := by
    intro e
    rw [e] at hd
    exact absurd hd (by decide)
  simpa using this

theorem filter_comma_groups (gs : List (List Char))
    (h : ∀ g ∈ gs, ∀ ch ∈ g, isDigit ch = true) :
    (gs.flatMap (fun g => ',' :: g)).filter (fun ch => ch ≠ ',') = gs.flatten := by
  induction gs with
  | nil => rfl
  | cons g gs ih =>
    have hgne : ∀ a ∈ g, ¬ a = ',' := by
      intro a ha e
      have hd := h g (List.mem_cons_self _ _) a ha
      rw [e] at hd
      exact absurd hd (by decide)
    have := ih (fun g2 hg2 => h g2 (List.mem_cons_of_mem _ hg2))
    simp only [List.flatMap_cons, List.filter_append, List.flatten_cons, this]
    simp [List.filter_cons]
    exact hgne

/-- C30: for a non-negative price, `formatPrice` returns a first group of one
to three digits, then groups of exactly three digits each preceded by a comma,
then the point, two decimals and " USD"; the groups, read without the commas,
are the integer digits of the plain two-decimal rendering, and removing the
commas from the result gives that rendering followed by " USD". -/
theorem C30_formatPrice_grouping (price : ℚ) (hprice : 0 ≤ price) :
    ∃ (g0 : List Char) (gs : List (List Char)) (d1 d2 : Char),
      formatPrice price = g0 ++ gs.flatMap (fun g => ',' :: g) ++ ['.', d1, d2] ++ " USD".data
        ∧ showFixed2 price = g0 ++ gs.flatten ++ ['.', d1, d2]
        ∧ 1 ≤ g0.length ∧ g0.length ≤ 3 ∧ (∀ g ∈ gs, g.length = 3)
        ∧ (∀ ch ∈ g0, isDigit ch = true) ∧ (∀ g ∈ gs, ∀ ch ∈ g, isDigit ch = true)
        ∧ isDigit d1 = true ∧ isDigit d2 = true
        ∧ (formatPrice price).filter (fun ch => ch ≠ ',') = showFixed2 price ++ " USD".data := by
  have hneg : ¬ price < 0 := not_lt.2 hprice
  have hfix : showFixed2 price
      = showNat (roundHalfEven (price.num.natAbs * 100) price.den / 100)
        ++ '.' :: [digitChar (roundHalfEven (price.num.natAbs * 100) price.den % 100 / 10),
          digitChar (roundHalfEven (price.num.natAbs * 100) price.den % 10)] := by
    simp [showFixed2, hneg]
  generalize hds : showNat (roundHalfEven (price.num.natAbs * 100) price.den / 100) = ds at hfix
  generalize hd1 : digitChar (roundHalfEven (price.num.natAbs * 100) price.den % 100 / 10)
    = d1 at hfix
  generalize hd2 : digitChar (roundHalfEven (price.num.natAbs * 100) price.den % 10) = d2 at hfix
  have hdig : ∀ ch ∈ ds, isDigit ch = true := hds ▸ showNat_digits _
  have hne : ds ≠ [] := hds ▸ showNat_ne_nil _
  have hi1 : isDigit d1 = true := hd1 ▸ digitChar_isDigit _ (by omega)
  have hi2 : isDigit d2 = true := hd2 ▸ digitChar_isDigit _ (by omega)
  have hpoint : findPoint (showFixed2 price) = ds.length := by
    rw [hfix]
    exact findPoint_append ds _ (fun ch hch => (isDigit_ne ch (hdig ch hch)).2.2.2.2.1)
  have hlen : 1 ≤ ds.length := by
    cases ds with
    | nil => exact absurd rfl hne
    | cons _ _ => simp
  obtain ⟨g0, gs, hres, hsplit, hg1, hg2, hgs⟩ :=
    insertCommas_groups ds.length ds ('.' :: [d1, d2]) (by omega) hlen
  have hfmt : formatPrice price
      = g0 ++ gs.flatMap (fun g => ',' :: g) ++ ['.', d1, d2] ++ " USD".data := by
    unfold formatPrice
    rw [hpoint, hfix, hres]
  have hg0 : ∀ ch ∈ g0, isDigit ch = true := fun ch hch =>
    hdig ch (by rw [hsplit]; exact List.mem_append_left _ hch)
  have hgsd : ∀ g ∈ gs, ∀ ch ∈ g, isDigit ch = true := fun g hg ch hch =>
    hdig ch (by rw [hsplit]; exact List.mem_append_right _ (List.mem_flatten.2 ⟨g, hg, hch⟩))
  refine ⟨g0, gs, d1, d2, hfmt, by rw [hfix, hsplit], hg1, hg2, hgs, hg0, hgsd, hi1, hi2, ?_⟩
  rw [hfmt, hfix, hsplit]
  simp only [List.filter_append, filter_comma_digits g0 hg0, filter_comma_groups gs hgsd]
  have e1 : ['.', d1, d2].filter (fun ch => ch ≠ ',') = ['.', d1, d2] :=
    List.filter_eq_self.2 (by
      intro ch hch
      simp only [List.mem_cons, List.mem_singleton, List.not_mem_nil, or_false] at hch
      rcases hch with h | h | h
      · rw [h]; decide
      · rw [h]
        have : d1 ≠ ',' := fun e => absurd (e ▸ hi1) (by decide)
        simpa using this
      · rw [h]
        have : d2 ≠ ',' := fun e => absurd (e ▸ hi2) (by decide)
        simpa using this)
  have e2 : " USD".data.filter (fun ch => ch ≠ ',') = " USD".data := by decide
  rw [e1, e2]

/-- C30 on 1234567.5, which is shown as "1,234,567.50 USD". -/
theorem C30_formatPrice_grouping_witness :
    formatPrice 1234567.5 = "1,234,567.50 USD".data
      ∧ (formatPrice 1234567.5).filter (fun ch => ch ≠ ',') = showFixed2 1234567.5 ++ " USD".data := by
  obtain ⟨g0, gs, d1, d2, -, -, -, -, -, -, -, -, -, h⟩ :=
    C30_formatPrice_grouping 1234567.5 (by norm_num)
  exact ⟨by decide!, h⟩

/-! ### What a load adds to the equipment -/

theorem find?_name_eq (cat : List Equipment) (n : List Char) (x : Equipment)
    (h : cat.find? (fun e => e.name.data == n) = some x) : x.name.data = n := by
  have := List.find?_some h
  simpa using this

theorem mem_known (cat : List Equipment) (names : List (List Char)) (x : Equipment)
    (h : x ∈ names.filterMap (fun n => cat.find? (fun e => e.name.data == n))) :
    cat.find? (fun e => e.name.data == x.name.data) = some x := by
  obtain ⟨n, -, hn⟩ := List.mem_filterMap.1 h
  have := find?_name_eq cat n x hn
  rw [this]
  exact hn

theorem foldl_addNamed_appends (cat : List Equipment) (names : List (List Char)) :
    ∀ v : Vehicle, ∃ added : List Equipment,
      (names.foldl (fun v n => v.addNamed cat n) v).selectedEquipment
          = v.selectedEquipment ++ added
        ∧ added.Sublist (names.filterMap (fun n => cat.find? (fun e => e.name.data == n)))
        ∧ (∀ x ∈ added, ∀ y ∈ v.selectedEquipment, y.name ≠ x.name)
        ∧ (∀ x ∈ names.filterMap (fun n => cat.find? (fun e => e.name.data == n)),
            (∀ y ∈ v.selectedEquipment, y.name ≠ x.name) → x ∈ added)
        ∧ (added.map Equipment.name).Nodup := by
  induction names with
  | nil =>
    intro v
    exact ⟨[], by simp, List.Sublist.refl _, by simp, by simp, by simp⟩
  | cons n ns ih =>
    intro v
    cases hfind : cat.find? (fun e => e.name.data == n) with
    | none =>
      have hv : v.addNamed cat n = v := by simp [Vehicle.addNamed, hfind]
      obtain ⟨added, h1, h2, h3, h4, h5⟩ := ih v
      refine ⟨added, ?_, ?_, h3, ?_, h5⟩
      · rw [List.foldl_cons, hv]; exact h1
      · rw [List.filterMap_cons, hfind]; exact h2
      · rw [List.filterMap_cons, hfind]; exact h4
    | some e =>
      have hv : v.addNamed cat n = v.addEquipment e := by simp [Vehicle.addNamed, hfind]
      by_cases hdup : ∃ y ∈ v.selectedEquipment, y.name = e.name
      · have hv2 : v.addEquipment e = v := addEquipment_of_name_mem v e hdup
        obtain ⟨added, h1, h2, h3, h4, h5⟩ := ih v
        refine ⟨added, ?_, ?_, h3, ?_, h5⟩
        · rw [List.foldl_cons, hv, hv2]; exact h1
        · rw [List.filterMap_cons, hfind]; exact List.Sublist.cons _ h2
        · rw [List.filterMap_cons, hfind]
          intro x hx hfresh
          rcases List.mem_cons.1 hx with hxe | hxk
          · obtain ⟨y, hy, hyn⟩ := hdup
            exact absurd (hxe ▸ hyn) (hfresh y hy)
          · exact h4 x hxk hfresh
      · have hfresh : ∀ y ∈ v.selectedEquipment, y.name ≠ e.name :=
          fun y hy hyn => hdup ⟨y, hy, hyn⟩
        have hv2 := addEquipment_of_name_not_mem v e hfresh
        obtain ⟨added, h1, h2, h3, h4, h5⟩ := ih (v.addEquipment e)
        have hsel : (v.addEquipment e).selectedEquipment = v.selectedEquipment ++ [e] := by
          rw [hv2]
        refine ⟨e :: added, ?_, ?_, ?_, ?_, ?_⟩
        · rw [List.foldl_cons, hv, h1, hsel]; simp
        · rw [List.filterMap_cons, hfind]; exact List.Sublist.cons₂ _ h2
        · intro x hx y hy
          rcases List.mem_cons.1 hx with hxe | hxa
          · rw [hxe]; exact hfresh y hy
          · exact h3 x hxa y (by rw [hsel]; exact List.mem_append_left _ hy)
        · rw [List.filterMap_cons, hfind]
          intro x hx hxfresh
          rcases List.mem_cons.1 hx with hxe | hxk
          · rw [hxe]; exact List.mem_cons_self _ _
          · by_cases hname : x.name = e.name
            · have hx2 := mem_known cat ns x hxk
              have he2 : cat.find? (fun y => y.name.data == e.name.data) = some e := by
                rw [find?_name_eq cat n e hfind]; exact hfind
              rw [hname, he2] at hx2
              rw [← Option.some.inj hx2]
              exact List.mem_cons_self _ _
            · apply List.mem_cons_of_mem
              apply h4 x hxk
              intro y hy
              rw [hsel] at hy
              rcases List.mem_append.1 hy with hy1 | hy1
              · exact hxfresh y hy1
              · rw [List.mem_singleton.1 hy1]; exact fun h => hname h.symm
        · rw [List.map_cons, List.nodup_cons]
          refine ⟨?_, h5⟩
          intro hmem
          obtain ⟨x, hx, hxn⟩ := List.mem_map.1 hmem
          exact h3 x hx e (by rw [hsel]; simp) hxn.symm

theorem updateCurrent_equipment_kept (c0 c : VehicleConfigurator) (g : Vehicle → Vehicle)
    (hg : ∀ v, v.selectedEquipment <+: (g v).selectedEquipment)
    (h : ∀ (k : Nat) (v : Vehicle), c0.availableVehicles[k]? = some v →
      ∃ w, c.availableVehicles[k]? = some w ∧ v.selectedEquipment <+: w.selectedEquipment) :
    ∀ (k : Nat) (v : Vehicle), c0.availableVehicles[k]? = some v →
      ∃ w, (c.updateCurrent g).availableVehicles[k]? = some w
        ∧ v.selectedEquipment <+: w.selectedEquipment := by
  intro k v hv
  obtain ⟨w, hw, hpre⟩ := h k v hv
  unfold VehicleConfigurator.updateCurrent
  split
  · exact ⟨w, hw, hpre⟩
  · rename_i i hi
    by_cases hik : i = k
    · exact ⟨g w, by simp [List.getElem?_modify, hik, hw], hpre.trans (hg w)⟩
    · exact ⟨w, by simp [List.getElem?_modify, hik, hw], hpre⟩

theorem addEquipment_equipment_kept (v : Vehicle) (e : Equipment) :
    v.selectedEquipment <+: (v.addEquipment e).selectedEquipment := by
  by_cases hdup : ∃ y ∈ v.selectedEquipment, y.name = e.name
  · rw [addEquipment_of_name_mem v e hdup]
  · rw [addEquipment_of_name_not_mem v e (fun y hy hyn => hdup ⟨y, hy, hyn⟩)]
    exact List.prefix_append _ _

/-- No call of `loadConfiguration`, whatever the file holds and however the
call ends, removes or reorders selected equipment: for every vehicle the list
it had before the call is the beginning of the list it has afterwards. -/
theorem loadConfiguration_equipment_kept (c : VehicleConfigurator)
    (fs : List Char → Option (List Char)) (filename : List Char) :
    ∀ (k : Nat) (v : Vehicle), c.availableVehicles[k]? = some v →
      ∃ w, (loadConfiguration c fs filename).2.availableVehicles[k]? = some w
        ∧ v.selectedEquipment <+: w.selectedEquipment := by
  refine loadConfiguration_preserves
    (fun c1 => ∀ (k : Nat) (v : Vehicle), c.availableVehicles[k]? = some v →
      ∃ w, c1.availableVehicles[k]? = some w ∧ v.selectedEquipment <+: w.selectedEquipment)
    ?_ ?_ c ?_ fs filename (fun k v hv => ⟨v, hv, List.prefix_refl _⟩)
  · intro c1 n h
    unfold VehicleConfigurator.addEquipmentNamed
    split
    · exact updateCurrent_equipment_kept c c1 _ (fun v => addEquipment_equipment_kept v _) h
    · exact h
  · intro c1 n h
    unfold VehicleConfigurator.installEngineNamed
    split
    · exact updateCurrent_equipment_kept c c1 _ (fun v => List.prefix_refl _) h
    · exact h
  · intro i col d _
    exact updateCurrent_equipment_kept c _ _ (fun v => List.prefix_refl _)
      (fun k v hv => ⟨v, hv, List.prefix_refl _⟩)

theorem foldl_addNamed_eq_foldl_addEquipment (cat : List Equipment) (names : List (List Char)) :
    ∀ v : Vehicle, names.foldl (fun v n => v.addNamed cat n) v
      = (names.filterMap (fun n => cat.find? (fun e => e.name.data == n))).foldl
          Vehicle.addEquipment v := by
  induction names with
  | nil => intro v; rfl
  | cons n ns ih =>
    intro v
    cases hfind : cat.find? (fun e => e.name.data == n) with
    | none =>
      have hv : v.addNamed cat n = v := by simp [Vehicle.addNamed, hfind]
      rw [List.foldl_cons, hv, List.filterMap_cons, hfind]
      exact ih v
    | some e =>
      have hv : v.addNamed cat n = v.addEquipment e := by simp [Vehicle.addNamed, hfind]
      rw [List.foldl_cons, hv, List.filterMap_cons, hfind, List.foldl_cons]
      exact ih _

theorem foldl_addEquipment_loop (old : List Equipment) :
    ∀ (items bs : List Equipment) (v : Vehicle),
      (∀ x ∈ items ++ bs, ∀ y ∈ items ++ bs, x.name = y.name → x = y) →
      v.selectedEquipment = old ++ bs.reverse →
      (items.foldl Vehicle.addEquipment v).selectedEquipment
        = old ++ List.eraseDups.loop
            (items.filter (fun x => old.all (fun y => y.name != x.name))) bs := by
  intro items
  induction items with
  | nil =>
    intro bs v _ hv
    simpa [List.eraseDups.loop] using hv
  | cons x items ih =>
    intro bs v hinj hv
    have hinj1 : ∀ a ∈ items ++ bs, ∀ b ∈ items ++ bs, a.name = b.name → a = b := by
      intro a ha b hb hab
      refine hinj a ?_ b ?_ hab
      · rcases List.mem_append.1 ha with h | h
        · exact List.mem_append_left _ (List.mem_cons_of_mem _ h)
        · exact List.mem_append_right _ h
      · rcases List.mem_append.1 hb with h | h
        · exact List.mem_append_left _ (List.mem_cons_of_mem _ h)
        · exact List.mem_append_right _ h
    have hinj2 : ∀ a ∈ items ++ x :: bs, ∀ b ∈ items ++ x :: bs, a.name = b.name → a = b := by
      intro a ha b hb hab
      refine hinj a ?_ b ?_ hab
      · rcases List.mem_append.1 ha with h | h
        · exact List.mem_append_left _ (List.mem_cons_of_mem _ h)
        · rcases List.mem_cons.1 h with h | h
          · rw [h]; exact List.mem_append_left _ (List.mem_cons_self _ _)
          · exact List.mem_append_right _ h
      · rcases List.mem_append.1 hb with h | h
        · exact List.mem_append_left _ (List.mem_cons_of_mem _ h)
        · rcases List.mem_cons.1 h with h | h
          · rw [h]; exact List.mem_append_left _ (List.mem_cons_self _ _)
          · exact List.mem_append_right _ h
    rw [List.foldl_cons]
    by_cases hx : old.all (fun y => y.name != x.name) = true
    · have hold : ∀ y ∈ old, y.name ≠ x.name := by
        intro y hy
        have := List.all_eq_true.1 hx y hy
        simpa using this
      have hf : (x :: items).filter (fun x => old.all (fun y => y.name != x.name))
          = x :: items.filter (fun x => old.all (fun y => y.name != x.name)) := by
        rw [List.filter_cons]
        simp only [hx, if_true]
      rw [hf]
      by_cases hb : x ∈ bs
      · have hv2 : v.addEquipment x = v :=
          addEquipment_of_name_mem v x ⟨x, by rw [hv]; simp [hb], rfl⟩
        have hloop : List.eraseDups.loop
            (x :: items.filter (fun x => old.all (fun y => y.name != x.name))) bs
            = List.eraseDups.loop
              (items.filter (fun x => old.all (fun y => y.name != x.name))) bs := by
          simp [List.eraseDups.loop, hb]
        rw [hv2, hloop]
        exact ih bs v hinj1 hv
      · have hfresh : ∀ y ∈ v.selectedEquipment, y.name ≠ x.name := by
          intro y hy hyn
          rw [hv] at hy
          rcases List.mem_append.1 hy with h | h
          · exact hold y h hyn
          · have hyb : y ∈ bs := List.mem_reverse.1 h
            have := hinj y (List.mem_append_right _ hyb) x
              (List.mem_append_left _ (List.mem_cons_self _ _)) hyn
            exact hb (this ▸ hyb)
        have hv2 := addEquipment_of_name_not_mem v x hfresh
        have hloop : List.eraseDups.loop
            (x :: items.filter (fun x => old.all (fun y => y.name != x.name))) bs
            = List.eraseDups.loop
              (items.filter (fun x => old.all (fun y => y.name != x.name))) (x :: bs) := by
          simp [List.eraseDups.loop, hb]
        rw [hloop]
        apply ih (x :: bs) (v.addEquipment x) hinj2
        rw [hv2]
        simp [hv]
    · have hdup : ∃ y ∈ v.selectedEquipment, y.name = x.name := by
        have : ∃ y ∈ old, y.name = x.name := by
          by_contra hcon
          apply hx
          rw [List.all_eq_true]
          intro y hy
          have : y.name ≠ x.name := fun h => hcon ⟨y, hy, h⟩
          simpa using this
        obtain ⟨y, hy, hyn⟩ := this
        exact ⟨y, by rw [hv]; exact List.mem_append_left _ hy, hyn⟩
      have hf : (x :: items).filter (fun x => old.all (fun y => y.name != x.name))
          = items.filter (fun x => old.all (fun y => y.name != x.name)) := by
        rw [List.filter_cons]
        simp [hx]
      rw [hf, addEquipment_of_name_mem v x hdup]
      exact ih bs v hinj1 hv

/-- What the item loop of the loader does to a vehicle, in one formula: the
catalog items found for the names read are filtered by "name not yet present"
and appended, each once, at its first mention. -/
theorem foldl_addNamed_eraseDups (cat : List Equipment) (names : List (List Char))
    (v : Vehicle) :
    (names.foldl (fun v n => v.addNamed cat n) v).selectedEquipment
      = v.selectedEquipment ++
          ((names.filterMap (fun n => cat.find? (fun e => e.name.data == n))).filter
            (fun x => v.selectedEquipment.all (fun y => y.name != x.name))).eraseDups := by
  rw [foldl_addNamed_eq_foldl_addEquipment]
  unfold List.eraseDups
  apply foldl_addEquipment_loop v.selectedEquipment _ [] v
  · intro x hx y hy hxy
    rw [List.append_nil] at hx hy
    have h1 := mem_known cat names x hx
    have h2 := mem_known cat names y hy
    rw [hxy] at h1
    exact Option.some.inj (h1.symm.trans h2)
  · simp

/-- C28 fails on a file whose `COUNT` is smaller than the number of its item
blocks. The file for the Audi A4 has `COUNT=1` and five item blocks, among
them "Navigation system" and "Leather upholstery", which are catalog items and
not on the vehicle; the load returns true and the equipment is "Heated seats"
as before: the loader reads one block and none of the later items is added. -/
theorem C28_blocks_beyond_count_not_read :
    kv "COUNT" "1".data ∈ sampleShortCountLines
      ∧ kv "NAME" "Navigation system".data ∈ sampleShortCountLines
      ∧ kv "NAME" "Leather upholstery".data ∈ sampleShortCountLines
      ∧ (∃ x ∈ sampleAudiSeats.availableEquipment, x.name = "Navigation system")
      ∧ (∃ x ∈ sampleAudiSeats.availableEquipment, x.name = "Leather upholstery")
      ∧ sampleAudiSeats.current.map (fun v => v.selectedEquipment.map Equipment.name)
        = some ["Heated seats"]
      ∧ (loadConfiguration sampleAudiSeats
          (singleFile "configs/audi.txt".data sampleShortCountText) "audi".data).1
        = .returnedTrue
      ∧ (loadConfiguration sampleAudiSeats
          (singleFile "configs/audi.txt".data sampleShortCountText) "audi".data).2.current.map
          (fun v => v.selectedEquipment.map Equipment.name)
        = some ["Heated seats"] := by
  refine ⟨by decide, by decide, by decide, by decide!, by decide!, by decide!, by decide!,
    by decide!⟩

/-- C28, amended. No call of `loadConfiguration` removes equipment: whatever
the file holds and however the call ends, the list every vehicle had before
the call is the beginning of the list it has afterwards. For a well-formed
file (the layout of section 6, `COUNT` equal to the number of item blocks)
with an `[ENGINE]` section whose vehicle is in the catalog, the call returns
true and the list of the matched vehicle is exactly the list it had before,
followed by the catalog items found for the names of the item blocks, without
those whose name was already present, each once at its first mention, in file
order. When no catalog engine has the engine name of the file, the vehicle
keeps the engine it had. -/
theorem C28_load_appends_equipment (c : VehicleConfigurator)
    (fs : List Char → Option (List Char)) (filename : List Char) :
    (∀ (k : Nat) (v : Vehicle), c.availableVehicles[k]? = some v →
        ∃ w, (loadConfiguration c fs filename).2.availableVehicles[k]? = some w
          ∧ v.selectedEquipment <+: w.selectedEquipment)
      ∧ ∀ (f : ConfigFile) (e : FileEngine),
          fs (fullPath filename) = some f.text → f.WellFormed → f.engine = some e →
          (∃ v ∈ c.availableVehicles, v.brand.data = f.brand ∧ v.model.data = f.model) →
          (loadConfiguration c fs filename).1 = .returnedTrue
            ∧ ∃ (i : Nat) (old final : Vehicle),
              c.availableVehicles[i]? = some old
              ∧ old.brand.data = f.brand ∧ old.model.data = f.model
              ∧ (loadConfiguration c fs filename).2.currentVehicle = some i
              ∧ (loadConfiguration c fs filename).2.current = some final
              ∧ final.selectedEquipment
                  = old.selectedEquipment ++
                    (((f.items.map FileItem.name).filterMap
                        (fun n => c.availableEquipment.find? (fun x => x.name.data == n))).filter
                      (fun x => old.selectedEquipment.all (fun y => y.name != x.name))).eraseDups
              ∧ ((∀ x ∈ c.availableEngines, x.name.data ≠ e.name) →
                  final.engine = old.engine) := by
  refine ⟨loadConfiguration_equipment_kept c fs filename, ?_⟩
  intro f e hfs hwf he hveh
  obtain ⟨v, hv, hvb, hvm⟩ := hveh
  obtain ⟨i, hi⟩ := findIndex_isSome
    (fun v : Vehicle => v.brand.data == f.brand && v.model.data == f.model)
    c.availableVehicles v hv (by simp [hvb, hvm])
  obtain ⟨old, hold, hp⟩ := findIndex_some _ _ _ hi
  have hdd := hwf.2.2.2.2.2.2.2.2.1
  obtain ⟨d, hd⟩ := Option.isSome_iff_exists.1 hdd
  obtain ⟨r1, r2, -, -, -, -, r7⟩ := load_wellFormed c fs filename f e d i old hfs hwf he hd hi hold
  simp only [Bool.and_eq_true, beq_iff_eq] at hp
  obtain ⟨q1, -, -, -, -, -, q7, -⟩ := installNamed_frame c.availableEngines
    ((old.setColor (String.mk f.color)).setDiscount d) e.name
  have a := foldl_addNamed_eraseDups c.availableEquipment (f.items.map FileItem.name)
    (((old.setColor (String.mk f.color)).setDiscount d).installNamed c.availableEngines e.name)
  rw [q1] at a
  refine ⟨r1, i, old, _, hold, hp.1, hp.2, r2, r7, a, ?_⟩
  intro hx
  rw [(foldl_addNamed_frame _ _ _).1, q7 hx]
  rfl

/-- C28, amended, on the Audi A4 that has "Heated seats": the file
`sampleAppendFile` names "Heated seats", the unknown "Sunroof", "Navigation
system", "Leather upholstery" and "Navigation system" again; after the load
the list is "Heated seats", "Navigation system", "Leather upholstery", and the
vehicle still has no engine. -/
theorem C28_load_appends_equipment_witness :
    sampleAppendFile.WellFormed
      ∧ (loadConfiguration sampleAudiSeats
          (singleFile "configs/audi.txt".data sampleAppendFile.text) "audi".data).1
        = .returnedTrue
      ∧ sampleAudiSeats.current.map (fun v => v.selectedEquipment.map Equipment.name)
        = some ["Heated seats"]
      ∧ (loadConfiguration sampleAudiSeats
          (singleFile "configs/audi.txt".data sampleAppendFile.text) "audi".data).2.current.map
          (fun v => (v.selectedEquipment.map Equipment.name, v.engine))
        = some (["Heated seats", "Navigation system", "Leather upholstery"], none) :=
  ⟨by decide!,
    ((C28_load_appends_equipment sampleAudiSeats
      (singleFile "configs/audi.txt".data sampleAppendFile.text) "audi".data).2 sampleAppendFile
      _ (by decide!) (by decide!) rfl (by decide!)).1,
    by decide!, by decide!⟩

end VC
